import Mathlib

/-!
Verification of the dctap-dancer format-conversion subsystem.

JavaScript strings are modelled as lists of characters (`Str`); nullable
string fields as `Option Str`, with the JS coercion of the empty string to
null made explicit where the code performs it (`x || null`).  The per-shape
row tables of the SQLite store are modelled as in-memory lists; `list`
operations reproduce the ORDER BY clauses of the store (shapes by shape id,
rows by row order, stable).
-/

/-- A JavaScript string, as a list of characters. -/
abbrev Str := List Char

/-- Coerce a Lean string literal to the `Str` model. -/
def str (s : String) : Str := s.data

/-- The whitespace characters trimmed by JS `String.prototype.trim`
(ASCII subset: space, tab, newline, carriage return, vertical tab, form feed). -/
def wsChar (c : Char) : Bool :=
  c == ' ' || c == '\t' || c == '\n' || c == '\x0d' || c == '\x0b' || c == '\x0c'

/-- JS `s.trim()`: drop whitespace from both ends. -/
def jstrim (s : Str) : Str :=
  ((s.dropWhile wsChar).reverse.dropWhile wsChar).reverse

/-- JS falsy-string coercion `s || null`. -/
def orNull (s : Str) : Option Str := if s.isEmpty then none else some s

/-- JS `(o ?? null) || null` on an optional field: empty string also becomes null. -/
def normField (o : Option Str) : Option Str := o.bind orNull

/-- Boolean prefix test on character lists (JS `startsWith`). -/
def isPre : Str → Str → Bool
  | [], _ => true
  | _ :: _, [] => false
  | a :: as, b :: bs => a == b && isPre as bs

/-- Boolean substring test on character lists (JS `includes`). -/
def hasSub (pat : Str) : Str → Bool
  | [] => pat.isEmpty
  | c :: rest => isPre pat (c :: rest) || hasSub pat rest

/-- Split a string at every character satisfying `p`
(JS `split` with a single-character-class regex). -/
def splitPred (p : Char → Bool) : Str → List Str
  | [] => [[]]
  | c :: rest =>
    if p c then [] :: splitPred p rest
    else
      match splitPred p rest with
      | [] => [[c]]
      | s :: ss => (c :: s) :: ss

/-- Replace every occurrence of character `c` by the string `rep`
(JS `replace` with a global single-character regex). -/
def replaceChar (c : Char) (rep : Str) : Str → Str
  | [] => []
  | d :: rest => if d == c then rep ++ replaceChar c rep rest else d :: replaceChar c rep rest

/-- JS `toLowerCase`, character by character (ASCII). -/
def jsToLower (s : Str) : Str := s.map Char.toLower

/- ### Namespace resolver (backend/src/services/marva-profile.ts) -/

/-- A workspace namespace entry: prefix and namespace URI. -/
structure NamespaceDef where
  pfx : Str
  uri : Str
deriving DecidableEq

/-- `prefixUri` (marva-profile.ts:25): return `prefix:localPart` for the first
namespace whose URI is a literal prefix of the input, else the input unchanged. -/
def prefixUri (u : Str) : List NamespaceDef → Str
  | [] => u
  | ns :: rest =>
    if isPre ns.uri u then ns.pfx ++ ':' :: u.drop ns.uri.length
    else prefixUri u rest

/-- `expandUri` (marva-profile.ts:38): split at the first colon (input returned
unchanged when there is none or when the input contains `://`), and substitute
the namespace URI of the first entry whose prefix matches. -/
def expandUri (p : Str) (namespaces : List NamespaceDef) : Str :=
  let pre := p.takeWhile (fun c => !(c == ':'))
  if pre.length = p.length then p
  else if hasSub (str r"://") p then p
  else
    match namespaces.find? (fun ns => ns.pfx == pre) with
    | some ns => ns.uri ++ p.drop (pre.length + 1)
    | none => p

/- ### Multi-value decoding -/

/-- Delimiter class of the spreadsheet UI decode: comma, pipe or newline. -/
def isMultiDelim (c : Char) : Bool := c == ',' || c == '|' || c == '\n'

/-- `getMultilineValues` (frontend spreadsheet component): split a stored cell
on any of comma, pipe or newline, trim each piece, drop empties. -/
def getMultilineValues (value : Option Str) : List Str :=
  match value with
  | none => []
  | some v =>
    if v.isEmpty then []
    else ((splitPred isMultiDelim v).map jstrim).filter (fun s => !s.isEmpty)

/-- The Marva exporter decode of a stored multi-valued cell
(marva-profile.ts:368 etc.): split on newline only, trim, drop empties. -/
def marvaDecodeMulti (v : Str) : List Str :=
  ((splitPred (fun c => c == '\n') v).map jstrim).filter (fun s => !s.isEmpty)

/-- JS `a || b` for a nullable string `a`: empty and null both fall through. -/
def jsOrStr (o : Option Str) (b : Str) : Str :=
  match o with
  | some s => if s.isEmpty then b else s
  | none => b

/-- JS truthiness of a nullable string field. -/
def optTruthy (o : Option Str) : Bool :=
  match o with
  | some s => !s.isEmpty
  | none => false

/- ### Store model (backend/src/services/database.ts)

The SQLite-backed store is modelled in memory: one `Workspace` holds its
shapes (each with its own row table), folders and namespaces in insertion
order; the `list` operations sort as the corresponding ORDER BY clauses do
(shapes by shape id ascending, rows by row order ascending and stable,
folders by name, namespaces by prefix). -/

/-- One statement row of a shape (the nullable text columns of a row table). -/
structure StatementRow where
  rowOrder : Nat
  propertyId : Option Str := none
  propertyLabel : Option Str := none
  mandatory : Option Str := none
  repeatable : Option Str := none
  valueNodeType : Option Str := none
  valueDataType : Option Str := none
  valueShape : Option Str := none
  valueConstraint : Option Str := none
  valueConstraintType : Option Str := none
  note : Option Str := none
  lcDefaultLiteral : Option Str := none
  lcDefaultURI : Option Str := none
  lcDataTypeURI : Option Str := none
  lcRemark : Option Str := none
deriving DecidableEq

/-- The request payload of `rowService.create` (fields may be absent). -/
structure CreateRowRequest where
  rowOrder : Option Nat := none
  propertyId : Option Str := none
  propertyLabel : Option Str := none
  mandatory : Option Str := none
  repeatable : Option Str := none
  valueNodeType : Option Str := none
  valueDataType : Option Str := none
  valueShape : Option Str := none
  valueConstraint : Option Str := none
  valueConstraintType : Option Str := none
  note : Option Str := none
  lcDefaultLiteral : Option Str := none
  lcDefaultURI : Option Str := none
  lcDataTypeURI : Option Str := none
  lcRemark : Option Str := none
deriving DecidableEq

/-- A shape together with its row table (rows in insertion order). -/
structure Shape where
  shapeId : Str
  shapeLabel : Option Str := none
  description : Option Str := none
  resourceURI : Option Str := none
  folderId : Option Nat := none
  rows : List StatementRow := []
deriving DecidableEq

/-- A workspace folder. -/
structure Folder where
  id : Nat
  name : Str
deriving DecidableEq

/-- A workspace: shapes, folders and namespaces in insertion order. -/
structure Workspace where
  name : Str := []
  shapes : List Shape := []
  folders : List Folder := []
  nextFolderId : Nat := 1
  namespaces : List NamespaceDef := []
  useLCColumns : Bool := false
deriving DecidableEq

/-- Strict lexicographic order on strings by character code
(SQLite ORDER BY on text columns). -/
def strLtb : Str → Str → Bool
  | [], [] => false
  | [], _ :: _ => true
  | _ :: _, [] => false
  | a :: as, b :: bs => decide (a.val < b.val) || (a == b && strLtb as bs)

/-- Reflexive lexicographic order on strings. -/
def strLeb (a b : Str) : Bool := strLtb a b || a == b

/-- `DEFAULT_NAMESPACES` (types/dctap.ts, concatenated into
backend/src/index.ts:172-189): the default namespace table seeded into new
workspaces. -/
def DEFAULT_NAMESPACES : List NamespaceDef :=
  [⟨str r"rdf", str r"http://www.w3.org/1999/02/22-rdf-syntax-ns#"⟩,
   ⟨str r"rdfs", str r"http://www.w3.org/2000/01/rdf-schema#"⟩,
   ⟨str r"xsd", str r"http://www.w3.org/2001/XMLSchema#"⟩,
   ⟨str r"owl", str r"http://www.w3.org/2002/07/owl#"⟩,
   ⟨str r"skos", str r"http://www.w3.org/2004/02/skos/core#"⟩,
   ⟨str r"dcterms", str r"http://purl.org/dc/terms/"⟩,
   ⟨str r"foaf", str r"http://xmlns.com/foaf/0.1/"⟩,
   ⟨str r"bf", str r"http://id.loc.gov/ontologies/bibframe/"⟩,
   ⟨str r"bflc", str r"http://id.loc.gov/ontologies/bflc/"⟩,
   ⟨str r"bfsimple", str r"http://id.loc.gov/ontologies/bfsimple/"⟩,
   ⟨str r"cc", str r"http://creativecommons.org/ns#"⟩,
   ⟨str r"sp", str r"http://id.loc.gov/ontologies/sp/"⟩,
   ⟨str r"pom", str r"http://performedmusicontology.org/ontology/"⟩,
   ⟨str r"mads", str r"http://www.loc.gov/mads/rdf/v1#"⟩]

/-- `workspaceService.create`: a fresh workspace seeded with the default
namespaces. -/
def workspaceCreate (name : Str) : Workspace :=
  { name := name, namespaces := DEFAULT_NAMESPACES }

/-- `shapeService.list`: shapes ordered by shape id ascending. -/
def shapesList (w : Workspace) : List Shape :=
  List.insertionSort (fun a b => strLeb a.shapeId b.shapeId = true) w.shapes

/-- `shapeService.get`: first shape with the given id. -/
def shapeGet (w : Workspace) (id : Str) : Option Shape :=
  w.shapes.find? (fun s => s.shapeId == id)

/-- `shapeService.create`: append a shape; empty-string label, description and
resource URI are stored as null (`x || null`). -/
def shapeCreate (w : Workspace) (id : Str) (label uri : Option Str)
    (folderId : Option Nat) (desc : Option Str) : Workspace :=
  { w with shapes := w.shapes ++
      [{ shapeId := id, shapeLabel := normField label, description := normField desc,
         resourceURI := normField uri, folderId := folderId }] }

/-- `shapeService.delete`: remove every shape with the given id. -/
def shapeDelete (w : Workspace) (id : Str) : Workspace :=
  { w with shapes := w.shapes.filter (fun s => !(s.shapeId == id)) }

/-- Next row order when the request does not carry one
(`MAX(row_order) + 1`, or `0` for an empty table). -/
def nextRowOrder (rows : List StatementRow) : Nat :=
  match rows with
  | [] => 0
  | r :: rest => (rest.foldl (fun m x => max m x.rowOrder) r.rowOrder) + 1

/-- Build the stored row from a create request (`x || null` on every field). -/
def mkRow (existing : List StatementRow) (d : CreateRowRequest) : StatementRow :=
  { rowOrder := d.rowOrder.getD (nextRowOrder existing),
    propertyId := normField d.propertyId,
    propertyLabel := normField d.propertyLabel,
    mandatory := normField d.mandatory,
    repeatable := normField d.repeatable,
    valueNodeType := normField d.valueNodeType,
    valueDataType := normField d.valueDataType,
    valueShape := normField d.valueShape,
    valueConstraint := normField d.valueConstraint,
    valueConstraintType := normField d.valueConstraintType,
    note := normField d.note,
    lcDefaultLiteral := normField d.lcDefaultLiteral,
    lcDefaultURI := normField d.lcDefaultURI,
    lcDataTypeURI := normField d.lcDataTypeURI,
    lcRemark := normField d.lcRemark }

/-- `rowService.create`: append the row to the table of the given shape. -/
def rowCreate (w : Workspace) (id : Str) (d : CreateRowRequest) : Workspace :=
  { w with shapes := w.shapes.map (fun s =>
      if s.shapeId == id then { s with rows := s.rows ++ [mkRow s.rows d] } else s) }

/-- `rowService.list`: rows of a shape ordered by row order ascending
(stable, matching the store). -/
def rowsList (w : Workspace) (id : Str) : List StatementRow :=
  match shapeGet w id with
  | none => []
  | some s => List.insertionSort (fun a b => a.rowOrder ≤ b.rowOrder) s.rows

/-- `folderService.list`: folders ordered by name ascending. -/
def foldersList (w : Workspace) : List Folder :=
  List.insertionSort (fun a b => strLeb a.name b.name = true) w.folders

/-- `folderService.create`: append a folder with the next id. -/
def folderCreate (w : Workspace) (name : Str) : Workspace × Nat :=
  ({ w with folders := w.folders ++ [⟨w.nextFolderId, name⟩],
            nextFolderId := w.nextFolderId + 1 },
   w.nextFolderId)

/-- `namespaceService.list`: namespaces ordered by prefix ascending. -/
def namespacesList (w : Workspace) : List NamespaceDef :=
  List.insertionSort (fun a b => strLeb a.pfx b.pfx = true) w.namespaces

/-- `namespaceService.create`: append a namespace entry. -/
def namespaceCreate (w : Workspace) (pfx uri : Str) : Workspace :=
  { w with namespaces := w.namespaces ++ [⟨pfx, uri⟩] }

/- ### Starting point converter (services/starting-point.ts) -/

/-- The reserved starting-point shape id marker (`STARTING_POINT_PREFIX`). -/
def startingPointMark : Str := str r"startingpoint:"

/-- The reserved starting-points folder name. -/
def startingPointFolderName : Str := str r"Starting Points"

/-- The reserved index shape id (`STARTING_POINT_INDEX_ID`). -/
def startingPointIndexId : Str := str r"startingpoint:index"

/-- `isStartingPointShape`: the lower-cased id starts with the reserved marker
or contains the substring `startingpoint`. -/
def isStartingPointShape (shapeId : Str) : Bool :=
  isPre (jsToLower startingPointMark) (jsToLower shapeId) ||
  hasSub (str r"startingpoint") (jsToLower shapeId)

/-- `isInStartingPointFolder`: the folder with the given id is named
`Starting Points`. -/
def isInStartingPointFolder (w : Workspace) (folderId : Option Nat) : Bool :=
  match folderId with
  | none => false
  | some fid =>
    match (foldersList w).find? (fun f => f.id == fid) with
    | some f => f.name == startingPointFolderName
    | none => false

/-- `getOrCreateStartingPointFolder`: reuse the folder by name, else create. -/
def getOrCreateStartingPointFolder (w : Workspace) : Workspace × Nat :=
  match (foldersList w).find? (fun f => f.name == startingPointFolderName) with
  | some f => (w, f.id)
  | none => folderCreate w startingPointFolderName

/-- The whitespace-run collapse scan (`inRun` marks an open whitespace run). -/
def collapseWsAux : Bool → Str → Str
  | _, [] => []
  | inRun, c :: rest =>
    if wsChar c then
      (if inRun then collapseWsAux true rest else '_' :: collapseWsAux true rest)
    else c :: collapseWsAux false rest

/-- JS `replace(/\s+/g, c)`: collapse every whitespace run to one underscore. -/
def collapseWs (s : Str) : Str := collapseWsAux false s

/-- JS `s.replace(pat, rep)` with a string pattern: replace the first
occurrence only. -/
def replaceFirstSub (pat rep : Str) : Str → Str
  | [] => if pat.isEmpty then rep else []
  | c :: rest =>
    if pat.isEmpty then rep ++ c :: rest
    else if isPre pat (c :: rest) then rep ++ (c :: rest).drop pat.length
    else c :: replaceFirstSub pat rep rest

/-- One menu item of an LC starting-point group. -/
structure StartingPointMenuItem where
  label : Str
  type : List Str
  useResourceTemplates : List Str
deriving DecidableEq

/-- One menu group of an LC starting-point file. -/
structure StartingPointMenuGroup where
  menuGroup : Str
  menuItems : List StartingPointMenuItem
deriving DecidableEq

/-- One config element of an LC starting-point file. -/
structure StartingPointConfig where
  id : Str
  name : Str
  configType : Str
  json : List StartingPointMenuGroup
deriving DecidableEq

/-- The LC starting-point file: an array of config elements. -/
abbrev StartingPointFile := List StartingPointConfig

/-- The result record of `importStartingPoints`. -/
structure ImportStartingPointResult where
  shapesCreated : Nat
  rowsCreated : Nat
  folderId : Nat
deriving DecidableEq

/-- The shape id of a starting-point menu group: marker plus the group name
with whitespace runs collapsed to underscores. -/
def spGroupShapeId (menuGroup : Str) : Str :=
  startingPointMark ++ collapseWs menuGroup

/-- Create the rows of one starting-point group shape, one per menu item
(first type and first resource template only). -/
def spCreateItemRows (w : Workspace) (shapeId : Str) :
    List StartingPointMenuItem → Nat → Nat → Workspace × Nat
  | [], _, rowsCreated => (w, rowsCreated)
  | item :: rest, ro, rowsCreated =>
    let w' := rowCreate w shapeId
      { rowOrder := some ro,
        propertyId := some (str r"dcterms:hasPart"),
        propertyLabel := some item.label,
        valueNodeType := some (str r"IRI"),
        valueShape := some (item.useResourceTemplates.headD []),
        valueConstraint := some (item.type.headD []),
        valueConstraintType := some (str r"picklist") }
    spCreateItemRows w' shapeId rest (ro + 1) (rowsCreated + 1)

/-- Process the menu groups of `importStartingPoints`: delete-then-create one
shape per group, fill its item rows, and record `(shapeId, label)` pairs. -/
def spCreateGroups (w : Workspace) (folderId : Nat) :
    List StartingPointMenuGroup → Nat → Nat → List (Str × Str) →
    Workspace × Nat × Nat × List (Str × Str)
  | [], shapesCreated, rowsCreated, created => (w, shapesCreated, rowsCreated, created)
  | g :: rest, shapesCreated, rowsCreated, created =>
    let shapeId := spGroupShapeId g.menuGroup
    let w1 := if (shapeGet w shapeId).isSome then shapeDelete w shapeId else w
    let w2 := shapeCreate w1 shapeId (some g.menuGroup) none (some folderId) none
    let t := spCreateItemRows w2 shapeId g.menuItems 0 rowsCreated
    spCreateGroups t.1 folderId rest (shapesCreated + 1) t.2 (created ++ [(shapeId, g.menuGroup)])

/-- Create the index rows linking to each created group shape, in order. -/
def spCreateIndexRows (w : Workspace) :
    List (Str × Str) → Nat → Nat → Workspace × Nat
  | [], _, rowsCreated => (w, rowsCreated)
  | (shapeId, label) :: rest, ro, rowsCreated =>
    let w' := rowCreate w startingPointIndexId
      { rowOrder := some ro,
        propertyId := some (str r"dcterms:hasPart"),
        propertyLabel := some label,
        valueShape := some shapeId }
    spCreateIndexRows w' rest (ro + 1) (rowsCreated + 1)

/-- `importStartingPoints` (starting-point.ts:56): locate the starting-points
config, replace each menu-group shape, and rebuild the index shape. -/
def importStartingPoints (w : Workspace) (data : StartingPointFile) :
    Except Str (Workspace × ImportStartingPointResult) :=
  match data.find? (fun c => c.configType == str r"startingPoints") with
  | none => .error (str r"No startingPoints config found in file")
  | some config =>
    let menuGroups := config.json
    if menuGroups.isEmpty then
      .error (str r"No menu groups found in starting points config")
    else
      let tf := getOrCreateStartingPointFolder w
      let folderId := tf.2
      let tg := spCreateGroups tf.1 folderId menuGroups 0 0 []
      let w1 := tg.1
      let w2 := if (shapeGet w1 startingPointIndexId).isSome
                then shapeDelete w1 startingPointIndexId else w1
      let w3 := shapeCreate w2 startingPointIndexId
        (some (str r"Starting Point Index")) none (some folderId) none
      let ti := spCreateIndexRows w3 tg.2.2.2 0 tg.2.2.1
      .ok (ti.1, { shapesCreated := tg.2.1 + 1, rowsCreated := ti.2,
                   folderId := folderId })

/-- The menu group exported from one starting-point shape: its
`dcterms:hasPart` rows as items; `none` when it has no such rows. -/
def spExportGroup (w : Workspace) (shape : Shape) : Option StartingPointMenuGroup :=
  let rows := rowsList w shape.shapeId
  let menuItems := (rows.filter
      (fun r => r.propertyId == some (str r"dcterms:hasPart"))).map
    (fun r =>
      { label := jsOrStr r.propertyLabel [],
        type := match r.valueConstraint with
                | some v => if v.isEmpty then [] else [v]
                | none => [],
        useResourceTemplates := match r.valueShape with
                | some v => if v.isEmpty then [] else [v]
                | none => [] })
  if menuItems.isEmpty then none
  else some
    { menuGroup := jsOrStr shape.shapeLabel
        (replaceChar '_' [' '] (replaceFirstSub startingPointMark [] shape.shapeId)),
      menuItems := menuItems }

/-- The starting-point shapes of a workspace (listing order, index excluded). -/
def spShapes (w : Workspace) : List Shape :=
  (shapesList w).filter
    (fun s => isStartingPointShape s.shapeId && !(s.shapeId == startingPointIndexId))

/-- The shape ids referenced by the index rows (in row order), or `[]` when
there is no index shape. -/
def spOrderedShapeIds (w : Workspace) : List Str :=
  match (shapesList w).find? (fun s => s.shapeId == startingPointIndexId) with
  | none => []
  | some _ =>
    ((rowsList w startingPointIndexId).filter
      (fun r => optTruthy r.valueShape)).map (fun r => r.valueShape.getD [])

/-- The shape map lookup of the exporter (`new Map` keeps the last entry for a
duplicated key). -/
def spShapeMapGet (w : Workspace) (id : Str) : Option Shape :=
  (spShapes w).reverse.find? (fun s => s.shapeId == id)

/-- The export order of starting-point shapes: index-referenced shapes first
in index order, then the remaining shapes in listing order. -/
def spOrderedShapes (w : Workspace) : List Shape :=
  ((spOrderedShapeIds w).filter (fun id => (spShapeMapGet w id).isSome)).filterMap
    (spShapeMapGet w) ++
  (spShapes w).filter (fun s => !((spOrderedShapeIds w).contains s.shapeId))

/-- `exportStartingPoints` (starting-point.ts:163): `none` when there is no
starting-point shape or every group would be empty, else one config holding
the ordered menu groups. -/
def exportStartingPoints (w : Workspace) : Option StartingPointFile :=
  if (spShapes w).isEmpty then none
  else
    let menuGroups := (spOrderedShapes w).filterMap (spExportGroup w)
    if menuGroups.isEmpty then none
    else some [{ id := [], name := str r"config",
                 configType := str r"startingPoints", json := menuGroups }]

/- ### Marva profile converter (services/marva-profile.ts) -/

/-- The `valueDataType` object of a Marva value constraint. -/
structure MarvaValueDataType where
  dataTypeURI : Option Str := none
deriving DecidableEq

/-- One default entry of a Marva value constraint. -/
structure MarvaDefault where
  defaultURI : Option Str := none
  defaultLiteral : Option Str := none
deriving DecidableEq

/-- A Marva value constraint (fields may be absent in input documents). -/
structure MarvaValueConstraint where
  valueTemplateRefs : Option (List Str) := none
  useValuesFrom : Option (List Str) := none
  defaults : Option (List MarvaDefault) := none
  valueDataType : Option MarvaValueDataType := none
  repeatable : Option Str := none
deriving DecidableEq

/-- A Marva property template. -/
structure MarvaPropertyTemplate where
  propertyURI : Str
  propertyLabel : Str
  mandatory : Str
  repeatable : Option Str := none
  type : Str
  remark : Option Str := none
  valueConstraint : Option MarvaValueConstraint := none
deriving DecidableEq

/-- A Marva resource template. -/
structure MarvaResourceTemplate where
  id : Str
  resourceURI : Option Str := none
  resourceLabel : Option Str := none
  remark : Option Str := none
  propertyTemplates : Option (List MarvaPropertyTemplate) := none
deriving DecidableEq

/-- A Marva profile. -/
structure MarvaProfile where
  id : Str
  title : Str
  description : Option Str := none
  resourceTemplates : Option (List MarvaResourceTemplate) := none
deriving DecidableEq

/-- A Marva profile document; `jsonProfile` models `doc.json.Profile`
(generated id and timestamp metadata are not modelled). -/
structure MarvaProfileDocument where
  name : Str := []
  jsonProfile : Option MarvaProfile := none
deriving DecidableEq

/-- The result record of `importMarvaProfiles`. -/
structure ImportMarvaProfileResult where
  shapesCreated : Nat
  rowsCreated : Nat
deriving DecidableEq

/-- The flatten step of the importer: split each ref on commas, trim, drop
empties (string elements only; non-string elements do not occur in the model). -/
def marvaFlattenRefs (refs : List Str) : List Str :=
  refs.flatMap (fun ref =>
    ((splitPred (fun c => c == ',') ref).map jstrim).filter (fun s => !s.isEmpty))

/-- `propertyTemplateToRow` (marva-profile.ts:59): convert one Marva property
template to a row create request. -/
def propertyTemplateToRow (prop : MarvaPropertyTemplate) (rowOrder : Nat)
    (namespaces : List NamespaceDef) : CreateRowRequest :=
  let base : CreateRowRequest :=
    { rowOrder := some rowOrder,
      propertyId := some (prefixUri prop.propertyURI namespaces),
      propertyLabel := some prop.propertyLabel,
      mandatory := some prop.mandatory,
      repeatable := some (jsOrStr prop.repeatable
        (jsOrStr (prop.valueConstraint.bind (fun vc => vc.repeatable)) (str r"false"))),
      lcRemark := normField prop.remark }
  let row :=
    if prop.type == str r"literal" then
      { base with valueNodeType := some (str r"literal") }
    else if prop.type == str r"resource" || prop.type == str r"list" then
      let refs := (prop.valueConstraint.bind (fun vc => vc.valueTemplateRefs)).getD []
      if refs.length > 0 then
        { base with valueNodeType := some (str r"bnode"),
                    valueShape := some (List.intercalate ['\n'] (marvaFlattenRefs refs)) }
      else base
    else if prop.type == str r"lookup" then
      let vals := (prop.valueConstraint.bind (fun vc => vc.useValuesFrom)).getD []
      if vals.length > 0 then
        { base with valueConstraintType := some (str r"IRIstem"),
                    valueConstraint := some (List.intercalate ['\n'] (marvaFlattenRefs vals)) }
      else base
    else base
  let row :=
    match (prop.valueConstraint.bind (fun vc => vc.valueDataType)).bind
        (fun vdt => vdt.dataTypeURI) with
    | some d => if d.isEmpty then row
                else { row with lcDataTypeURI := some (prefixUri d namespaces) }
    | none => row
  let defaults := (prop.valueConstraint.bind (fun vc => vc.defaults)).getD []
  if defaults.length > 0 then
    let literals := defaults.filterMap (fun d =>
      match d.defaultLiteral with
      | some l => if l.isEmpty then none else some l
      | none => none)
    let uris := defaults.filterMap (fun d =>
      match d.defaultURI with
      | some u => if u.isEmpty then none else some u
      | none => none)
    let row := if literals.length > 0
               then { row with lcDefaultLiteral := some (List.intercalate ['\n'] literals) }
               else row
    if uris.length > 0
    then { row with lcDefaultURI := some (List.intercalate ['\n'] uris) }
    else row
  else row

/-- `extractFolderName` (marva-profile.ts:137): heuristic folder name from a
colon-separated shape id. -/
def extractFolderName (shapeId : Str) : Option Str :=
  match splitPred (fun c => c == ':') shapeId with
  | p0 :: p1 :: p2 :: rest =>
    if p0 == str r"lc" then
      if !p1.isEmpty && !p2.isEmpty && decide (p2.length ≤ 20) && !(p2.contains ' ') then
        match rest with
        | p3 :: _ =>
          if p1 == str r"RT" && !p3.isEmpty && decide (p3.length ≤ 30) && !(p3.contains ' ')
          then some (p1 ++ '_' :: p2 ++ '_' :: p3)
          else some (p1 ++ '_' :: p2)
        | [] => some (p1 ++ '_' :: p2)
      else none
    else none
  | _ => none

/-- Look up or create the folder of an imported shape, updating the
folder-name map. -/
def marvaGetOrCreateFolder (w : Workspace) (fmap : List (Str × Nat))
    (folderName : Str) : Workspace × List (Str × Nat) × Nat :=
  match fmap.find? (fun e => e.1 == folderName) with
  | some e => (w, fmap, e.2)
  | none =>
    let t := folderCreate w folderName
    (t.1, fmap ++ [(folderName, t.2)], t.2)

/-- Folder assignment of one imported shape (`extractFolderName` plus
get-or-create); `none` when no folder name is inferred. -/
def marvaFolderFor (w : Workspace) (fmap : List (Str × Nat)) (shapeId : Str) :
    Workspace × List (Str × Nat) × Option Nat :=
  match extractFolderName shapeId with
  | none => (w, fmap, none)
  | some fn =>
    let t := marvaGetOrCreateFolder w fmap fn
    (t.1, t.2.1, some t.2.2)

/-- Create the rows of one imported resource template, in template order. -/
def marvaCreateRTRows (w : Workspace) (rtId : Str)
    (namespaces : List NamespaceDef) :
    List MarvaPropertyTemplate → Nat → Nat → Workspace × Nat
  | [], _, rowsCreated => (w, rowsCreated)
  | prop :: rest, ro, rowsCreated =>
    let w' := rowCreate w rtId (propertyTemplateToRow prop ro namespaces)
    marvaCreateRTRows w' rtId namespaces rest (ro + 1) (rowsCreated + 1)

/-- Create the shapes and rows of the resource templates of one profile. -/
def marvaCreateRTs (w : Workspace) (fmap : List (Str × Nat))
    (namespaces : List NamespaceDef) :
    List MarvaResourceTemplate → Nat → Nat → List Str →
    Workspace × List (Str × Nat) × Nat × Nat × List Str
  | [], shapesCreated, rowsCreated, rtIds => (w, fmap, shapesCreated, rowsCreated, rtIds)
  | rt :: rest, shapesCreated, rowsCreated, rtIds =>
    let tf := marvaFolderFor w fmap rt.id
    let prefixedResourceURI :=
      match rt.resourceURI with
      | some u => if u.isEmpty then none else some (prefixUri u namespaces)
      | none => none
    let w2 := shapeCreate tf.1 rt.id (normField rt.resourceLabel) prefixedResourceURI
      tf.2.2 (normField rt.remark)
    let tr := marvaCreateRTRows w2 rt.id namespaces
      (rt.propertyTemplates.getD []) 0 rowsCreated
    marvaCreateRTs tr.1 tf.2.1 namespaces rest (shapesCreated + 1) tr.2 (rtIds ++ [rt.id])

/-- Create the `dcterms:hasPart` link rows of a profile shape, one per
resource template, in processing order. -/
def marvaCreateLinkRows (w : Workspace) (profileShapeId : Str) :
    List Str → Nat → Nat → Workspace × Nat
  | [], _, rowsCreated => (w, rowsCreated)
  | rtId :: rest, ro, rowsCreated =>
    let w' := rowCreate w profileShapeId
      { rowOrder := some ro,
        propertyId := some (str r"dcterms:hasPart"),
        propertyLabel := some (str r"Has Shape"),
        valueShape := some rtId,
        valueNodeType := some (str r"bnode") }
    marvaCreateLinkRows w' profileShapeId rest (ro + 1) (rowsCreated + 1)

/-- Process the profile documents of `importMarvaProfiles` (documents without
`json.Profile` are skipped). -/
def marvaImportDocs (w : Workspace) (fmap : List (Str × Nat))
    (namespaces : List NamespaceDef) :
    List MarvaProfileDocument → Nat → Nat → Workspace × Nat × Nat
  | [], shapesCreated, rowsCreated => (w, shapesCreated, rowsCreated)
  | doc :: rest, shapesCreated, rowsCreated =>
    match doc.jsonProfile with
    | none => marvaImportDocs w fmap namespaces rest shapesCreated rowsCreated
    | some profile =>
      let tf := marvaFolderFor w fmap profile.id
      let w2 := shapeCreate tf.1 profile.id (some profile.title) none tf.2.2
        (normField profile.description)
      let tr := marvaCreateRTs w2 tf.2.1 namespaces
        (profile.resourceTemplates.getD []) (shapesCreated + 1) rowsCreated []
      let tl := marvaCreateLinkRows tr.1 profile.id tr.2.2.2.2 0 tr.2.2.2.1
      marvaImportDocs tl.1 tr.2.1 namespaces rest tr.2.2.1 tl.2

/-- `importMarvaProfiles` (marva-profile.ts:163): import profile documents
into a fresh workspace with the extension columns enabled. -/
def importMarvaProfiles (workspaceName : Str)
    (profiles : List MarvaProfileDocument) : Workspace × ImportMarvaProfileResult :=
  let w0 := workspaceCreate workspaceName
  let w1 := { w0 with useLCColumns := true }
  let namespaces := namespacesList w1
  let t := marvaImportDocs w1 [] namespaces profiles 0 0
  (t.1, { shapesCreated := t.2.1, rowsCreated := t.2.2 })

/-- The base property template built by the exporter before type inference. -/
def marvaBaseProp (namespaces : List NamespaceDef) (r : StatementRow) :
    MarvaPropertyTemplate :=
  { propertyURI := expandUri (r.propertyId.getD []) namespaces,
    propertyLabel := r.propertyLabel.getD [],
    mandatory := jsOrStr r.mandatory (str r"false"),
    repeatable := some (jsOrStr r.repeatable (str r"false")),
    type := str r"literal",
    valueConstraint := some { valueTemplateRefs := some [], useValuesFrom := some [],
                              defaults := some [], valueDataType := some {} } }

/-- Update a value-constraint field of a property template
(the exporter always builds the constraint object, so `bind` is total here). -/
def marvaSetVC (p : MarvaPropertyTemplate)
    (f : MarvaValueConstraint → MarvaValueConstraint) : MarvaPropertyTemplate :=
  { p with valueConstraint := some (f (p.valueConstraint.getD {})) }

/-- Type inference of the profile-path exporter (marva-profile.ts:363): the
four-branch chain ending in the bare `valueShape` fallback. -/
def marvaInferTypeMain (p : MarvaPropertyTemplate) (r : StatementRow) :
    MarvaPropertyTemplate :=
  if r.valueNodeType == some (str r"literal") then
    { p with type := str r"literal" }
  else if r.valueNodeType == some (str r"bnode") && optTruthy r.valueShape then
    marvaSetVC { p with type := str r"resource" }
      (fun vc => { vc with valueTemplateRefs := some (marvaDecodeMulti (r.valueShape.getD [])) })
  else if r.valueConstraintType == some (str r"IRIstem") && optTruthy r.valueConstraint then
    marvaSetVC { p with type := str r"lookup" }
      (fun vc => { vc with useValuesFrom := some (marvaDecodeMulti (r.valueConstraint.getD [])) })
  else if optTruthy r.valueShape then
    marvaSetVC { p with type := str r"resource" }
      (fun vc => { vc with valueTemplateRefs := some (marvaDecodeMulti (r.valueShape.getD [])) })
  else p

/-- Type inference of the fallback-document exporter (marva-profile.ts:472):
the same chain without the bare `valueShape` branch. -/
def marvaInferTypeFallback (p : MarvaPropertyTemplate) (r : StatementRow) :
    MarvaPropertyTemplate :=
  if r.valueNodeType == some (str r"literal") then
    { p with type := str r"literal" }
  else if r.valueNodeType == some (str r"bnode") && optTruthy r.valueShape then
    marvaSetVC { p with type := str r"resource" }
      (fun vc => { vc with valueTemplateRefs := some (marvaDecodeMulti (r.valueShape.getD [])) })
  else if r.valueConstraintType == some (str r"IRIstem") && optTruthy r.valueConstraint then
    marvaSetVC { p with type := str r"lookup" }
      (fun vc => { vc with useValuesFrom := some (marvaDecodeMulti (r.valueConstraint.getD [])) })
  else p

/-- The shared tail of both exporter paths: data type URI, defaults, remark. -/
def marvaPropTail (namespaces : List NamespaceDef) (r : StatementRow)
    (p : MarvaPropertyTemplate) : MarvaPropertyTemplate :=
  let p :=
    if optTruthy r.lcDataTypeURI then
      marvaSetVC p (fun vc =>
        let vdt : MarvaValueDataType :=
          { dataTypeURI := some (expandUri (r.lcDataTypeURI.getD []) namespaces) }
        { vc with valueDataType := some vdt })
    else p
  let defaultLiterals : List Str :=
    match r.lcDefaultLiteral with
    | none => []
    | some v => (splitPred (fun c => c == '\n') v).filter (fun s => !s.isEmpty)
  let defaultURIs : List Str :=
    match r.lcDefaultURI with
    | none => []
    | some v => (splitPred (fun c => c == '\n') v).filter (fun s => !s.isEmpty)
  let maxDefaults := max defaultLiterals.length defaultURIs.length
  let defs := (List.range maxDefaults).filterMap (fun i =>
    let dl := defaultLiterals.getD i []
    let du := defaultURIs.getD i []
    if dl.isEmpty && du.isEmpty then none
    else some { defaultLiteral := if dl.isEmpty then none else some dl,
                defaultURI := if du.isEmpty then none else some du })
  let p := marvaSetVC p (fun vc => { vc with defaults := some ((vc.defaults.getD []) ++ defs) })
  if optTruthy r.lcRemark then { p with remark := r.lcRemark } else p

/-- Row-to-property-template conversion of the profile path. -/
def marvaRowToPropMain (namespaces : List NamespaceDef) (r : StatementRow) :
    MarvaPropertyTemplate :=
  marvaPropTail namespaces r (marvaInferTypeMain (marvaBaseProp namespaces r) r)

/-- Row-to-property-template conversion of the fallback path. -/
def marvaRowToPropFallback (namespaces : List NamespaceDef) (r : StatementRow) :
    MarvaPropertyTemplate :=
  marvaPropTail namespaces r (marvaInferTypeFallback (marvaBaseProp namespaces r) r)

/-- The non-starting-point shapes considered by the Marva exporter. -/
def marvaExportShapes (w : Workspace) : List Shape :=
  (shapesList w).filter (fun s =>
    !isStartingPointShape s.shapeId && !isInStartingPointFolder w s.folderId)

/-- The `dcterms:hasPart`/`Has Shape` rows of a shape (profile detection). -/
def marvaHasPartRows (w : Workspace) (s : Shape) : List StatementRow :=
  (rowsList w s.shapeId).filter (fun r =>
    r.propertyId == some (str r"dcterms:hasPart") &&
    r.propertyLabel == some (str r"Has Shape") && optTruthy r.valueShape)

/-- The linked resource-template ids of a profile shape: flattened multi-value
`valueShape` cells, starting-point ids excluded. -/
def marvaLinkedIds (w : Workspace) (s : Shape) : List Str :=
  ((marvaHasPartRows w s).flatMap (fun r => marvaDecodeMulti (r.valueShape.getD []))).filter
    (fun id => !isStartingPointShape id)

/-- The profile shapes of the exporter, each with its linked ids. -/
def marvaProfileShapes (w : Workspace) : List (Shape × List Str) :=
  (marvaExportShapes w).filterMap (fun s =>
    if (marvaHasPartRows w s).isEmpty then none
    else
      let ids := marvaLinkedIds w s
      if ids.isEmpty then none else some (s, ids))

/-- Build one exported resource template of the profile path. -/
def marvaExportRT (w : Workspace) (namespaces : List NamespaceDef)
    (rtShape : Shape) (rtId : Str) : MarvaResourceTemplate :=
  { id := rtId,
    resourceURI := match rtShape.resourceURI with
                   | some u => if u.isEmpty then none else some (expandUri u namespaces)
                   | none => none,
    resourceLabel := normField rtShape.shapeLabel,
    remark := normField rtShape.description,
    propertyTemplates :=
      some ((rowsList w rtId).map (marvaRowToPropMain namespaces)) }

/-- Build one exported profile document of the profile path. -/
def marvaExportDoc (w : Workspace) (namespaces : List NamespaceDef)
    (entry : Shape × List Str) : MarvaProfileDocument :=
  let profile : MarvaProfile :=
    { id := entry.1.shapeId,
      title := jsOrStr entry.1.shapeLabel entry.1.shapeId,
      description := normField entry.1.description,
      resourceTemplates := some (entry.2.filterMap (fun rtId =>
        match (marvaExportShapes w).find? (fun s => s.shapeId == rtId) with
        | none => none
        | some rtShape => some (marvaExportRT w namespaces rtShape rtId))) }
  { name := profile.title, jsonProfile := some profile }

/-- Build the fallback resource template of one shape (no profile shape found). -/
def marvaFallbackRT (w : Workspace) (namespaces : List NamespaceDef)
    (shape : Shape) : MarvaResourceTemplate :=
  { id := shape.shapeId,
    resourceURI := match shape.resourceURI with
                   | some u => if u.isEmpty then none else some (expandUri u namespaces)
                   | none => none,
    resourceLabel := normField shape.shapeLabel,
    remark := normField shape.description,
    propertyTemplates :=
      some ((rowsList w shape.shapeId).map (marvaRowToPropFallback namespaces)) }

/-- `exportMarvaProfiles` (marva-profile.ts:273): one document per detected
profile shape, else a single fallback document wrapping every shape. -/
def exportMarvaProfiles (w : Workspace) : List MarvaProfileDocument :=
  let namespaces := namespacesList w
  let shapes := marvaExportShapes w
  let documents := (marvaProfileShapes w).map (marvaExportDoc w namespaces)
  if documents.isEmpty && !shapes.isEmpty then
    let profile : MarvaProfile :=
      { id := str r"lc:profile:" ++ collapseWs (jsToLower w.name),
        title := w.name,
        resourceTemplates := some (shapes.map (marvaFallbackRT w namespaces)) }
    [{ name := w.name, jsonProfile := some profile }]
  else documents

/- ### CSV/TSV converter (backend/src/services/csv-parser.ts) -/

/-- `detectDelimiter`: count tabs vs commas in the first line. -/
def detectDelimiter (content : Str) : Char :=
  let firstLine := (splitPred (fun c => c == '\n') content).headD []
  let tabCount := (firstLine.filter (fun c => c == '\t')).length
  let commaCount := (firstLine.filter (fun c => c == ',')).length
  if commaCount < tabCount then '\t' else ','

/-- The quote-aware field scanner of `parseCSVLine`: `"` toggles quoted mode,
a doubled quote inside quotes emits one quote, the delimiter separates only
outside quotes, every field is trimmed. -/
def parseLineAux (delim : Char) : Str → Bool → Str → List Str
  | [], _, current => [jstrim current]
  | '"' :: '"' :: rest, true, current => parseLineAux delim rest true (current ++ ['"'])
  | '"' :: rest, true, current => parseLineAux delim rest false current
  | '"' :: rest, false, current => parseLineAux delim rest true current
  | c :: rest, inQuotes, current =>
    if c == delim && !inQuotes then jstrim current :: parseLineAux delim rest false []
    else parseLineAux delim rest inQuotes (current ++ [c])

/-- `parseCSVLine` (csv-parser.ts:53). -/
def parseCSVLine (line : Str) (delim : Char) : List Str :=
  parseLineAux delim line false []

/-- JS `split(/\r?\n/)`: split on LF or CRLF. -/
def splitLines : Str → List Str
  | [] => [[]]
  | '\x0d' :: '\n' :: rest => [] :: splitLines rest
  | '\n' :: rest => [] :: splitLines rest
  | c :: rest =>
    match splitLines rest with
    | [] => [[c]]
    | s :: ss => (c :: s) :: ss

/-- Double every quote character (the escaping step of `escapeCSVValue`). -/
def dupQuotes (s : Str) : Str := replaceChar '"' (str "\x22\x22") s

/-- JS `replace(/\n/g, " | ")`: the newline-to-pipe conversion of the export. -/
def nlToPipe (s : Str) : Str := replaceChar '\n' (str r" | ") s

/-- `escapeCSVValue` (csv-parser.ts:81): null becomes the empty cell;
optionally convert newlines to pipes; quote when the cell contains the
delimiter, a quote or a newline. -/
def escapeCSVValue (v : Option Str) (delim : Char) (convertNl : Bool) : Str :=
  match v with
  | none => []
  | some s0 =>
    let s := if convertNl then nlToPipe s0 else s0
    if s.contains delim || s.contains '"' || s.contains '\n' then
      '"' :: dupQuotes s ++ ['"']
    else s

/-- The header keys recognized by the CSV importer. -/
inductive ColKey where
  | shapeID | shapeLabel | resourceURI
  | propertyId | propertyLabel | mandatory | repeatable
  | valueNodeType | valueDataType | valueShape | valueConstraint
  | valueConstraintType | note
  | lcDefaultLiteral | lcDefaultURI | lcDataTypeURI | lcRemark
deriving DecidableEq

/-- Header normalization: lower-case, keep letters only. -/
def normalizeHeader (cell : Str) : Str :=
  (jsToLower cell).filter (fun c => decide ('a' ≤ c) && decide (c ≤ 'z'))

/-- `COLUMN_MAPPINGS` (csv-parser.ts:10), keyed by the normalized header. -/
def colMap (s : Str) : Option ColKey :=
  if s == str r"shapeid" then some .shapeID
  else if s == str r"shapelabel" then some .shapeLabel
  else if s == str r"resourceuri" then some .resourceURI
  else if s == str r"propertyid" then some .propertyId
  else if s == str r"propertylabel" then some .propertyLabel
  else if s == str r"mandatory" then some .mandatory
  else if s == str r"repeatable" then some .repeatable
  else if s == str r"valuenodetype" then some .valueNodeType
  else if s == str r"valuedatatype" then some .valueDataType
  else if s == str r"valueshape" then some .valueShape
  else if s == str r"valueconstraint" then some .valueConstraint
  else if s == str r"valueconstrainttype" then some .valueConstraintType
  else if s == str r"note" then some .note
  else if s == str r"lcdefaultliteral" then some .lcDefaultLiteral
  else if s == str r"lcdefaulturi" then some .lcDefaultURI
  else if s == str r"lcdatatypeuri" then some .lcDataTypeURI
  else if s == str r"lcremark" then some .lcRemark
  else none

/-- Build the column-index map from the header cells (later occurrences of a
key overwrite earlier ones, as JS object assignment does). -/
def colIdxBuild : List Str → Nat → List (ColKey × Nat) → List (ColKey × Nat)
  | [], _, acc => acc
  | c :: cs, i, acc =>
    colIdxBuild cs (i + 1)
      (match colMap (normalizeHeader c) with
       | some k => (k, i) :: acc
       | none => acc)

/-- The column-index map of a parsed header line. -/
def colIdxMap (cells : List Str) : List (ColKey × Nat) := colIdxBuild cells 0 []

/-- Look up a column index (first entry wins, i.e. the last assignment). -/
def lookupCol (m : List (ColKey × Nat)) (k : ColKey) : Option Nat :=
  (m.find? (fun e => e.1 == k)).map (fun e => e.2)

/-- Read one cell through `values[i] || null` (absent column, out-of-range
index and the empty string all give null). -/
def cellOpt (values : List Str) (oi : Option Nat) : Option Str :=
  match oi with
  | none => none
  | some i => orNull (values.getD i [])

/-- A warning or error of the CSV importer. -/
structure ValidationMsg where
  rowNum : Option Nat := none
  message : Str
  severity : Str
deriving DecidableEq

/-- One parsed data row with its inherited shape context. -/
structure ParsedRow where
  shapeID : Option Str
  shapeLabel : Option Str
  resourceURI : Option Str
  data : CreateRowRequest
deriving DecidableEq

/-- The result of `parseCSV`. -/
structure ParseResult where
  success : Bool
  rows : Option (List ParsedRow) := none
  errors : List ValidationMsg := []
  warnings : List ValidationMsg := []
deriving DecidableEq

/-- The running state of the data-row loop of `parseCSV`. -/
structure CsvLoop where
  curShapeID : Option Str := none
  curShapeLabel : Option Str := none
  curResourceURI : Option Str := none
  rows : List ParsedRow := []
  warnings : List ValidationMsg := []
  errors : List ValidationMsg := []
deriving DecidableEq

/-- The statement-column data of one line. -/
def lineData (m : List (ColKey × Nat)) (values : List Str) : CreateRowRequest :=
  { propertyId := cellOpt values (lookupCol m .propertyId),
    propertyLabel := cellOpt values (lookupCol m .propertyLabel),
    mandatory := cellOpt values (lookupCol m .mandatory),
    repeatable := cellOpt values (lookupCol m .repeatable),
    valueNodeType := cellOpt values (lookupCol m .valueNodeType),
    valueDataType := cellOpt values (lookupCol m .valueDataType),
    valueShape := cellOpt values (lookupCol m .valueShape),
    valueConstraint := cellOpt values (lookupCol m .valueConstraint),
    valueConstraintType := cellOpt values (lookupCol m .valueConstraintType),
    note := cellOpt values (lookupCol m .note),
    lcDefaultLiteral := cellOpt values (lookupCol m .lcDefaultLiteral),
    lcDefaultURI := cellOpt values (lookupCol m .lcDefaultURI),
    lcDataTypeURI := cellOpt values (lookupCol m .lcDataTypeURI),
    lcRemark := cellOpt values (lookupCol m .lcRemark) }

/-- `Object.values(data).some(v => v !== undefined && v !== "")`. -/
def hasDataB (d : CreateRowRequest) : Bool :=
  d.propertyId.isSome || d.propertyLabel.isSome || d.mandatory.isSome ||
  d.repeatable.isSome || d.valueNodeType.isSome || d.valueDataType.isSome ||
  d.valueShape.isSome || d.valueConstraint.isSome || d.valueConstraintType.isSome ||
  d.note.isSome || d.lcDefaultLiteral.isSome || d.lcDefaultURI.isSome ||
  d.lcDataTypeURI.isSome || d.lcRemark.isSome

/-- The warning generated for a data row with no shape context. -/
def noShapeWarning (lineNum : Nat) : ValidationMsg :=
  { rowNum := some lineNum,
    message := str "Row has no associated shapeID, will use \x22default\x22",
    severity := str r"warning" }

/-- Process one data line of `parseCSV` (csv-parser.ts:133-219). -/
def processLine (m : List (ColKey × Nat)) (delim : Char) (st : CsvLoop)
    (line : Str) (lineNum : Nat) : CsvLoop :=
  let values := parseCSVLine line delim
  let rowShapeID := cellOpt values (lookupCol m .shapeID)
  let rowShapeLabel := cellOpt values (lookupCol m .shapeLabel)
  let rowResourceURI := cellOpt values (lookupCol m .resourceURI)
  let st1 :=
    match rowShapeID with
    | some sid => { st with curShapeID := some sid, curShapeLabel := rowShapeLabel,
                            curResourceURI := rowResourceURI }
    | none =>
      match rowShapeLabel, st.curShapeLabel with
      | some l, none => { st with curShapeLabel := some l }
      | _, _ => st
  let data := lineData m values
  if !hasDataB data && !rowShapeID.isSome then st1
  else
    match st1.curShapeID with
    | none =>
      let st2 := { st1 with warnings := st1.warnings ++ [noShapeWarning lineNum],
                            curShapeID := some (str r"default") }
      { st2 with rows := st2.rows ++
          [{ shapeID := st2.curShapeID, shapeLabel := st2.curShapeLabel,
             resourceURI := st2.curResourceURI, data := data }] }
    | some _ =>
      { st1 with rows := st1.rows ++
          [{ shapeID := st1.curShapeID, shapeLabel := st1.curShapeLabel,
             resourceURI := st1.curResourceURI, data := data }] }

/-- Fold `processLine` over the data lines (`lineNum` is the 1-based position
in the filtered line list plus one, as in the source loop). -/
def processLines (m : List (ColKey × Nat)) (delim : Char) :
    List Str → Nat → CsvLoop → CsvLoop
  | [], _, st => st
  | l :: ls, i, st => processLines m delim ls (i + 1) (processLine m delim st l (i + 1))

/-- `parseCSV` (csv-parser.ts:94). -/
def parseCSV (content : Str) : ParseResult :=
  let delim := detectDelimiter content
  let lines := (splitLines content).filter (fun l => !(jstrim l).isEmpty)
  match lines with
  | [] =>
    { success := false,
      errors := [{ message := str r"Empty file", severity := str r"error" }] }
  | header :: dataLines =>
    let m := colIdxMap (parseCSVLine header delim)
    if (lookupCol m .propertyId).isNone && (lookupCol m .shapeID).isNone then
      { success := false,
        errors := [{ message := str r"File must contain at least propertyID or shapeID column",
                     severity := str r"error" }] }
    else
      let st := processLines m delim dataLines 1 {}
      { success := st.errors.isEmpty, rows := some st.rows,
        errors := st.errors, warnings := st.warnings }

/-- The result record of `importToWorkspace`. -/
structure ImportResultC where
  success : Bool
  shapesCreated : Nat := 0
  rowsImported : Nat := 0
  errors : List ValidationMsg := []
  warnings : List ValidationMsg := []
  unknownNamespaces : List Str := []
deriving DecidableEq

/-- One group of the shape-grouping map of `importToWorkspace`. -/
structure CsvGroup where
  label : Option Str := none
  resourceURI : Option Str := none
  rows : List CreateRowRequest := []
deriving DecidableEq

/-- The per-row group update of `importToWorkspace` (fill label and resource
URI when still null, push the row data). -/
def groupUpdate (g : CsvGroup) (row : ParsedRow) : CsvGroup :=
  { label := if optTruthy row.shapeLabel && !(optTruthy g.label) then row.shapeLabel else g.label,
    resourceURI := if optTruthy row.resourceURI && !(optTruthy g.resourceURI)
                   then row.resourceURI else g.resourceURI,
    rows := g.rows ++ [row.data] }

/-- Insert one parsed row into the insertion-ordered grouping map. -/
def groupInsert (gs : List (Str × CsvGroup)) (row : ParsedRow) : List (Str × CsvGroup) :=
  let sid := jsOrStr row.shapeID (str r"default")
  let gs' := if gs.any (fun e => e.1 == sid) then gs
             else gs ++ [(sid, { label := row.shapeLabel, resourceURI := row.resourceURI })]
  gs'.map (fun e => if e.1 == sid then (e.1, groupUpdate e.2 row) else e)

/-- Group the parsed rows by shape id, in first-occurrence order. -/
def groupRows (rows : List ParsedRow) : List (Str × CsvGroup) :=
  rows.foldl groupInsert []

/-- The full-URI warning of the importer. -/
def fullUriWarning (shapeId : Str) (rowNum : Nat) (propertyId : Str) : ValidationMsg :=
  { message := str "Shape \x22" ++ shapeId ++ str "\x22, row " ++
      str (toString (rowNum + 1)) ++ str ": Property ID \x22" ++ propertyId ++
      str "\x22 appears to be a full URI. Consider using a prefixed form.",
    severity := str r"warning" }

/-- The placeholder-namespace warning of the importer. -/
def unknownNsWarning (pfx : Str) : ValidationMsg :=
  { message := str "Unknown namespace prefix \x22" ++ pfx ++
      str "\x22 - placeholder URI created. You may want to update this in the Namespaces panel.",
    severity := str r"warning" }

/-- Prefix scan of one imported row (csv-parser.ts:289-303): full URIs warn,
other unknown prefixes are collected once. -/
def csvScanPfx (known : List Str) (shapeId : Str) (i : Nat)
    (rowData : CreateRowRequest) (unknown : List Str)
    (warnings : List ValidationMsg) : List Str × List ValidationMsg :=
  match rowData.propertyId with
  | none => (unknown, warnings)
  | some v =>
    let pre := v.takeWhile (fun c => !(c == ':'))
    if pre.length < v.length && 0 < pre.length then
      if pre == str r"http" || pre == str r"https" then
        (unknown, warnings ++ [fullUriWarning shapeId i v])
      else if !(known.contains pre) && !(unknown.contains pre) then
        (unknown ++ [pre], warnings)
      else (unknown, warnings)
    else (unknown, warnings)

/-- Import the rows of one shape group, in order, with `rowOrder` the position. -/
def csvImportShapeRows (known : List Str) (shapeId : Str) :
    Workspace → List CreateRowRequest → Nat → List Str → List ValidationMsg → Nat →
    Workspace × List Str × List ValidationMsg × Nat
  | w, [], _, unknown, warnings, total => (w, unknown, warnings, total)
  | w, rowData :: rest, i, unknown, warnings, total =>
    let t := csvScanPfx known shapeId i rowData unknown warnings
    let w' := rowCreate w shapeId { rowData with rowOrder := some i }
    csvImportShapeRows known shapeId w' rest (i + 1) t.1 t.2 (total + 1)

/-- Import the shape groups: create each shape, then its rows. -/
def csvImportGroups (known : List Str) :
    Workspace → List (Str × CsvGroup) → List Str → List ValidationMsg → Nat →
    Workspace × List Str × List ValidationMsg × Nat
  | w, [], unknown, warnings, total => (w, unknown, warnings, total)
  | w, e :: rest, unknown, warnings, total =>
    let w1 := shapeCreate w e.1 (normField e.2.label) (normField e.2.resourceURI) none none
    let t := csvImportShapeRows known e.1 w1 e.2.rows 0 unknown warnings total
    csvImportGroups known t.1 rest t.2.1 t.2.2.1 t.2.2.2

/-- Create the placeholder namespaces for the unknown prefixes. -/
def csvCreatePlaceholders :
    Workspace → List Str → List ValidationMsg → Workspace × List ValidationMsg
  | w, [], warnings => (w, warnings)
  | w, pfx :: rest, warnings =>
    let w' := namespaceCreate w pfx (str r"http://example.org/" ++ pfx ++ ['/'])
    csvCreatePlaceholders w' rest (warnings ++ [unknownNsWarning pfx])

/-- `importToWorkspace` (csv-parser.ts:240): parse, group by shape, create a
new workspace in the store, create shapes and rows, synthesize placeholder
namespaces.  A parse failure leaves the store untouched. -/
def importToWorkspace (store : List Workspace) (content workspaceName : Str) :
    List Workspace × ImportResultC :=
  let parseResult := parseCSV content
  if !parseResult.success || parseResult.rows.isNone then
    (store, { success := false, errors := parseResult.errors })
  else
    let groups := groupRows (parseResult.rows.getD [])
    let w0 := workspaceCreate workspaceName
    let known := DEFAULT_NAMESPACES.map (fun ns => ns.pfx)
    let t := csvImportGroups known w0 groups [] parseResult.warnings 0
    let tp := csvCreatePlaceholders t.1 t.2.1 t.2.2.1
    (store ++ [tp.1],
     { success := true, shapesCreated := groups.length, rowsImported := t.2.2.2,
       warnings := tp.2, unknownNamespaces := t.2.1 })

/-- The fixed header row of `exportWorkspace`. -/
def csvHeaders : List Str :=
  [str r"shapeID", str r"shapeLabel", str r"resourceURI", str r"propertyID",
   str r"propertyLabel", str r"mandatory", str r"repeatable", str r"valueNodeType",
   str r"valueDataType", str r"valueShape", str r"valueConstraint",
   str r"valueConstraintType", str r"note", str r"lcDefaultLiteral",
   str r"lcDefaultURI", str r"lcDataTypeURI", str r"lcRemark"]

/-- The 17 escaped cells of one exported statement row (shape identity cells
only on the first row of a shape; newline-to-pipe conversion on `valueShape`
and `valueConstraint`). -/
def exportRowValues (delim : Char) (shape : Shape) (isFirst : Bool)
    (r : StatementRow) : List Str :=
  [escapeCSVValue (if isFirst then some shape.shapeId else some []) delim false,
   escapeCSVValue (if isFirst then shape.shapeLabel else some []) delim false,
   escapeCSVValue (if isFirst then shape.resourceURI else some []) delim false,
   escapeCSVValue r.propertyId delim false,
   escapeCSVValue r.propertyLabel delim false,
   escapeCSVValue r.mandatory delim false,
   escapeCSVValue r.repeatable delim false,
   escapeCSVValue r.valueNodeType delim false,
   escapeCSVValue r.valueDataType delim false,
   escapeCSVValue r.valueShape delim true,
   escapeCSVValue r.valueConstraint delim true,
   escapeCSVValue r.valueConstraintType delim false,
   escapeCSVValue r.note delim false,
   escapeCSVValue r.lcDefaultLiteral delim false,
   escapeCSVValue r.lcDefaultURI delim false,
   escapeCSVValue r.lcDataTypeURI delim false,
   escapeCSVValue r.lcRemark delim false]

/-- The lines of the rows of one shape (first row carries the identity cells). -/
def exportRowsLines (delim : Char) (shape : Shape) :
    Bool → List StatementRow → List Str
  | _, [] => []
  | isFirst, r :: rest =>
    List.intercalate [delim] (exportRowValues delim shape isFirst r) ::
    exportRowsLines delim shape false rest

/-- The identity-only line emitted for a shape with no rows. -/
def exportEmptyShapeLine (delim : Char) (shape : Shape) : Str :=
  List.intercalate [delim]
    ([escapeCSVValue (some shape.shapeId) delim false,
      escapeCSVValue shape.shapeLabel delim false,
      escapeCSVValue shape.resourceURI delim false] ++
     List.replicate 14 [])

/-- All lines emitted for one shape. -/
def exportShapeLines (delim : Char) (shape : Shape) (rows : List StatementRow) :
    List Str :=
  exportRowsLines delim shape true rows ++
  (if rows.isEmpty then [exportEmptyShapeLine delim shape] else [])

/-- `exportWorkspace` (csv-parser.ts:329): header line plus the lines of every
shape in listing order, joined by newlines. -/
def exportWorkspace (w : Workspace) (tsv : Bool) : Str :=
  let delim := if tsv then '\t' else ','
  List.intercalate ['\n']
    (List.intercalate [delim] csvHeaders ::
     (shapesList w).flatMap (fun s => exportShapeLines delim s (rowsList w s.shapeId)))

/- ### Claim-level observables and reference notions -/

/-- The shape ids of a workspace (insertion order). -/
def shapeIds (w : Workspace) : List Str := w.shapes.map (fun s => s.shapeId)

/-- The statement-column tuple of a stored row (everything except `rowOrder`). -/
structure RowTuple where
  propertyId : Option Str := none
  propertyLabel : Option Str := none
  mandatory : Option Str := none
  repeatable : Option Str := none
  valueNodeType : Option Str := none
  valueDataType : Option Str := none
  valueShape : Option Str := none
  valueConstraint : Option Str := none
  valueConstraintType : Option Str := none
  note : Option Str := none
  lcDefaultLiteral : Option Str := none
  lcDefaultURI : Option Str := none
  lcDataTypeURI : Option Str := none
  lcRemark : Option Str := none
deriving DecidableEq

/-- Project a stored row to its statement-column tuple. -/
def rowTuple (r : StatementRow) : RowTuple :=
  { propertyId := r.propertyId, propertyLabel := r.propertyLabel,
    mandatory := r.mandatory, repeatable := r.repeatable,
    valueNodeType := r.valueNodeType, valueDataType := r.valueDataType,
    valueShape := r.valueShape, valueConstraint := r.valueConstraint,
    valueConstraintType := r.valueConstraintType, note := r.note,
    lcDefaultLiteral := r.lcDefaultLiteral, lcDefaultURI := r.lcDefaultURI,
    lcDataTypeURI := r.lcDataTypeURI, lcRemark := r.lcRemark }

/-- The newline-to-pipe conversion applied to the two multi-value columns. -/
def pipeTuple (t : RowTuple) : RowTuple :=
  { t with valueShape := t.valueShape.map nlToPipe,
           valueConstraint := t.valueConstraint.map nlToPipe }

/-- The ordered statement tuples of one shape of a workspace. -/
def shapeRowTuples (w : Workspace) (id : Str) : List RowTuple :=
  (rowsList w id).map rowTuple

/-- `hasDataB` on a stored row (at least one statement column present). -/
def rowHasDataB (r : StatementRow) : Bool :=
  r.propertyId.isSome || r.propertyLabel.isSome || r.mandatory.isSome ||
  r.repeatable.isSome || r.valueNodeType.isSome || r.valueDataType.isSome ||
  r.valueShape.isSome || r.valueConstraint.isSome || r.valueConstraintType.isSome ||
  r.note.isSome || r.lcDefaultLiteral.isSome || r.lcDefaultURI.isSome ||
  r.lcDataTypeURI.isSome || r.lcRemark.isSome

/-- A trim-stable, newline-free, nonempty cell value. -/
def cleanCell (v : Str) : Prop := jstrim v = v ∧ '\n' ∉ v ∧ v ≠ []

/-- A nullable field whose value (when present) is a clean cell. -/
def cleanOptNoNl (o : Option Str) : Prop := ∀ v, o = some v → cleanCell v

/-- A nullable multi-value field: trim-stable and nonempty, newlines allowed. -/
def cleanOptMulti (o : Option Str) : Prop := ∀ v, o = some v → (jstrim v = v ∧ v ≠ [])

/-- A nullable field free of embedded newlines. -/
def noNlOpt (o : Option Str) : Prop := ∀ v, o = some v → '\n' ∉ v

/-- A row that survives the CSV round trip: some statement column present,
single-value columns clean, multi-value columns trim-stable and nonempty. -/
def cleanRow (r : StatementRow) : Prop :=
  rowHasDataB r = true ∧
  cleanOptNoNl r.propertyId ∧ cleanOptNoNl r.propertyLabel ∧
  cleanOptNoNl r.mandatory ∧ cleanOptNoNl r.repeatable ∧
  cleanOptNoNl r.valueNodeType ∧ cleanOptNoNl r.valueDataType ∧
  cleanOptMulti r.valueShape ∧ cleanOptMulti r.valueConstraint ∧
  cleanOptNoNl r.valueConstraintType ∧ cleanOptNoNl r.note ∧
  cleanOptNoNl r.lcDefaultLiteral ∧ cleanOptNoNl r.lcDefaultURI ∧
  cleanOptNoNl r.lcDataTypeURI ∧ cleanOptNoNl r.lcRemark

/-- A row not using the `dcterms:hasPart`/`Has Shape` profile convention. -/
def plainRow (r : StatementRow) : Prop :=
  ¬(r.propertyId = some (str r"dcterms:hasPart") ∧
    r.propertyLabel = some (str r"Has Shape") ∧ optTruthy r.valueShape = true)

/-- A plain shape that survives the CSV round trip. -/
def cleanShape (s : Shape) : Prop :=
  s.rows ≠ [] ∧ cleanCell s.shapeId ∧
  noNlOpt s.shapeLabel ∧ noNlOpt s.resourceURI ∧
  isStartingPointShape s.shapeId = false ∧
  ∀ r ∈ s.rows, cleanRow r ∧ plainRow r

/-- A workspace of plain shapes on which the CSV round trip is claimed. -/
def csvCleanWorkspace (w : Workspace) : Prop :=
  (shapeIds w).Nodup ∧ ∀ s ∈ w.shapes, cleanShape s

/-- The type-inference precedence exactly as the spec states it: literal;
else bnode with `valueShape` set gives resource; else `IRIstem` with
`valueConstraint` set gives lookup; else bare `valueShape` gives resource;
default literal.  (Stated from the spec for comparison with the code.) -/
def specTypePrecedence (r : StatementRow) : Str :=
  if r.valueNodeType = some (str r"literal") then str r"literal"
  else if r.valueNodeType = some (str r"bnode") ∧ optTruthy r.valueShape = true then
    str r"resource"
  else if r.valueConstraintType = some (str r"IRIstem") ∧ optTruthy r.valueConstraint = true then
    str r"lookup"
  else if optTruthy r.valueShape = true then str r"resource"
  else str r"literal"

/-- The spec precedence without the bare-`valueShape` fallback branch. -/
def specTypePrecedenceNoBare (r : StatementRow) : Str :=
  if r.valueNodeType = some (str r"literal") then str r"literal"
  else if r.valueNodeType = some (str r"bnode") ∧ optTruthy r.valueShape = true then
    str r"resource"
  else if r.valueConstraintType = some (str r"IRIstem") ∧ optTruthy r.valueConstraint = true then
    str r"lookup"
  else str r"literal"

/- Reference notions for the shape-context inheritance of `parseCSV`,
computed per line from the raw line list rather than by the stateful loop. -/

/-- The shape-id cell of a data line. -/
def sidCellOf (m : List (ColKey × Nat)) (delim : Char) (line : Str) : Option Str :=
  cellOpt (parseCSVLine line delim) (lookupCol m .shapeID)

/-- The label cell of a data line. -/
def labelCellOf (m : List (ColKey × Nat)) (delim : Char) (line : Str) : Option Str :=
  cellOpt (parseCSVLine line delim) (lookupCol m .shapeLabel)

/-- The resource-URI cell of a data line. -/
def uriCellOf (m : List (ColKey × Nat)) (delim : Char) (line : Str) : Option Str :=
  cellOpt (parseCSVLine line delim) (lookupCol m .resourceURI)

/-- Whether a data line produces a parsed row (some statement data, or an
explicit shape id). -/
def pushedLine (m : List (ColKey × Nat)) (delim : Char) (line : Str) : Bool :=
  hasDataB (lineData m (parseCSVLine line delim)) || (sidCellOf m delim line).isSome

/-- The index of the nearest preceding line carrying an explicit shape id. -/
def lastSidIdx (m : List (ColKey × Nat)) (delim : Char)
    (lines : List Str) : Option Nat :=
  ((List.range lines.length).filter
    (fun j => (sidCellOf m delim (lines.getD j [])).isSome)).getLast?

/-- The first truthy label cell of a line list. -/
def firstLabelCell (m : List (ColKey × Nat)) (delim : Char)
    (lines : List Str) : Option Str :=
  lines.findSome? (labelCellOf m delim)

/-- The shape-id context after a list of data lines: the shape-id cell of the
nearest line that has one; else `default` once any line produced a row; else
no context yet. -/
def stateSid (m : List (ColKey × Nat)) (delim : Char) (P : List Str) : Option Str :=
  match lastSidIdx m delim P with
  | some j => some ((sidCellOf m delim (P.getD j [])).getD [])
  | none => if P.any (pushedLine m delim) then some (str r"default") else none

/-- The shape-label context after a list of data lines: the label cell of the
nearest explicit shape-id line or, when that cell is empty, the first truthy
label cell after it (from the start when no shape-id line occurred). -/
def stateLabel (m : List (ColKey × Nat)) (delim : Char) (P : List Str) : Option Str :=
  match lastSidIdx m delim P with
  | some j =>
    match labelCellOf m delim (P.getD j []) with
    | some l => some l
    | none => firstLabelCell m delim (P.drop (j + 1))
  | none => firstLabelCell m delim P

/-- The resource-URI context after a list of data lines: the resource-URI cell
of the nearest explicit shape-id line (never taken from other lines). -/
def stateURI (m : List (ColKey × Nat)) (delim : Char) (P : List Str) : Option Str :=
  match lastSidIdx m delim P with
  | some j => uriCellOf m delim (P.getD j [])
  | none => none

/-- The shape id assigned to the row of data line `i` (0-based among the data
lines): the nearest-preceding explicit shape id, else `default`. -/
def refShapeID (m : List (ColKey × Nat)) (delim : Char)
    (lines : List Str) (i : Nat) : Str :=
  (stateSid m delim (lines.take (i + 1))).getD (str r"default")

/-- The shape label assigned to the row of data line `i`. -/
def refShapeLabel (m : List (ColKey × Nat)) (delim : Char)
    (lines : List Str) (i : Nat) : Option Str :=
  stateLabel m delim (lines.take (i + 1))

/-- The resource URI assigned to the row of data line `i`. -/
def refResourceURI (m : List (ColKey × Nat)) (delim : Char)
    (lines : List Str) (i : Nat) : Option Str :=
  stateURI m delim (lines.take (i + 1))

/-- The reference shape-context triples of the produced rows, one per pushed
data line, via the nearest-preceding formulation. -/
def refRowCtx (m : List (ColKey × Nat)) (delim : Char) (lines : List Str) :
    List (Str × Option Str × Option Str) :=
  (List.range lines.length).filterMap (fun i =>
    if pushedLine m delim (lines.getD i []) then
      some (refShapeID m delim lines i,
            refShapeLabel m delim lines i,
            refResourceURI m delim lines i)
    else none)

/-- The reference warnings: one warning, for the first pushed line, exactly
when no explicit shape id occurs up to it. -/
def refWarnings (m : List (ColKey × Nat)) (delim : Char) (lines : List Str) :
    List ValidationMsg :=
  match (List.range lines.length).find?
      (fun i => pushedLine m delim (lines.getD i [])) with
  | some j =>
    if (lastSidIdx m delim (lines.take (j + 1))).isNone
    then [noShapeWarning (j + 2)] else []
  | none => []

/- ### Canonical forms of a starting-point import -/

/-- The stored row of one imported menu item. -/
def spItemRow (ro : Nat) (item : StartingPointMenuItem) : StatementRow :=
  { rowOrder := ro,
    propertyId := some (str r"dcterms:hasPart"),
    propertyLabel := orNull item.label,
    valueNodeType := some (str r"IRI"),
    valueShape := orNull (item.useResourceTemplates.headD []),
    valueConstraint := orNull (item.type.headD []),
    valueConstraintType := some (str r"picklist") }

/-- The stored rows of one imported menu group, from a start order. -/
def spItemRowsFrom (ro : Nat) : List StartingPointMenuItem → List StatementRow
  | [] => []
  | item :: rest => spItemRow ro item :: spItemRowsFrom (ro + 1) rest

/-- The shape created for one imported menu group. -/
def spGroupShape (fid : Nat) (g : StartingPointMenuGroup) : Shape :=
  { shapeId := spGroupShapeId g.menuGroup,
    shapeLabel := orNull g.menuGroup,
    folderId := some fid,
    rows := spItemRowsFrom 0 g.menuItems }

/-- The `(shapeId, label)` pair recorded for one imported group. -/
def spPair (g : StartingPointMenuGroup) : Str × Str :=
  (spGroupShapeId g.menuGroup, g.menuGroup)

/-- The stored index row linking to one imported group shape. -/
def spIndexRow (ro : Nat) (e : Str × Str) : StatementRow :=
  { rowOrder := ro,
    propertyId := some (str r"dcterms:hasPart"),
    propertyLabel := orNull e.2,
    valueShape := orNull e.1 }

/-- The stored index rows, one per imported group. -/
def spIndexRowsFrom (ro : Nat) : List (Str × Str) → List StatementRow
  | [] => []
  | e :: rest => spIndexRow ro e :: spIndexRowsFrom (ro + 1) rest

/-- The index shape created by an import of the given groups. -/
def spIndexShape (fid : Nat) (gs : List StartingPointMenuGroup) : Shape :=
  { shapeId := startingPointIndexId,
    shapeLabel := some (str r"Starting Point Index"),
    folderId := some fid,
    rows := spIndexRowsFrom 0 (gs.map spPair) }

/-- The shape list produced by one starting-point import of the given groups. -/
def spCanonShapes (fid : Nat) (gs : List StartingPointMenuGroup) : List Shape :=
  gs.map (spGroupShape fid) ++ [spIndexShape fid gs]

/-- Well-formedness of a menu-group list under which the round trip holds:
every group has items, normalized group names are distinct, and no group
normalizes to the reserved index name. -/
def spWellFormed (gs : List StartingPointMenuGroup) : Prop :=
  gs ≠ [] ∧ (∀ g ∈ gs, g.menuItems ≠ []) ∧
  (gs.map (fun g => collapseWs g.menuGroup)).Nodup ∧
  (∀ g ∈ gs, collapseWs g.menuGroup ≠ str r"index")

/-- A menu item as the exporter reproduces it: label kept, type and template
lists reduced to their first element (dropped when empty). -/
def canonItem (item : StartingPointMenuItem) : StartingPointMenuItem :=
  { label := item.label,
    type := match item.type.head? with
            | some h => if h.isEmpty then [] else [h]
            | none => [],
    useResourceTemplates := match item.useResourceTemplates.head? with
            | some h => if h.isEmpty then [] else [h]
            | none => [] }

/-- A menu group as the exporter reproduces it. -/
def canonGroup (g : StartingPointMenuGroup) : StartingPointMenuGroup :=
  { menuGroup := g.menuGroup, menuItems := g.menuItems.map canonItem }

/-- A menu-group list as the exporter reproduces it. -/
def canonGroups (gs : List StartingPointMenuGroup) : List StartingPointMenuGroup :=
  gs.map canonGroup

/-- A single-config starting-point file holding the given groups. -/
def mkSpConfig (gs : List StartingPointMenuGroup) : StartingPointConfig :=
  { id := [], name := str r"config", configType := str r"startingPoints", json := gs }

/-- The file produced by exporting an imported workspace. -/
def spCanonFile (gs : List StartingPointMenuGroup) : StartingPointFile :=
  [mkSpConfig (canonGroups gs)]

/- ### Concrete instances used by counterexamples and witnesses -/

/-- A workspace holding one profile shape `P` linking to one resource template
`R` whose single row stores a multi-delimiter `valueShape`. -/
def mvCxWorkspace : Workspace :=
  { shapes :=
      [{ shapeId := str r"P",
         rows := [{ rowOrder := 0,
                    propertyId := some (str r"dcterms:hasPart"),
                    propertyLabel := some (str r"Has Shape"),
                    valueNodeType := some (str r"bnode"),
                    valueShape := some (str r"R") }] },
       { shapeId := str r"R",
         rows := [{ rowOrder := 0,
                    propertyId := some (str r"ex:p"),
                    valueNodeType := some (str r"bnode"),
                    valueShape := some (str r"A,B|C" ++ '\n' :: str r"D") }] }] }

/-- A workspace with no profile shape (fallback export path) whose single row
has a bare `valueShape` and a non-literal, non-bnode node type. -/
def c3CxWorkspace : Workspace :=
  { shapes :=
      [{ shapeId := str r"S",
         rows := [{ rowOrder := 0,
                    propertyId := some (str r"ex:p"),
                    valueNodeType := some (str r"IRI"),
                    valueShape := some (str r"T") }] }] }

/-- The `valueTemplateRefs` of the single property template of a single
exported document with a single resource template. -/
def firstRTRefs (docs : List MarvaProfileDocument) : Option (List Str) :=
  match docs with
  | [doc] =>
    doc.jsonProfile.bind (fun p =>
      match p.resourceTemplates with
      | some [rt] =>
        match rt.propertyTemplates with
        | some [pt] => pt.valueConstraint.bind (fun vc => vc.valueTemplateRefs)
        | _ => none
      | _ => none)
  | _ => none

/-- The `type` of the single property template of a single exported document
with a single resource template. -/
def firstRTType (docs : List MarvaProfileDocument) : Option Str :=
  match docs with
  | [doc] =>
    doc.jsonProfile.bind (fun p =>
      match p.resourceTemplates with
      | some [rt] =>
        match rt.propertyTemplates with
        | some [pt] => some pt.type
        | _ => none
      | _ => none)
  | _ => none

/-- A starting-point file with one populated group and one empty group. -/
def c2CxFile : StartingPointFile :=
  [mkSpConfig
    [{ menuGroup := str r"A",
       menuItems := [{ label := str r"ItemA", type := [str r"tA"],
                       useResourceTemplates := [str r"rtA"] }] },
     { menuGroup := str r"B", menuItems := [] }]]

/-- A workspace holding one plain shape with no rows. -/
def c1CxWorkspace : Workspace :=
  { shapes := [{ shapeId := str r"A" }] }

/-- A CSV input with two data rows, both before any shape id. -/
def c6CxContent : Str :=
  str r"shapeID,propertyID" ++ '\n' :: str r",a" ++ '\n' :: str r",b"

/-- A workspace holding two standalone starting-point shapes and no index. -/
def c8Workspace : Workspace :=
  { shapes :=
      [{ shapeId := str r"startingpoint:B",
         shapeLabel := some (str r"B Group"),
         rows := [{ rowOrder := 0,
                    propertyId := some (str r"dcterms:hasPart"),
                    propertyLabel := some (str r"ItemB"),
                    valueShape := some (str r"rtB") }] },
       { shapeId := str r"startingpoint:A",
         shapeLabel := some (str r"A Group"),
         rows := [{ rowOrder := 0,
                    propertyId := some (str r"dcterms:hasPart"),
                    propertyLabel := some (str r"ItemA"),
                    valueShape := some (str r"rtA") }] }] }

/-- The per-document resource-template count. -/
def docRTCount (doc : MarvaProfileDocument) : Nat :=
  (doc.jsonProfile.map (fun p => (p.resourceTemplates.getD []).length)).getD 0

/-- The per-document property-template count. -/
def docPropCount (doc : MarvaProfileDocument) : Nat :=
  (doc.jsonProfile.map (fun p =>
    ((p.resourceTemplates.getD []).map
      (fun rt => (rt.propertyTemplates.getD []).length)).sum)).getD 0

/-- The filtered line list of `parseCSV`. -/
def csvLines (content : Str) : List Str :=
  (splitLines content).filter (fun l => !(jstrim l).isEmpty)

/-- The structured error of an empty input. -/
def emptyFileError : ValidationMsg :=
  { message := str r"Empty file", severity := str r"error" }

/-- The structured error of a header lacking both required columns. -/
def missingColError : ValidationMsg :=
  { message := str r"File must contain at least propertyID or shapeID column",
    severity := str r"error" }

/-- The workspace of a successful starting-point import (empty on error). -/
def spImportWs (e : Except Str (Workspace × ImportStartingPointResult)) : Workspace :=
  match e with
  | .ok p => p.1
  | .error _ => {}

/-- Decidability of the row-level cleanliness predicates. -/
instance : DecidablePred cleanCell := fun v => by unfold cleanCell; infer_instance

instance : DecidablePred cleanOptNoNl := fun o => by unfold cleanOptNoNl; infer_instance

instance : DecidablePred cleanOptMulti := fun o => by unfold cleanOptMulti; infer_instance

instance : DecidablePred noNlOpt := fun o => by unfold noNlOpt; infer_instance

instance : DecidablePred cleanRow := fun r => by unfold cleanRow; infer_instance

instance : DecidablePred plainRow := fun r => by unfold plainRow; infer_instance

instance : DecidablePred cleanShape := fun s => by unfold cleanShape; infer_instance

instance : DecidablePred csvCleanWorkspace := fun w => by
  unfold csvCleanWorkspace; infer_instance

instance : DecidablePred spWellFormed := fun gs => by unfold spWellFormed; infer_instance

/-- The shape context recorded on a parsed row. -/
def rowCtxProj (r : ParsedRow) : Str × Option Str × Option Str :=
  (r.shapeID.getD [], r.shapeLabel, r.resourceURI)

/-- The shape ids created by a starting-point import, in group order. -/
def spShapeIds (gs : List StartingPointMenuGroup) : List Str :=
  gs.map (fun g => spGroupShapeId g.menuGroup)

/-- A concrete well-formed menu-group list for the round-trip instance. -/
def c2WitGroups : List StartingPointMenuGroup :=
  [{ menuGroup := str r"A",
     menuItems := [{ label := str r"ItemA", type := [str r"tA"],
                     useResourceTemplates := [str r"rtA"] }] }]

/-- The group shape as first created, before its item rows are added. -/
def spGroupShapeBare (fid : Nat) (g : StartingPointMenuGroup) : Shape :=
  { shapeId := spGroupShapeId g.menuGroup,
    shapeLabel := orNull g.menuGroup,
    folderId := some fid }

/-- The raw (pre-escaping) 17 cell values of one exported row line. -/
def rawVals (shape : Shape) (isFirst : Bool) (r : StatementRow) : List Str :=
  [if isFirst then shape.shapeId else [],
   if isFirst then shape.shapeLabel.getD [] else [],
   if isFirst then shape.resourceURI.getD [] else [],
   r.propertyId.getD [], r.propertyLabel.getD [], r.mandatory.getD [],
   r.repeatable.getD [], r.valueNodeType.getD [], r.valueDataType.getD [],
   (r.valueShape.map nlToPipe).getD [], (r.valueConstraint.map nlToPipe).getD [],
   r.valueConstraintType.getD [], r.note.getD [], r.lcDefaultLiteral.getD [],
   r.lcDefaultURI.getD [], r.lcDataTypeURI.getD [], r.lcRemark.getD []]

/-- One exported data line. -/
def lineOfRow (shape : Shape) (isFirst : Bool) (r : StatementRow) : Str :=
  List.intercalate [','] (exportRowValues ',' shape isFirst r)

/-- The create request recovered by the importer from one clean exported row
(the two multi-value columns come back newline-to-pipe converted). -/
def reqOfRow (r : StatementRow) : CreateRowRequest :=
  { propertyId := r.propertyId, propertyLabel := r.propertyLabel,
    mandatory := r.mandatory, repeatable := r.repeatable,
    valueNodeType := r.valueNodeType, valueDataType := r.valueDataType,
    valueShape := r.valueShape.map nlToPipe,
    valueConstraint := r.valueConstraint.map nlToPipe,
    valueConstraintType := r.valueConstraintType, note := r.note,
    lcDefaultLiteral := r.lcDefaultLiteral, lcDefaultURI := r.lcDefaultURI,
    lcDataTypeURI := r.lcDataTypeURI, lcRemark := r.lcRemark }

/-- The statement tuple stored for a create request. -/
def reqTuple (d : CreateRowRequest) : RowTuple :=
  { propertyId := normField d.propertyId, propertyLabel := normField d.propertyLabel,
    mandatory := normField d.mandatory, repeatable := normField d.repeatable,
    valueNodeType := normField d.valueNodeType,
    valueDataType := normField d.valueDataType,
    valueShape := normField d.valueShape,
    valueConstraint := normField d.valueConstraint,
    valueConstraintType := normField d.valueConstraintType, note := normField d.note,
    lcDefaultLiteral := normField d.lcDefaultLiteral,
    lcDefaultURI := normField d.lcDefaultURI,
    lcDataTypeURI := normField d.lcDataTypeURI, lcRemark := normField d.lcRemark }

/-- The rows stored by the CSV importer for one group, in order. -/
def csvRowsFrom (i : Nat) : List CreateRowRequest → List StatementRow
  | [] => []
  | d :: ds => mkRow [] { d with rowOrder := some i } :: csvRowsFrom (i + 1) ds

/-- The shape created by the CSV importer for one group. -/
def csvGroupShape (e : Str × CsvGroup) : Shape :=
  { shapeId := e.1, shapeLabel := normField (normField e.2.label),
    description := none, resourceURI := normField (normField e.2.resourceURI),
    folderId := none, rows := csvRowsFrom 0 e.2.rows }

/-- The CSV-imported shape as first created, before its rows are added. -/
def csvGroupShapeBare (e : Str × CsvGroup) : Shape :=
  { shapeId := e.1, shapeLabel := normField (normField e.2.label),
    resourceURI := normField (normField e.2.resourceURI) }

/-- Fold the per-row group update over a row list. -/
def groupAddAll (g : CsvGroup) (rows : List ParsedRow) : CsvGroup :=
  rows.foldl groupUpdate g

/-- The shape-label context parsed from the first line of a shape block. -/
def shapeCtxL (s : Shape) : Option Str := orNull (jstrim (s.shapeLabel.getD []))

/-- The resource-URI context parsed from the first line of a shape block. -/
def shapeCtxU (s : Shape) : Option Str := orNull (jstrim (s.resourceURI.getD []))

/-- The parsed row produced for one stored row of a shape block. -/
def parsedOfRow (s : Shape) (r : StatementRow) : ParsedRow :=
  { shapeID := some s.shapeId, shapeLabel := shapeCtxL s,
    resourceURI := shapeCtxU s, data := reqOfRow r }

/-- All parsed rows of the export of a workspace, in listing order. -/
def parsedRowsOf (w : Workspace) : List ParsedRow :=
  (shapesList w).flatMap (fun s => (rowsList w s.shapeId).map (parsedOfRow s))

/-- The column map of the exported header line. -/
def csvM : List (ColKey × Nat) :=
  colIdxMap (parseCSVLine (List.intercalate [','] csvHeaders) ',')

/-- A concrete clean shape for the round-trip instance: one fully populated
row. -/
def c1WitShape : Shape :=
  { shapeId := str r"S1",
    shapeLabel := some (str r"Shape One"),
    resourceURI := some (str r"ex:S1"),
    rows := [{ rowOrder := 5,
               propertyId := some (str r"ex:p"),
               propertyLabel := some (str r"P, with comma"),
               mandatory := some (str r"true"),
               valueNodeType := some (str r"IRI"),
               valueShape := some (str r"A" ++ '\n' :: str r"B"),
               valueConstraint := some (str "say \x22hi\x22"),
               note := some (str r"n") }] }

/-- A concrete clean workspace for the round-trip instance. -/
def c1WitWorkspace : Workspace := { shapes := [c1WitShape] }

/-- The known namespace prefixes at import time. -/
def csvKnown : List Str := DEFAULT_NAMESPACES.map (fun ns => ns.pfx)

/-- The grouping produced for the export of a clean workspace: keyed by shape
id in listing order, with per-shape group bodies `G`. -/
def csvGroupsOf (w : Workspace) (G : Shape → CsvGroup) : List (Str × CsvGroup) :=
  (shapesList w).map (fun s => (s.shapeId, G s))

/-- The store and result of importing the witness export into an empty store. -/
def c1ImpOut : List Workspace × ImportResultC :=
  importToWorkspace [] (exportWorkspace c1WitWorkspace false) (str r"w")

/-- The workspace created by the witness import. -/
def c1ImpWs : Workspace := c1ImpOut.1.headD (workspaceCreate [])

instance (v : Str) : Decidable (cleanCell v) :=
  decidable_of_iff (jstrim v = v ∧ '\n' ∉ v ∧ v ≠ []) Iff.rfl

instance (o : Option Str) : Decidable (cleanOptNoNl o) :=
  match o with
  | none => isTrue (fun _ h => nomatch h)
  | some u => decidable_of_iff (cleanCell u)
      ⟨fun h _ hv => Option.some.inj hv ▸ h, fun h => h u rfl⟩

instance (o : Option Str) : Decidable (cleanOptMulti o) :=
  match o with
  | none => isTrue (fun _ h => nomatch h)
  | some u => decidable_of_iff (jstrim u = u ∧ u ≠ [])
      ⟨fun h _ hv => Option.some.inj hv ▸ h, fun h => h u rfl⟩

instance (o : Option Str) : Decidable (noNlOpt o) :=
  match o with
  | none => isTrue (fun _ h => nomatch h)
  | some u => decidable_of_iff ('\n' ∉ u)
      ⟨fun h _ hv => Option.some.inj hv ▸ h, fun h => h u rfl⟩

instance (r : StatementRow) : Decidable (cleanRow r) :=
  decidable_of_iff (rowHasDataB r = true ∧ cleanOptNoNl r.propertyId ∧
    cleanOptNoNl r.propertyLabel ∧ cleanOptNoNl r.mandatory ∧
    cleanOptNoNl r.repeatable ∧ cleanOptNoNl r.valueNodeType ∧
    cleanOptNoNl r.valueDataType ∧ cleanOptMulti r.valueShape ∧
    cleanOptMulti r.valueConstraint ∧ cleanOptNoNl r.valueConstraintType ∧
    cleanOptNoNl r.note ∧ cleanOptNoNl r.lcDefaultLiteral ∧
    cleanOptNoNl r.lcDefaultURI ∧ cleanOptNoNl r.lcDataTypeURI ∧
    cleanOptNoNl r.lcRemark) Iff.rfl

instance (r : StatementRow) : Decidable (plainRow r) :=
  decidable_of_iff (¬(r.propertyId = some (str r"dcterms:hasPart") ∧
    r.propertyLabel = some (str r"Has Shape") ∧ optTruthy r.valueShape = true)) Iff.rfl

instance (s : Shape) : Decidable (cleanShape s) :=
  decidable_of_iff (s.rows ≠ [] ∧ cleanCell s.shapeId ∧ noNlOpt s.shapeLabel ∧
    noNlOpt s.resourceURI ∧ isStartingPointShape s.shapeId = false ∧
    ∀ r ∈ s.rows, cleanRow r ∧ plainRow r) Iff.rfl

instance (w : Workspace) : Decidable (csvCleanWorkspace w) :=
  decidable_of_iff ((shapeIds w).Nodup ∧ ∀ s ∈ w.shapes, cleanShape s) Iff.rfl

/-- The index shape as first created, before its rows are added. -/
def spIndexShapeBare (fid : Nat) : Shape :=
  { shapeId := startingPointIndexId,
    shapeLabel := some (str r"Starting Point Index"),
    folderId := some fid }

instance : IsTotal StatementRow (fun a b => a.rowOrder ≤ b.rowOrder) :=
  ⟨fun a b => Nat.le_total a.rowOrder b.rowOrder⟩

instance : IsTrans StatementRow (fun a b => a.rowOrder ≤ b.rowOrder) :=
  ⟨fun _ _ _ h1 h2 => Nat.le_trans h1 h2⟩

/- ### Theorems -/

/-- A successful prefix test recovers the string by appending the dropped part. -/
theorem isPre_append_drop : ∀ a b : Str, isPre a b = true → a ++ b.drop a.length = b
  | [], b, _ => by simp
  | _ :: _, [], h => by simp [isPre] at h
  | a :: as, b :: bs, h => by
    simp only [isPre, Bool.and_eq_true, beq_iff_eq] at h
    simp only [List.length_cons, List.drop_succ_cons, List.cons_append, h.1,
      List.cons.injEq, true_and]
    exact isPre_append_drop as bs h.2

/-- `takeWhile` over an append whose left part satisfies the predicate and
whose right part starts with a failing character. -/
theorem takeWhile_append_cons (p : Char → Bool) :
    ∀ (a : Str) (x : Char) (b : Str), (∀ c ∈ a, p c = true) → p x = false →
      (a ++ x :: b).takeWhile p = a
  | [], x, b, _, hx => by simp [List.takeWhile, hx]
  | c :: cs, x, b, ha, hx => by
    have hc : p c = true := ha c (by simp)
    simp only [List.cons_append, List.takeWhile_cons, hc, if_true]
    rw [takeWhile_append_cons p cs x b (fun d hd => ha d (by simp [hd])) hx]

/-- Dropping one past the left part of an append removes its first right
character. -/
theorem drop_append_cons (a : Str) (x : Char) (b : Str) :
    (a ++ x :: b).drop (a.length + 1) = b := by
  have h : a ++ x :: b = (a ++ [x]) ++ b := by simp
  have h2 : (a ++ [x]).length = a.length + 1 := by simp
  rw [h, ← h2, List.drop_left]

/-- With distinct prefixes, the prefix lookup of `expandUri` finds exactly the
member namespace. -/
theorem find?_pfx_of_nodup :
    ∀ (NS : List NamespaceDef) (ns : NamespaceDef), ns ∈ NS →
      (NS.map (fun n => n.pfx)).Nodup →
      NS.find? (fun n => n.pfx == ns.pfx) = some ns
  | [], ns, hmem, _ => by simp at hmem
  | h :: t, ns, hmem, hnd => by
    simp only [List.map_cons, List.nodup_cons, List.mem_map] at hnd
    rcases List.mem_cons.1 hmem with rfl | hmem'
    · simp [List.find?]
    · have hne : h.pfx ≠ ns.pfx := fun he => hnd.1 ⟨ns, hmem', he.symm⟩
      have : (h.pfx == ns.pfx) = false := by
        simp only [beq_eq_false_iff_ne, ne_eq]; exact hne
      simp only [List.find?, this]
      exact find?_pfx_of_nodup t ns hmem' hnd.2

/-- `prefixUri` with some matching namespace returns the compression of the
first matching namespace. -/
theorem prefixUri_match :
    ∀ (NS : List NamespaceDef) (u : Str), (∃ ns ∈ NS, isPre ns.uri u = true) →
      ∃ ns ∈ NS, isPre ns.uri u = true ∧
        prefixUri u NS = ns.pfx ++ ':' :: u.drop ns.uri.length
  | [], u, hex => by simp at hex
  | h :: t, u, hex => by
    by_cases hh : isPre h.uri u = true
    · exact ⟨h, by simp, hh, by simp [prefixUri, hh]⟩
    · have hex' : ∃ ns ∈ t, isPre ns.uri u = true := by
        rcases hex with ⟨ns, hmem, hp⟩
        rcases List.mem_cons.1 hmem with rfl | hmem'
        · exact absurd hp hh
        · exact ⟨ns, hmem', hp⟩
      rcases prefixUri_match t u hex' with ⟨ns, hmem, hp, heq⟩
      refine ⟨ns, by simp [hmem], hp, ?_⟩
      simp only [prefixUri, hh, if_false]
      exact heq

/-- Claim C4 (amended): for a URI with a matching namespace, the
compress/expand round trip holds provided namespace prefixes are
colon-free and pairwise distinct and the compressed form does not contain
`://`; and `prefixUri` with an empty namespace list is the identity.
(The unamended claim fails when the local part makes the compressed form
contain `://`, see the counterexample.) -/
theorem c4_namespace_roundtrip :
    (∀ (u : Str) (NS : List NamespaceDef),
      (∃ ns ∈ NS, isPre ns.uri u = true) →
      (∀ ns ∈ NS, ':' ∉ ns.pfx) →
      (NS.map (fun n => n.pfx)).Nodup →
      hasSub (str r"://") (prefixUri u NS) = false →
      expandUri (prefixUri u NS) NS = u) ∧
    (∀ u : Str, prefixUri u [] = u) := by
  constructor
  · intro u NS hex hcolon hnd hsub
    rcases prefixUri_match NS u hex with ⟨ns, hmem, hp, heq⟩
    rw [heq] at hsub ⊢
    have htw : (ns.pfx ++ ':' :: u.drop ns.uri.length).takeWhile
        (fun c => !(c == ':')) = ns.pfx := by
      refine takeWhile_append_cons _ _ _ _ (fun c hc => ?_) (by simp)
      have : c ≠ ':' := fun he => hcolon ns hmem (he ▸ hc)
      simp [this]
    rw [expandUri]
    simp only [htw]
    have hlen : ns.pfx.length ≠ (ns.pfx ++ ':' :: u.drop ns.uri.length).length := by
      simp only [List.length_append, List.length_cons]
      omega
    rw [if_neg hlen, if_neg (by simp [hsub])]
    rw [find?_pfx_of_nodup NS ns hmem hnd]
    rw [drop_append_cons]
    exact isPre_append_drop ns.uri u hp
  · intro u
    rfl

/-- Claim C4 witness: a concrete URI round trip through one namespace. -/
theorem c4_namespace_roundtrip_witness :
    expandUri (prefixUri (str r"https://x/y") [⟨str r"ex", str r"https://x/"⟩])
      [⟨str r"ex", str r"https://x/"⟩] = str r"https://x/y" :=
  c4_namespace_roundtrip.1 (str r"https://x/y") [⟨str r"ex", str r"https://x/"⟩]
    (by decide) (by decide) (by decide) (by decide)

/-- Claim C4 counterexample: the URI `https://x/y://z` matches the namespace
`https://x/` yet does not round trip, because the compressed form `ex:y://z`
contains `://` and `expandUri` returns it unchanged. -/
theorem c4_counterexample :
    (∃ ns ∈ [(⟨str r"ex", str r"https://x/"⟩ : NamespaceDef)],
      isPre ns.uri (str r"https://x/y://z") = true) ∧
    expandUri (prefixUri (str r"https://x/y://z") [⟨str r"ex", str r"https://x/"⟩])
      [⟨str r"ex", str r"https://x/"⟩] ≠ str r"https://x/y://z" := by
  decide

/-- Splitting agrees for predicates that agree on the characters present. -/
theorem splitPred_congr :
    ∀ (v : Str) (p q : Char → Bool), (∀ c ∈ v, p c = q c) →
      splitPred p v = splitPred q v
  | [], _, _, _ => rfl
  | c :: rest, p, q, h => by
    have hc : p c = q c := h c (by simp)
    have ih := splitPred_congr rest p q (fun d hd => h d (by simp [hd]))
    simp only [splitPred, hc, ih]

/-- Claim C5 (amended): the spreadsheet decode accepts comma, pipe and newline
interchangeably, so `A,B|C\nD` decodes to four elements there; the Marva
exporter decode splits on newline only, so the same value decodes to
`[A,B|C, D]`; the two decodes agree on every value free of commas and pipes. -/
theorem c5_multivalue_decode :
    getMultilineValues (some (str r"A,B|C" ++ '\n' :: str r"D")) =
      [str r"A", str r"B", str r"C", str r"D"] ∧
    marvaDecodeMulti (str r"A,B|C" ++ '\n' :: str r"D") =
      [str r"A,B|C", str r"D"] ∧
    (∀ v : Str, (∀ c ∈ v, c ≠ ',' ∧ c ≠ '|') →
      marvaDecodeMulti v = getMultilineValues (some v)) := by
  refine ⟨by decide, by decide, ?_⟩
  intro v hv
  match hveq : v with
  | [] => decide
  | c :: rest =>
    have hne : ((c :: rest : Str).isEmpty) = false := rfl
    simp only [getMultilineValues, hne, Bool.false_eq_true, if_false,
      marvaDecodeMulti]
    rw [splitPred_congr (c :: rest) (fun d => d == '\n') isMultiDelim]
    intro d hd
    have h1 : d ≠ ',' := (hv d hd).1
    have h2 : d ≠ '|' := (hv d hd).2
    simp [isMultiDelim, h1, h2]

/-- Claim C5 witness: the two decodes agree on a newline-separated value. -/
theorem c5_multivalue_decode_witness :
    marvaDecodeMulti (str r"A" ++ '\n' :: str r"B") =
      getMultilineValues (some (str r"A" ++ '\n' :: str r"B")) :=
  c5_multivalue_decode.2.2 (str r"A" ++ '\n' :: str r"B") (by decide)

/-- Claim C5 counterexample: exporting a stored `valueShape` of `A,B|C\nD`
through the Marva exporter yields the refs `[A,B|C, D]`, not
`[A, B, C, D]` — the exporter does not split on commas or pipes. -/
theorem c5_counterexample :
    firstRTRefs (exportMarvaProfiles mvCxWorkspace) = some [str r"A,B|C", str r"D"] ∧
    (some [str r"A,B|C", str r"D"] : Option (List Str)) ≠
      some [str r"A", str r"B", str r"C", str r"D"] := by
  constructor
  · rfl
  · decide

/-- The shared exporter tail never changes the inferred property type. -/
theorem marvaPropTail_type (ns : List NamespaceDef) (r : StatementRow)
    (p : MarvaPropertyTemplate) : (marvaPropTail ns r p).type = p.type := by
  unfold marvaPropTail marvaSetVC
  split_ifs <;> rfl

/-- Two distinct node-type literals. -/
theorem strne_bnode_literal : str r"bnode" ≠ str r"literal" := by decide

/-- Claim C3 (amended): the profile-path exporter infers the property type by
exactly the stated precedence (literal; bnode with `valueShape` gives
resource; `IRIstem` with `valueConstraint` gives lookup; bare `valueShape`
gives resource; default literal) — in particular a non-bnode row with both
`valueShape` and `IRIstem`/`valueConstraint` exports as lookup — while the
fallback single-document path omits the bare-`valueShape` branch and
defaults such rows to literal. -/
theorem c3_type_inference (ns : List NamespaceDef) (r : StatementRow) :
    (marvaRowToPropMain ns r).type = specTypePrecedence r ∧
    (marvaRowToPropFallback ns r).type = specTypePrecedenceNoBare r := by
  constructor
  · rw [marvaRowToPropMain, marvaPropTail_type]
    unfold marvaInferTypeMain specTypePrecedence marvaSetVC marvaBaseProp
    by_cases h1 : r.valueNodeType = some (str r"literal") <;>
      by_cases h2 : r.valueNodeType = some (str r"bnode") <;>
        by_cases h3 : optTruthy r.valueShape = true <;>
          by_cases h4 : r.valueConstraintType = some (str r"IRIstem") <;>
            by_cases h5 : optTruthy r.valueConstraint = true <;>
              simp [h1, h2, h3, h4, h5, strne_bnode_literal]
  · rw [marvaRowToPropFallback, marvaPropTail_type]
    unfold marvaInferTypeFallback specTypePrecedenceNoBare marvaSetVC marvaBaseProp
    by_cases h1 : r.valueNodeType = some (str r"literal") <;>
      by_cases h2 : r.valueNodeType = some (str r"bnode") <;>
        by_cases h3 : optTruthy r.valueShape = true <;>
          by_cases h4 : r.valueConstraintType = some (str r"IRIstem") <;>
            by_cases h5 : optTruthy r.valueConstraint = true <;>
              simp [h1, h2, h3, h4, h5, strne_bnode_literal]

/-- Claim C3 counterexample: in the fallback single-document path a non-bnode
row with a bare `valueShape` exports with type `literal`, where the claimed
precedence (with its bare-`valueShape` fallback) gives `resource`. -/
theorem c3_counterexample :
    firstRTType (exportMarvaProfiles c3CxWorkspace) = some (str r"literal") ∧
    specTypePrecedence
      { rowOrder := 0, propertyId := some (str r"ex:p"),
        valueNodeType := some (str r"IRI"), valueShape := some (str r"T") } =
      str r"resource" ∧
    (str r"literal") ≠ (str r"resource") := by
  refine ⟨rfl, by decide, by decide⟩


/-- Row creation of one resource template adds one row per property template. -/
theorem marvaCreateRTRows_count (rtId : Str) (ns : List NamespaceDef) :
    ∀ (props : List MarvaPropertyTemplate) (w : Workspace) (ro rc : Nat),
      (marvaCreateRTRows w rtId ns props ro rc).2 = rc + props.length
  | [], w, ro, rc => rfl
  | prop :: rest, w, ro, rc => by
    simp only [marvaCreateRTRows]
    rw [marvaCreateRTRows_count rtId ns rest _ (ro + 1) (rc + 1)]
    simp only [List.length_cons]
    omega

/-- Shape and row counters and collected ids of the resource-template pass. -/
theorem marvaCreateRTs_counts (ns : List NamespaceDef) :
    ∀ (rts : List MarvaResourceTemplate) (w : Workspace)
      (fmap : List (Str × Nat)) (sc rc : Nat) (ids : List Str),
      (marvaCreateRTs w fmap ns rts sc rc ids).2.2.1 = sc + rts.length ∧
      (marvaCreateRTs w fmap ns rts sc rc ids).2.2.2.1 =
        rc + (rts.map (fun rt => (rt.propertyTemplates.getD []).length)).sum ∧
      (marvaCreateRTs w fmap ns rts sc rc ids).2.2.2.2 =
        ids ++ rts.map (fun rt => rt.id)
  | [], w, fmap, sc, rc, ids => by simp [marvaCreateRTs]
  | rt :: rest, w, fmap, sc, rc, ids => by
    have ih := marvaCreateRTs_counts ns rest
    simp only [marvaCreateRTs, marvaCreateRTRows_count]
    refine ⟨?_, ?_, ?_⟩
    · rw [(ih _ _ _ _ _).1]
      simp only [List.length_cons]
      omega
    · rw [(ih _ _ _ _ _).2.1]
      simp only [List.map_cons, List.sum_cons]
      omega
    · rw [(ih _ _ _ _ _).2.2]
      simp

/-- Link-row creation adds one row per linked resource template. -/
theorem marvaCreateLinkRows_count (pid : Str) :
    ∀ (ids : List Str) (w : Workspace) (ro rc : Nat),
      (marvaCreateLinkRows w pid ids ro rc).2 = rc + ids.length
  | [], w, ro, rc => rfl
  | id :: rest, w, ro, rc => by
    simp only [marvaCreateLinkRows]
    rw [marvaCreateLinkRows_count pid rest _ (ro + 1) (rc + 1)]
    simp only [List.length_cons]
    omega

/-- Counters of the document pass, for documents that all carry a profile. -/
theorem marvaImportDocs_counts (ns : List NamespaceDef) :
    ∀ (docs : List MarvaProfileDocument) (w : Workspace)
      (fmap : List (Str × Nat)) (sc rc : Nat),
      (∀ doc ∈ docs, doc.jsonProfile.isSome) →
      (marvaImportDocs w fmap ns docs sc rc).2.1 =
        sc + docs.length + (docs.map docRTCount).sum ∧
      (marvaImportDocs w fmap ns docs sc rc).2.2 =
        rc + (docs.map docPropCount).sum + (docs.map docRTCount).sum
  | [], w, fmap, sc, rc, _ => by simp [marvaImportDocs]
  | doc :: rest, w, fmap, sc, rc, hall => by
    have ih := marvaImportDocs_counts ns rest
    have hrest : ∀ d ∈ rest, d.jsonProfile.isSome :=
      fun d hd => hall d (List.mem_cons_of_mem _ hd)
    rcases hp : doc.jsonProfile with _ | profile
    · have := hall doc (List.mem_cons_self _ _)
      rw [hp] at this
      simp at this
    · simp only [marvaImportDocs, hp]
      have hc := marvaCreateRTs_counts ns (profile.resourceTemplates.getD [])
      constructor
      · rw [(ih _ _ _ _ hrest).1, (hc _ _ _ _ _).1]
        simp only [docRTCount, hp, Option.map_some', Option.getD_some,
          List.length_cons, List.map_cons, List.sum_cons]
        omega
      · rw [(ih _ _ _ _ hrest).2, marvaCreateLinkRows_count,
          (hc _ _ _ _ _).2.1, (hc _ _ _ _ _).2.2]
        simp only [docRTCount, docPropCount, hp, Option.map_some', Option.getD_some,
          List.map_cons, List.sum_cons, List.nil_append, List.length_map]
        omega

/-- Claim C7: for profile documents that each carry a `json.Profile`, the
Marva import reports one shape per document plus one per resource template,
and one row per property template plus one link row per resource template. -/
theorem c7_marva_import_counts (workspaceName : Str)
    (profiles : List MarvaProfileDocument)
    (h : ∀ doc ∈ profiles, doc.jsonProfile.isSome) :
    (importMarvaProfiles workspaceName profiles).2.shapesCreated =
      profiles.length + (profiles.map docRTCount).sum ∧
    (importMarvaProfiles workspaceName profiles).2.rowsCreated =
      (profiles.map docPropCount).sum + (profiles.map docRTCount).sum := by
  simp only [importMarvaProfiles]
  have hm := marvaImportDocs_counts
    (namespacesList { workspaceCreate workspaceName with useLCColumns := true })
    profiles { workspaceCreate workspaceName with useLCColumns := true } [] 0 0 h
  constructor
  · rw [hm.1]
    omega
  · rw [hm.2]
    omega

/-- Claim C7 witness: one profile with one resource template holding one
literal property creates exactly 2 shapes and 2 rows. -/
theorem c7_marva_import_counts_witness :
    (importMarvaProfiles (str r"w")
      [{ name := str r"d",
         jsonProfile := some
           { id := str r"lc:profile:p", title := str r"Pf",
             resourceTemplates := some
               [{ id := str r"lc:RT:r",
                  propertyTemplates := some
                    [{ propertyURI := str r"http://purl.org/dc/terms/title",
                       propertyLabel := str r"Title",
                       mandatory := str r"false",
                       type := str r"literal" }] }] } }]).2.shapesCreated = 2 ∧
    (importMarvaProfiles (str r"w")
      [{ name := str r"d",
         jsonProfile := some
           { id := str r"lc:profile:p", title := str r"Pf",
             resourceTemplates := some
               [{ id := str r"lc:RT:r",
                  propertyTemplates := some
                    [{ propertyURI := str r"http://purl.org/dc/terms/title",
                       propertyLabel := str r"Title",
                       mandatory := str r"false",
                       type := str r"literal" }] }] } }]).2.rowsCreated = 2 := by
  have h := c7_marva_import_counts (str r"w")
    [{ name := str r"d",
       jsonProfile := some
         { id := str r"lc:profile:p", title := str r"Pf",
           resourceTemplates := some
             [{ id := str r"lc:RT:r",
                propertyTemplates := some
                  [{ propertyURI := str r"http://purl.org/dc/terms/title",
                     propertyLabel := str r"Title",
                     mandatory := str r"false",
                     type := str r"literal" }] }] } }] (by decide)
  exact ⟨by rw [h.1]; decide, by rw [h.2]; decide⟩

/-- Membership in the built column map: an entry with key `k` exists exactly
when some cell maps to `k` (or the accumulator already has one). -/
theorem colIdxBuild_mem_key :
    ∀ (cells : List Str) (i0 : Nat) (acc : List (ColKey × Nat)) (k : ColKey),
      (∃ e ∈ colIdxBuild cells i0 acc, e.1 = k) ↔
        ((∃ cell ∈ cells, colMap (normalizeHeader cell) = some k) ∨
         ∃ e ∈ acc, e.1 = k)
  | [], i0, acc, k => by simp [colIdxBuild]
  | c :: cs, i0, acc, k => by
    rw [colIdxBuild]
    rcases hm : colMap (normalizeHeader c) with _ | k'
    · rw [colIdxBuild_mem_key cs (i0 + 1) acc k]
      constructor
      · rintro (⟨cell, hcell, hk⟩ | hacc)
        · exact Or.inl ⟨cell, List.mem_cons_of_mem _ hcell, hk⟩
        · exact Or.inr hacc
      · rintro (⟨cell, hcell, hk⟩ | hacc)
        · rcases List.mem_cons.1 hcell with rfl | hcell'
          · rw [hm] at hk
            cases hk
          · exact Or.inl ⟨cell, hcell', hk⟩
        · exact Or.inr hacc
    · rw [colIdxBuild_mem_key cs (i0 + 1) ((k', i0) :: acc) k]
      constructor
      · rintro (⟨cell, hcell, hk⟩ | ⟨e, he, hk⟩)
        · exact Or.inl ⟨cell, List.mem_cons_of_mem _ hcell, hk⟩
        · rcases List.mem_cons.1 he with rfl | he'
          · exact Or.inl ⟨c, List.mem_cons_self _ _, by rw [hm]; exact congrArg some hk⟩
          · exact Or.inr ⟨e, he', hk⟩
      · rintro (⟨cell, hcell, hk⟩ | ⟨e, he, hk⟩)
        · rcases List.mem_cons.1 hcell with rfl | hcell'
          · rw [hm] at hk
            exact Or.inr ⟨(k', i0), List.mem_cons_self _ _, (Option.some.inj hk)⟩
          · exact Or.inl ⟨cell, hcell', hk⟩
        · exact Or.inr ⟨e, List.mem_cons_of_mem _ he, hk⟩

/-- A column is absent from the header map exactly when no header cell maps
to it. -/
theorem lookupCol_colIdxMap_isNone (cells : List Str) (k : ColKey) :
    (lookupCol (colIdxMap cells) k).isNone ↔
      ¬∃ cell ∈ cells, colMap (normalizeHeader cell) = some k := by
  have h := colIdxBuild_mem_key cells 0 [] k
  simp only [List.not_mem_nil, false_and, exists_false, or_false] at h
  rw [← h, lookupCol, colIdxMap]
  rcases hf : (colIdxBuild cells 0 []).find? (fun e => e.1 == k) with _ | e
  · rw [hf]
    simp only [Option.map_none', Option.isNone_none, true_iff]
    rintro ⟨e, he, hk⟩
    have := List.find?_eq_none.1 hf e he
    rw [hk] at this
    exact this (beq_self_eq_true k)
  · rw [hf]
    simp only [Option.map_some', Option.isNone_some, Bool.false_eq_true, false_iff,
      not_not]
    refine ⟨e, List.mem_of_find?_eq_some hf, ?_⟩
    have := List.find?_some hf
    exact beq_iff_eq.1 this

/-- Claim C9: on an empty input, and on a non-empty input whose header
contains neither a `propertyID` nor a `shapeID` column after normalization,
`parseCSV` fails with a structured error and no rows, and `importToWorkspace`
returns the error with the store unchanged (no workspace, shape, row or
namespace created). -/
theorem c9_failfast (store : List Workspace) (content workspaceName : Str) :
    (csvLines content = [] →
      parseCSV content = { success := false, errors := [emptyFileError] } ∧
      importToWorkspace store content workspaceName =
        (store, { success := false, errors := [emptyFileError] })) ∧
    (∀ header rest, csvLines content = header :: rest →
      (¬∃ cell ∈ parseCSVLine header (detectDelimiter content),
        colMap (normalizeHeader cell) = some ColKey.propertyId) →
      (¬∃ cell ∈ parseCSVLine header (detectDelimiter content),
        colMap (normalizeHeader cell) = some ColKey.shapeID) →
      parseCSV content = { success := false, errors := [missingColError] } ∧
      importToWorkspace store content workspaceName =
        (store, { success := false, errors := [missingColError] })) := by
  constructor
  · intro hempty
    have hp : parseCSV content = { success := false, errors := [emptyFileError] } := by
      rw [parseCSV]
      rw [show ((splitLines content).filter (fun l => !(jstrim l).isEmpty)) = [] from hempty]
      rfl
    refine ⟨hp, ?_⟩
    rw [importToWorkspace, hp]
    rfl
  · intro header rest hlines h1 h2
    have hc1 : (lookupCol (colIdxMap (parseCSVLine header (detectDelimiter content)))
        ColKey.propertyId).isNone :=
      (lookupCol_colIdxMap_isNone _ _).2 h1
    have hc2 : (lookupCol (colIdxMap (parseCSVLine header (detectDelimiter content)))
        ColKey.shapeID).isNone :=
      (lookupCol_colIdxMap_isNone _ _).2 h2
    have hp : parseCSV content = { success := false, errors := [missingColError] } := by
      rw [parseCSV]
      rw [show ((splitLines content).filter (fun l => !(jstrim l).isEmpty)) =
        header :: rest from hlines]
      simp only [hc1, hc2, Bool.and_self, if_true]
      rfl
    refine ⟨hp, ?_⟩
    rw [importToWorkspace, hp]
    rfl

/-- Claim C9 witness: concrete empty and column-free inputs fail fast. -/
theorem c9_failfast_witness :
    parseCSV (str r"  ") = { success := false, errors := [emptyFileError] } ∧
    importToWorkspace [] (str r"foo,bar" ++ '\n' :: str r"1,2") (str r"w") =
      ([], { success := false, errors := [missingColError] }) :=
  ⟨(c9_failfast [] (str r"  ") (str r"w")).1 (by decide) |>.1,
   ((c9_failfast [] (str r"foo,bar" ++ '\n' :: str r"1,2") (str r"w")).2
     (str r"foo,bar") [str r"1,2"] (by decide) (by decide) (by decide)).2⟩

/-- The data-row loop of `parseCSV` never touches the error list. -/
theorem processLine_errors (m : List (ColKey × Nat)) (delim : Char)
    (st : CsvLoop) (line : Str) (lineNum : Nat) :
    (processLine m delim st line lineNum).errors = st.errors := by
  rw [processLine]
  rcases cellOpt (parseCSVLine line delim) (lookupCol m .shapeID) with _ | sid <;>
    simp only <;> (repeat' split) <;> rfl

/-- Folding the data-row loop never touches the error list. -/
theorem processLines_errors (m : List (ColKey × Nat)) (delim : Char) :
    ∀ (lines : List Str) (i : Nat) (st : CsvLoop),
      (processLines m delim lines i st).errors = st.errors
  | [], i, st => rfl
  | l :: ls, i, st => by
    rw [processLines, processLines_errors m delim ls (i + 1) _,
      processLine_errors]

/-- Claim C10: once a non-empty input's header carries a `propertyID` or
`shapeID` column, `parseCSV` succeeds with no errors (the row loop can only
warn or skip, never error) and `importToWorkspace` succeeds. -/
theorem c10_no_row_errors (store : List Workspace) (content workspaceName : Str)
    (header : Str) (rest : List Str)
    (hlines : csvLines content = header :: rest)
    (hcol : ∃ cell ∈ parseCSVLine header (detectDelimiter content),
      colMap (normalizeHeader cell) = some ColKey.propertyId ∨
      colMap (normalizeHeader cell) = some ColKey.shapeID) :
    (parseCSV content).success = true ∧
    (parseCSV content).errors = [] ∧
    (importToWorkspace store content workspaceName).2.success = true := by
  have hcond : ((lookupCol (colIdxMap (parseCSVLine header (detectDelimiter content)))
      ColKey.propertyId).isNone &&
      (lookupCol (colIdxMap (parseCSVLine header (detectDelimiter content)))
      ColKey.shapeID).isNone) = false := by
    rcases hcol with ⟨cell, hmem, hP | hQ⟩
    · have : ¬(lookupCol (colIdxMap (parseCSVLine header (detectDelimiter content)))
          ColKey.propertyId).isNone = true := by
        rw [lookupCol_colIdxMap_isNone]
        simp only [not_not]
        exact ⟨cell, hmem, hP⟩
      simp [Bool.eq_false_iff.2 this]
    · have : ¬(lookupCol (colIdxMap (parseCSVLine header (detectDelimiter content)))
          ColKey.shapeID).isNone = true := by
        rw [lookupCol_colIdxMap_isNone]
        simp only [not_not]
        exact ⟨cell, hmem, hQ⟩
      simp [Bool.eq_false_iff.2 this]
  have herr : (processLines (colIdxMap (parseCSVLine header (detectDelimiter content)))
      (detectDelimiter content) rest 1 {}).errors = [] :=
    processLines_errors _ _ rest 1 {}
  have hp : parseCSV content =
      { success := true,
        rows := some (processLines (colIdxMap (parseCSVLine header (detectDelimiter content)))
          (detectDelimiter content) rest 1 {}).rows,
        errors := [],
        warnings := (processLines (colIdxMap (parseCSVLine header (detectDelimiter content)))
          (detectDelimiter content) rest 1 {}).warnings } := by
    rw [parseCSV]
    rw [show ((splitLines content).filter (fun l => !(jstrim l).isEmpty)) =
      header :: rest from hlines]
    simp only [hcond, Bool.false_eq_true, if_false, herr]
    rfl
  refine ⟨by rw [hp], by rw [hp], ?_⟩
  rw [importToWorkspace, hp]
  rfl

/-- Claim C10 witness: a concrete input with a recognized header succeeds. -/
theorem c10_no_row_errors_witness :
    (parseCSV (str r"shapeID,propertyID" ++ '\n' :: str r"s1,dc:a")).success = true ∧
    (parseCSV (str r"shapeID,propertyID" ++ '\n' :: str r"s1,dc:a")).errors = [] ∧
    (importToWorkspace [] (str r"shapeID,propertyID" ++ '\n' :: str r"s1,dc:a")
      (str r"w")).2.success = true :=
  c10_no_row_errors [] (str r"shapeID,propertyID" ++ '\n' :: str r"s1,dc:a")
    (str r"w") (str r"shapeID,propertyID") [str r"s1,dc:a"] (by decide) (by decide)

/-- Claim C1 counterexample: a plain shape with zero rows does not round
trip — the import of its export produces one all-empty statement row, so the
reimported row-tuple sequence differs from the original empty one. -/
theorem c1_counterexample :
    (∀ s ∈ c1CxWorkspace.shapes,
      isStartingPointShape s.shapeId = false ∧ ∀ r ∈ s.rows, plainRow r) ∧
    (importToWorkspace [] (exportWorkspace c1CxWorkspace false) (str r"w")).2.success
      = true ∧
    shapeRowTuples
      ((importToWorkspace [] (exportWorkspace c1CxWorkspace false) (str r"w")).1.headD {})
      (str r"A") ≠
      (shapeRowTuples c1CxWorkspace (str r"A")).map pipeTuple := by
  set_option maxRecDepth 8192 in
  refine ⟨by decide, by decide, by decide⟩

/-- Claim C2 counterexample: importing a file with a populated group `A` and
an empty group `B` records both groups in the index, but the export drops the
empty group, so reimporting the export loses `B` and the recorded menu group
order differs. -/
theorem c2_counterexample :
    spOrderedShapeIds
      (spImportWs (importStartingPoints (workspaceCreate (str r"w")) c2CxFile)) =
      [str r"startingpoint:A", str r"startingpoint:B"] ∧
    spOrderedShapeIds
      (spImportWs (importStartingPoints
        (spImportWs (importStartingPoints (workspaceCreate (str r"w")) c2CxFile))
        ((exportStartingPoints
          (spImportWs (importStartingPoints (workspaceCreate (str r"w")) c2CxFile))).getD []))) =
      [str r"startingpoint:A"] ∧
    ([str r"startingpoint:A"] : List Str) ≠ [str r"startingpoint:A", str r"startingpoint:B"] := by
  refine ⟨by decide, by decide, by decide⟩

/-- Claim C6 counterexample: two data rows before any shape id are both
assigned `default`, but only the first generates a warning — the claim
as stated predicts one warning per such row. -/
theorem c6_counterexample :
    ((parseCSV c6CxContent).rows.getD []).length = 2 ∧
    (∀ r ∈ (parseCSV c6CxContent).rows.getD [], r.shapeID = some (str r"default")) ∧
    (parseCSV c6CxContent).warnings.length = 1 := by
  decide

/-- `find?` respects pointwise-equal predicates. -/
theorem find?_congr_mem {α : Type} (p q : α → Bool) :
    ∀ l : List α, (∀ a ∈ l, p a = q a) → l.find? p = l.find? q
  | [], _ => rfl
  | a :: l, h => by
    have ha := h a (List.mem_cons_self _ _)
    simp only [List.find?_cons, ha]
    split
    · rfl
    · exact find?_congr_mem p q l (fun b hb => h b (List.mem_cons_of_mem _ hb))

/-- The nearest-shape-id index over one more line. -/
theorem lastSidIdx_append (m : List (ColKey × Nat)) (delim : Char)
    (P : List Str) (l : Str) :
    lastSidIdx m delim (P ++ [l]) =
      if (sidCellOf m delim l).isSome then some P.length
      else lastSidIdx m delim P := by
  unfold lastSidIdx
  have hlen : (P ++ [l]).length = P.length + 1 := by simp
  rw [hlen, List.range_succ, List.filter_append]
  have hcong : (List.range P.length).filter
      (fun j => (sidCellOf m delim ((P ++ [l]).getD j [])).isSome) =
      (List.range P.length).filter
      (fun j => (sidCellOf m delim (P.getD j [])).isSome) := by
    apply List.filter_congr
    intro j hj
    rw [List.getD_append _ _ _ j (List.mem_range.1 hj)]
  rw [hcong]
  have hget : (P ++ [l]).getD P.length [] = l := by
    rw [List.getD_append_right _ _ _ _ (le_refl _)]
    simp
  rcases hsid : (sidCellOf m delim l).isSome with _ | _
  · simp only [List.filter_cons, List.filter_nil, hget, hsid, Bool.false_eq_true,
      if_false, List.append_nil, if_false]
  · simp only [List.filter_cons, List.filter_nil, hget, hsid, if_true,
      List.getLast?_concat, if_true]

/-- The index returned by `lastSidIdx` is a valid line index. -/
theorem lastSidIdx_lt (m : List (ColKey × Nat)) (delim : Char)
    (P : List Str) (j : Nat) (h : lastSidIdx m delim P = some j) : j < P.length := by
  unfold lastSidIdx at h
  have hmem := List.mem_of_mem_getLast? h
  have := List.mem_range.1 (List.mem_filter.1 hmem).1
  exact this

/-- The shape-id context over one more line. -/
theorem stateSid_append (m : List (ColKey × Nat)) (delim : Char)
    (P : List Str) (l : Str) :
    stateSid m delim (P ++ [l]) =
      match sidCellOf m delim l with
      | some s => some s
      | none =>
        match stateSid m delim P with
        | some x => some x
        | none => if pushedLine m delim l then some (str r"default") else none := by
  unfold stateSid
  rw [lastSidIdx_append]
  rcases hs : sidCellOf m delim l with _ | s
  · simp only [hs, Option.isSome_none, Bool.false_eq_true, if_false]
    rcases hP : lastSidIdx m delim P with _ | j
    · simp only [List.any_append, List.any_cons, List.any_nil, Bool.or_false]
      rcases hany : P.any (pushedLine m delim) with _ | _
      · simp only [hany, Bool.false_or]
        rfl
      · simp only [hany, Bool.true_or]
        rfl
    · have hj := lastSidIdx_lt m delim P j hP
      simp only [List.getD_append _ _ _ j hj]
  · simp only [hs, Option.isSome_some, if_true]
    have hget : (P ++ [l]).getD P.length [] = l := by
      rw [List.getD_append_right _ _ _ _ (le_refl _)]
      simp
    simp only [hget, hs, Option.getD_some]

/-- The label context over one more line. -/
theorem stateLabel_append (m : List (ColKey × Nat)) (delim : Char)
    (P : List Str) (l : Str) :
    stateLabel m delim (P ++ [l]) =
      match sidCellOf m delim l with
      | some _ => labelCellOf m delim l
      | none =>
        match stateLabel m delim P with
        | some x => some x
        | none => labelCellOf m delim l := by
  unfold stateLabel
  rw [lastSidIdx_append]
  have hget : (P ++ [l]).getD P.length [] = l := by
    rw [List.getD_append_right _ _ _ _ (le_refl _)]
    simp
  rcases hs : sidCellOf m delim l with _ | s
  · simp only [hs, Option.isSome_none, Bool.false_eq_true, if_false]
    rcases hP : lastSidIdx m delim P with _ | j
    · unfold firstLabelCell
      rw [List.findSome?_append]
      rcases hf : (P.findSome? (labelCellOf m delim)) with _ | x
      · simp only [Option.none_or, List.findSome?_cons]
        rcases labelCellOf m delim l with _ | y <;> rfl
      · rfl
    · have hj := lastSidIdx_lt m delim P j hP
      simp only [List.getD_append _ _ _ j hj]
      rcases hl : labelCellOf m delim (P.getD j []) with _ | x
      · simp only [hl]
        unfold firstLabelCell
        rw [List.drop_append_of_le_length (by omega), List.findSome?_append]
        rcases hf : ((P.drop (j + 1)).findSome? (labelCellOf m delim)) with _ | y
        · simp only [hf, Option.none_or, List.findSome?_cons]
          rcases labelCellOf m delim l with _ | z <;> rfl
        · simp only [hf]
          rfl
      · simp only [hl]
  · simp only [hs, Option.isSome_some, if_true, hget]
    have hdrop : List.drop (P.length + 1) (P ++ [l]) = ([] : List Str) :=
      List.drop_eq_nil_of_le (by simp)
    rcases hl2 : labelCellOf m delim l with _ | x <;>
      simp only [hl2, hdrop] <;> rfl

/-- The resource-URI context over one more line. -/
theorem stateURI_append (m : List (ColKey × Nat)) (delim : Char)
    (P : List Str) (l : Str) :
    stateURI m delim (P ++ [l]) =
      match sidCellOf m delim l with
      | some _ => uriCellOf m delim l
      | none => stateURI m delim P := by
  unfold stateURI
  rw [lastSidIdx_append]
  have hget : (P ++ [l]).getD P.length [] = l := by
    rw [List.getD_append_right _ _ _ _ (le_refl _)]
    simp
  rcases hs : sidCellOf m delim l with _ | s
  · simp only [hs, Option.isSome_none, Bool.false_eq_true, if_false]
    rcases hP : lastSidIdx m delim P with _ | j
    · rfl
    · have hj := lastSidIdx_lt m delim P j hP
      simp only [List.getD_append _ _ _ j hj]
  · simp only [hs, Option.isSome_some, if_true, hget]

/-- An explicit shape id makes a line produce a row. -/
theorem pushedLine_of_sid (m : List (ColKey × Nat)) (delim : Char) (l : Str)
    (h : (sidCellOf m delim l).isSome) : pushedLine m delim l = true := by
  unfold pushedLine
  rw [h]
  simp

/-- The reference row contexts over one more line. -/
theorem refRowCtx_append (m : List (ColKey × Nat)) (delim : Char)
    (P : List Str) (l : Str) :
    refRowCtx m delim (P ++ [l]) = refRowCtx m delim P ++
      (if pushedLine m delim l then
        [((stateSid m delim (P ++ [l])).getD (str r"default"),
          stateLabel m delim (P ++ [l]), stateURI m delim (P ++ [l]))]
       else []) := by
  unfold refRowCtx
  rw [show (P ++ [l]).length = P.length + 1 by simp, List.range_succ,
    List.filterMap_append]
  congr 1
  · apply List.filterMap_congr
    intro i hi
    have hi' := List.mem_range.1 hi
    rw [List.getD_append _ _ _ i hi']
    unfold refShapeID refShapeLabel refResourceURI
    rw [List.take_append_of_le_length (by omega)]
  · have hget : (P ++ [l]).getD P.length [] = l := by
      rw [List.getD_append_right _ _ _ _ (le_refl _)]
      simp
    have htake : (P ++ [l]).take (P.length + 1) = P ++ [l] := by
      rw [show P.length + 1 = (P ++ [l]).length by simp, List.take_length]
    simp only [List.filterMap_cons, List.filterMap_nil, hget]
    unfold refShapeID refShapeLabel refResourceURI
    rw [htake]
    rcases hp : pushedLine m delim l with _ | _ <;> simp [hp]

/-- Lines at valid indices are members. -/
theorem getD_mem_of_lt {α : Type} (P : List α) (d : α) (i : Nat)
    (h : i < P.length) : P.getD i d ∈ P := by
  rw [List.getD_eq_getElem P d h]
  exact List.getElem_mem h

/-- When no line by index satisfies a predicate, no member does. -/
theorem any_eq_false_of_forall_range (p : Str → Bool) (P : List Str)
    (h : ∀ i < P.length, p (P.getD i []) = false) : P.any p = false := by
  rw [List.any_eq_false]
  intro x hx
  rcases List.mem_iff_getElem.1 hx with ⟨i, hi, rfl⟩
  have := h i hi
  rw [List.getD_eq_getElem P [] hi] at this
  simp [this]

/-- With no pushed line, there is no shape-id line either. -/
theorem lastSidIdx_eq_none_of_no_push (m : List (ColKey × Nat)) (delim : Char)
    (P : List Str)
    (h : ∀ i < P.length, pushedLine m delim (P.getD i []) = false) :
    lastSidIdx m delim P = none := by
  unfold lastSidIdx
  rcases hg : ((List.range P.length).filter
      (fun j => (sidCellOf m delim (P.getD j [])).isSome)).getLast? with _ | j
  · rfl
  · exfalso
    have hmem := List.mem_of_mem_getLast? hg
    have hj := List.mem_filter.1 hmem
    have hlt := List.mem_range.1 hj.1
    have := pushedLine_of_sid m delim (P.getD j []) hj.2
    rw [h j hlt] at this
    cases this

/-- The reference warnings over one more line. -/
theorem refWarnings_append (m : List (ColKey × Nat)) (delim : Char)
    (P : List Str) (l : Str) :
    refWarnings m delim (P ++ [l]) = refWarnings m delim P ++
      (if stateSid m delim P = none ∧ pushedLine m delim l = true ∧
          sidCellOf m delim l = none
       then [noShapeWarning (P.length + 2)] else []) := by
  unfold refWarnings
  rw [show (P ++ [l]).length = P.length + 1 by simp, List.range_succ,
    List.find?_append]
  have hget : (P ++ [l]).getD P.length [] = l := by
    rw [List.getD_append_right _ _ _ _ (le_refl _)]
    simp
  have hcong : (List.range P.length).find?
      (fun i => pushedLine m delim ((P ++ [l]).getD i [])) =
      (List.range P.length).find?
      (fun i => pushedLine m delim (P.getD i [])) := by
    apply find?_congr_mem
    intro i hi
    rw [List.getD_append _ _ _ i (List.mem_range.1 hi)]
  rw [hcong]
  rcases hf : (List.range P.length).find?
      (fun i => pushedLine m delim (P.getD i [])) with _ | j
  · have hforall : ∀ i < P.length, pushedLine m delim (P.getD i []) = false := by
      intro i hi
      have := List.find?_eq_none.1 hf i (List.mem_range.2 hi)
      simp only [Bool.not_eq_true] at this
      exact this
    have hnone : lastSidIdx m delim P = none :=
      lastSidIdx_eq_none_of_no_push m delim P hforall
    have hany : P.any (pushedLine m delim) = false :=
      any_eq_false_of_forall_range _ P hforall
    have hstate : stateSid m delim P = none := by
      unfold stateSid
      rw [hnone, hany]
      rfl
    simp only [Option.none_or, List.find?_cons, hget]
    rcases hp : pushedLine m delim l with _ | _
    · simp only [Bool.not_true, hp, Bool.false_eq_true, not_false_eq_true,
        hstate, true_and, false_and, if_false]
      rfl
    · simp only [hp]
      have htake : (P ++ [l]).take (P.length + 1) = P ++ [l] := by
        rw [show P.length + 1 = (P ++ [l]).length by simp, List.take_length]
      rw [htake, lastSidIdx_append]
      rcases hs : sidCellOf m delim l with _ | sid
      · simp only [Option.isSome_none, Bool.false_eq_true, if_false, hnone,
          Option.isNone_none, if_true, hstate, hp, hs, true_and, and_true,
          and_self, if_true]
        rfl
      · simp only [Option.isSome_some, if_true, Option.isNone_some,
          Bool.false_eq_true, if_false, hstate, hp, hs, true_and]
        simp
  · have hj := List.mem_range.1 (List.mem_of_find?_eq_some hf)
    have hpush := List.find?_some hf
    have hany : P.any (pushedLine m delim) = true := by
      rw [List.any_eq_true]
      exact ⟨P.getD j [], getD_mem_of_lt P [] j hj, hpush⟩
    have hstate : stateSid m delim P ≠ none := by
      unfold stateSid
      rcases lastSidIdx m delim P with _ | k
      · rw [hany]
        simp
      · simp
    simp only [Option.or, hstate, false_and, if_false, List.append_nil]
    rw [List.take_append_of_le_length (by omega)]

/-- The shape-id cell as the loop reads it. -/
theorem sidCellOf_eq (m : List (ColKey × Nat)) (delim : Char) (line : Str) :
    cellOpt (parseCSVLine line delim) (lookupCol m .shapeID) =
      sidCellOf m delim line := rfl

/-- The label cell as the loop reads it. -/
theorem labelCellOf_eq (m : List (ColKey × Nat)) (delim : Char) (line : Str) :
    cellOpt (parseCSVLine line delim) (lookupCol m .shapeLabel) =
      labelCellOf m delim line := rfl

/-- The resource-URI cell as the loop reads it. -/
theorem uriCellOf_eq (m : List (ColKey × Nat)) (delim : Char) (line : Str) :
    cellOpt (parseCSVLine line delim) (lookupCol m .resourceURI) =
      uriCellOf m delim line := rfl

/-- One loop step preserves the nearest-preceding description of the state. -/
theorem processLine_step (m : List (ColKey × Nat)) (delim : Char)
    (P : List Str) (l : Str) (st : CsvLoop)
    (h1 : st.curShapeID = stateSid m delim P)
    (h2 : st.curShapeLabel = stateLabel m delim P)
    (h3 : st.curResourceURI = stateURI m delim P)
    (h4 : st.rows.map rowCtxProj = refRowCtx m delim P)
    (h5 : st.warnings = refWarnings m delim P) :
    (processLine m delim st l (P.length + 2)).curShapeID =
      stateSid m delim (P ++ [l]) ∧
    (processLine m delim st l (P.length + 2)).curShapeLabel =
      stateLabel m delim (P ++ [l]) ∧
    (processLine m delim st l (P.length + 2)).curResourceURI =
      stateURI m delim (P ++ [l]) ∧
    (processLine m delim st l (P.length + 2)).rows.map rowCtxProj =
      refRowCtx m delim (P ++ [l]) ∧
    (processLine m delim st l (P.length + 2)).warnings =
      refWarnings m delim (P ++ [l]) := by
  rw [processLine, stateSid_append, stateLabel_append, stateURI_append,
    refRowCtx_append, refWarnings_append, stateSid_append, stateLabel_append,
    stateURI_append, sidCellOf_eq, labelCellOf_eq, uriCellOf_eq,
    ← h1, ← h2, ← h3, ← h4, ← h5]
  rcases hs : sidCellOf m delim l with _ | sid
  · rcases hd : hasDataB (lineData m (parseCSVLine l delim)) with _ | _
    · have hpush : pushedLine m delim l = false := by
        unfold pushedLine
        rw [hs, hd]
        rfl
      rcases hl : labelCellOf m delim l with _ | lab <;>
        rcases hcl : st.curShapeLabel with _ | x <;>
          rcases hsid : st.curShapeID with _ | y <;>
            simp [hl, hcl, hsid, hpush, hs, hd]
    · have hpush : pushedLine m delim l = true := by
        unfold pushedLine
        rw [hs, hd]
        rfl
      rcases hl : labelCellOf m delim l with _ | lab <;>
        rcases hcl : st.curShapeLabel with _ | x <;>
          rcases hsid : st.curShapeID with _ | y <;>
            simp [hl, hcl, hsid, hpush, hs, hd, rowCtxProj]
  · have hpush : pushedLine m delim l = true :=
      pushedLine_of_sid m delim l (by rw [hs]; rfl)
    simp [hs, hpush, rowCtxProj]

/-- The loop fold realizes the nearest-preceding description of the rows and
warnings. -/
theorem processLines_inv (m : List (ColKey × Nat)) (delim : Char) :
    ∀ (suffix P : List Str) (st : CsvLoop),
      st.curShapeID = stateSid m delim P →
      st.curShapeLabel = stateLabel m delim P →
      st.curResourceURI = stateURI m delim P →
      st.rows.map rowCtxProj = refRowCtx m delim P →
      st.warnings = refWarnings m delim P →
      (processLines m delim suffix (P.length + 1) st).rows.map rowCtxProj =
        refRowCtx m delim (P ++ suffix) ∧
      (processLines m delim suffix (P.length + 1) st).warnings =
        refWarnings m delim (P ++ suffix)
  | [], P, st, _, _, _, h4, h5 => by
    simp only [processLines, List.append_nil]
    exact ⟨h4, h5⟩
  | l :: ls, P, st, h1, h2, h3, h4, h5 => by
    rw [processLines]
    have step := processLine_step m delim P l st h1 h2 h3 h4 h5
    have ih := processLines_inv m delim ls (P ++ [l])
      (processLine m delim st l (P.length + 2))
      step.1 step.2.1 step.2.2.1 step.2.2.2.1 step.2.2.2.2
    rw [show (P ++ [l]).length + 1 = P.length + 2 by simp] at ih
    rw [show (P ++ [l]) ++ ls = P ++ l :: ls by simp] at ih
    exact ih

/-- Claim C6 (amended): on a parsable input, every produced row carries the
shape id of the nearest preceding line with an explicit `shapeID` cell
(`default` when there is none); its shape label is the label cell of that
line or, when that cell is empty, the first non-empty label cell after it;
its resource URI is the resource-URI cell of that line only; and exactly one
warning is generated, for the first produced row, when no explicit shape id
precedes it (not one warning per such row). -/
theorem c6_shape_inheritance (content : Str) (header : Str) (dataLines : List Str)
    (hlines : csvLines content = header :: dataLines)
    (hcol : ∃ cell ∈ parseCSVLine header (detectDelimiter content),
      colMap (normalizeHeader cell) = some ColKey.propertyId ∨
      colMap (normalizeHeader cell) = some ColKey.shapeID) :
    ((parseCSV content).rows.getD []).map rowCtxProj =
      refRowCtx (colIdxMap (parseCSVLine header (detectDelimiter content)))
        (detectDelimiter content) dataLines ∧
    (parseCSV content).warnings =
      refWarnings (colIdxMap (parseCSVLine header (detectDelimiter content)))
        (detectDelimiter content) dataLines := by
  have hcond : ((lookupCol (colIdxMap (parseCSVLine header (detectDelimiter content)))
      ColKey.propertyId).isNone &&
      (lookupCol (colIdxMap (parseCSVLine header (detectDelimiter content)))
      ColKey.shapeID).isNone) = false := by
    rcases hcol with ⟨cell, hmem, hP | hQ⟩
    · have : ¬(lookupCol (colIdxMap (parseCSVLine header (detectDelimiter content)))
          ColKey.propertyId).isNone = true := by
        rw [lookupCol_colIdxMap_isNone]
        simp only [not_not]
        exact ⟨cell, hmem, hP⟩
      simp [Bool.eq_false_iff.2 this]
    · have : ¬(lookupCol (colIdxMap (parseCSVLine header (detectDelimiter content)))
          ColKey.shapeID).isNone = true := by
        rw [lookupCol_colIdxMap_isNone]
        simp only [not_not]
        exact ⟨cell, hmem, hQ⟩
      simp [Bool.eq_false_iff.2 this]
  have hp : parseCSV content =
      { success := true,
        rows := some (processLines (colIdxMap (parseCSVLine header (detectDelimiter content)))
          (detectDelimiter content) dataLines 1 {}).rows,
        errors := [],
        warnings := (processLines (colIdxMap (parseCSVLine header (detectDelimiter content)))
          (detectDelimiter content) dataLines 1 {}).warnings } := by
    rw [parseCSV]
    rw [show ((splitLines content).filter (fun l => !(jstrim l).isEmpty)) =
      header :: dataLines from hlines]
    simp only [hcond, Bool.false_eq_true, if_false,
      processLines_errors _ _ dataLines 1 {}]
    rfl
  have hinv := processLines_inv (colIdxMap (parseCSVLine header (detectDelimiter content)))
    (detectDelimiter content) dataLines [] {} rfl rfl rfl rfl rfl
  rw [show ([] : List Str).length + 1 = 1 from rfl, List.nil_append] at hinv
  rw [hp]
  exact ⟨hinv.1, hinv.2⟩

/-- Claim C6 witness: in a concrete file, a blank-id row inherits the
preceding explicit shape id, rows before any id get `default` with a single
warning. -/
theorem c6_shape_inheritance_witness :
    (((parseCSV (str r"shapeID,propertyID" ++ '\n' :: str r",a" ++ '\n' ::
        str r"Person,b" ++ '\n' :: str r",c")).rows.getD []).map rowCtxProj =
      refRowCtx (colIdxMap (parseCSVLine (str r"shapeID,propertyID") ','))
        ',' [str r",a", str r"Person,b", str r",c"]) ∧
    ((parseCSV (str r"shapeID,propertyID" ++ '\n' :: str r",a" ++ '\n' ::
        str r"Person,b" ++ '\n' :: str r",c")).rows.getD []).map
        (fun r => r.shapeID.getD []) =
      [str r"default", str r"Person", str r"Person"] := by
  have h := c6_shape_inheritance
    (str r"shapeID,propertyID" ++ '\n' :: str r",a" ++ '\n' ::
      str r"Person,b" ++ '\n' :: str r",c")
    (str r"shapeID,propertyID") [str r",a", str r"Person,b", str r",c"]
    (by decide) (by decide)
  constructor
  · exact h.1
  · decide

/-- Filtering on lookup success then resolving and mapping equals a single
bind-based pass. -/
theorem filterMap_filter_isSome_bind (f : Str → Option Shape)
    (g : Shape → Option StartingPointMenuGroup) :
    ∀ ids : List Str,
      ((ids.filter (fun id => (f id).isSome)).filterMap f).filterMap g =
        ids.filterMap (fun id => (f id).bind g)
  | [] => rfl
  | id :: rest => by
    rcases hf : f id with _ | s
    · simp only [List.filter_cons, hf, Option.isSome_none, Bool.false_eq_true,
        if_false, List.filterMap_cons, hf, Option.none_bind]
      exact filterMap_filter_isSome_bind f g rest
    · simp only [List.filter_cons, hf, Option.isSome_some, if_true,
        List.filterMap_cons, hf, Option.some_bind]
      rcases g s with _ | grp
      · exact filterMap_filter_isSome_bind f g rest
      · rw [filterMap_filter_isSome_bind f g rest]

/-- A shape found by the exporter map lookup is a starting-point shape of the
workspace, and not the index shape. -/
theorem spShapeMapGet_mem (w : Workspace) (id : Str) (s : Shape)
    (h : spShapeMapGet w id = some s) : s ∈ spShapes w := by
  unfold spShapeMapGet at h
  have := List.mem_of_find?_eq_some h
  exact (List.mem_reverse).1 this

/-- Claim C8: the exported menu groups are those of the index-referenced
starting-point shapes first, in index row order, followed by those of the
starting-point shapes not mentioned in the index, in listing order (shapes
without `dcterms:hasPart` rows contribute no group); the index shape never
contributes a group; with an empty index reference list, the groups are
exactly those of the starting-point shapes in listing order. -/
theorem c8_sp_export_ordering (w : Workspace) (cfg : StartingPointConfig)
    (h : exportStartingPoints w = some [cfg]) :
    cfg.json =
      (spOrderedShapeIds w).filterMap
        (fun id => (spShapeMapGet w id).bind (spExportGroup w)) ++
      ((spShapes w).filter
        (fun s => !((spOrderedShapeIds w).contains s.shapeId))).filterMap
        (spExportGroup w) ∧
    (∀ s ∈ spOrderedShapes w, ¬s.shapeId = startingPointIndexId) ∧
    (spOrderedShapeIds w = [] →
      cfg.json = (spShapes w).filterMap (spExportGroup w)) := by
  have hjson : cfg.json = (spOrderedShapes w).filterMap (spExportGroup w) := by
    unfold exportStartingPoints at h
    rcases he : (spShapes w).isEmpty with _ | _
    · rw [he] at h
      simp only [Bool.false_eq_true, if_false] at h
      rcases hm : ((spOrderedShapes w).filterMap (spExportGroup w)).isEmpty with _ | _
      · rw [hm] at h
        simp only [Bool.false_eq_true, if_false, Option.some.injEq] at h
        have := List.cons.inj h.symm
        rw [this.1]
      · rw [hm] at h
        simp at h
    · rw [he] at h
      simp at h
  have hmain : cfg.json =
      (spOrderedShapeIds w).filterMap
        (fun id => (spShapeMapGet w id).bind (spExportGroup w)) ++
      ((spShapes w).filter
        (fun s => !((spOrderedShapeIds w).contains s.shapeId))).filterMap
        (spExportGroup w) := by
    rw [hjson]
    unfold spOrderedShapes
    rw [List.filterMap_append, filterMap_filter_isSome_bind]
  refine ⟨hmain, ?_, ?_⟩
  · intro s hs
    unfold spOrderedShapes at hs
    rcases List.mem_append.1 hs with hA | hB
    · rcases List.mem_filterMap.1 hA with ⟨id, _, hfid⟩
      have hmem := spShapeMapGet_mem w id s hfid
      have := (List.mem_filter.1 hmem).2
      simp only [Bool.and_eq_true, Bool.not_eq_true'] at this
      intro he
      rw [he] at this
      simp at this
    · have := (List.mem_filter.1 ((List.mem_filter.1 hB).1)).2
      simp only [Bool.and_eq_true, Bool.not_eq_true'] at this
      intro he
      rw [he] at this
      simp at this
  · intro hids
    rw [hmain, hids]
    simp [List.filterMap_nil]

/-- Claim C8 witness: two standalone starting-point shapes with no index
export in listing order. -/
theorem c8_sp_export_ordering_witness :
    (((exportStartingPoints c8Workspace).getD []).headD (mkSpConfig [])).json =
      (spShapes c8Workspace).filterMap (spExportGroup c8Workspace) :=
  (c8_sp_export_ordering c8Workspace
    (((exportStartingPoints c8Workspace).getD []).headD (mkSpConfig []))
    (by decide)).2.2 (by decide)

/-- `find?` returns the unique element satisfying the predicate, whatever the
order of the list. -/
theorem find?_unique {α : Type} {p : α → Bool} {l : List α} {x : α}
    (hx : x ∈ l) (hpx : p x = true)
    (huniq : ∀ y ∈ l, p y = true → y = x) : l.find? p = some x := by
  induction l with
  | nil => cases hx
  | cons a t ih =>
    rcases hpa : p a with _ | _
    · have hxt : x ∈ t := by
        rcases List.mem_cons.1 hx with h | h
        · rw [h] at hpx; rw [hpx] at hpa; cases hpa
        · exact h
      simp only [List.find?_cons, hpa]
      exact ih hxt (fun y hy hpy => huniq y (List.mem_cons_of_mem a hy) hpy)
    · simp only [List.find?_cons, hpa]
      rw [huniq a (List.mem_cons_self a t) hpa]

/-- A string is a prefix of itself followed by anything. -/
theorem isPre_self_append : ∀ (p t : Str), isPre p (p ++ t) = true
  | [], _ => rfl
  | a :: as, t => by
    simp [isPre, isPre_self_append as t]

/-- The stored row of one menu-item create request. -/
theorem mkRow_spItemRow (rows : List StatementRow) (ro : Nat)
    (item : StartingPointMenuItem) :
    mkRow rows
      { rowOrder := some ro,
        propertyId := some (str r"dcterms:hasPart"),
        propertyLabel := some item.label,
        valueNodeType := some (str r"IRI"),
        valueShape := some (item.useResourceTemplates.headD []),
        valueConstraint := some (item.type.headD []),
        valueConstraintType := some (str r"picklist") } = spItemRow ro item := rfl

/-- The stored row of one index create request. -/
theorem mkRow_spIndexRow (rows : List StatementRow) (ro : Nat) (sid lbl : Str) :
    mkRow rows
      { rowOrder := some ro,
        propertyId := some (str r"dcterms:hasPart"),
        propertyLabel := some lbl,
        valueShape := some sid } = spIndexRow ro (sid, lbl) := rfl

/-- Creating a row under the id of the last shape appends it there and leaves
the earlier shapes (all with different ids) unchanged. -/
theorem rowCreate_last (w : Workspace) (pre : List Shape) (s : Shape) (gid : Str)
    (d : CreateRowRequest)
    (hpre : ∀ x ∈ pre, (x.shapeId == gid) = false) (hs : s.shapeId = gid) :
    rowCreate { w with shapes := pre ++ [s] } gid d =
      { w with shapes := pre ++ [{ s with rows := s.rows ++ [mkRow s.rows d] }] } := by
  have hmap : (pre ++ [s]).map (fun x =>
      if x.shapeId == gid then { x with rows := x.rows ++ [mkRow x.rows d] } else x) =
      pre ++ [{ s with rows := s.rows ++ [mkRow s.rows d] }] := by
    rw [List.map_append]
    congr 1
    · conv_rhs => rw [← List.map_id pre]
      apply List.map_congr_left
      intro x hx
      simp [hpre x hx]
    · simp [hs]
  unfold rowCreate
  rw [hmap]

/-- Closed form of `spCreateItemRows` when exactly the last shape has the
target id. -/
theorem spCreateItemRows_closed (gid : Str) :
    ∀ (items : List StartingPointMenuItem) (w : Workspace) (pre : List Shape)
      (s : Shape) (ro rc : Nat),
      (∀ x ∈ pre, (x.shapeId == gid) = false) → s.shapeId = gid →
      spCreateItemRows { w with shapes := pre ++ [s] } gid items ro rc =
        ({ w with shapes :=
             pre ++ [{ s with rows := s.rows ++ spItemRowsFrom ro items }] },
         rc + items.length)
  | [], w, pre, s, ro, rc, hpre, hs => by
    simp [spCreateItemRows, spItemRowsFrom]
  | item :: rest, w, pre, s, ro, rc, hpre, hs => by
    simp only [spCreateItemRows]
    rw [rowCreate_last w pre s gid _ hpre hs, mkRow_spItemRow]
    rw [spCreateItemRows_closed gid rest w pre
        ({ s with rows := s.rows ++ [spItemRow ro item] }) (ro + 1) (rc + 1) hpre hs]
    simp [spItemRowsFrom, List.append_assoc, Nat.add_comm, Nat.add_assoc,
      Nat.add_left_comm]

/-- Closed form of `spCreateIndexRows` when exactly the last shape is the
index shape. -/
theorem spCreateIndexRows_closed :
    ∀ (pairs : List (Str × Str)) (w : Workspace) (pre : List Shape)
      (s : Shape) (ro rc : Nat),
      (∀ x ∈ pre, (x.shapeId == startingPointIndexId) = false) →
      s.shapeId = startingPointIndexId →
      spCreateIndexRows { w with shapes := pre ++ [s] } pairs ro rc =
        ({ w with shapes :=
             pre ++ [{ s with rows := s.rows ++ spIndexRowsFrom ro pairs }] },
         rc + pairs.length)
  | [], w, pre, s, ro, rc, hpre, hs => by
    simp [spCreateIndexRows, spIndexRowsFrom]
  | (sid, lbl) :: rest, w, pre, s, ro, rc, hpre, hs => by
    simp only [spCreateIndexRows]
    rw [rowCreate_last w pre s startingPointIndexId _ hpre hs, mkRow_spIndexRow]
    rw [spCreateIndexRows_closed rest w pre
        ({ s with rows := s.rows ++ [spIndexRow ro (sid, lbl)] }) (ro + 1) (rc + 1)
        hpre hs]
    simp [spIndexRowsFrom, List.append_assoc, Nat.add_comm, Nat.add_assoc,
      Nat.add_left_comm]

/-- The guarded shape delete of the importer equals an unconditional filter. -/
theorem deleteIf_eq (w : Workspace) (id : Str) :
    (if (shapeGet w id).isSome then shapeDelete w id else w) =
      { w with shapes := w.shapes.filter (fun s => !(s.shapeId == id)) } := by
  rcases h : shapeGet w id with _ | s
  · have hf : w.shapes.filter (fun s => !(s.shapeId == id)) = w.shapes := by
      apply List.filter_eq_self.2
      intro a ha
      have := List.find?_eq_none.1 h a ha
      simpa using this
    simp only [Option.isSome_none, Bool.false_eq_true, if_false, hf]
  · simp [shapeDelete]

/-- Closed form of `spCreateGroups` over any starting workspace: every group
shape is removed (when present) and recreated at the end with its item rows. -/
theorem spCreateGroups_closed (fid : Nat) :
    ∀ (gs : List StartingPointMenuGroup) (w : Workspace) (sc rc : Nat)
      (created : List (Str × Str)),
      (spShapeIds gs).Nodup →
      spCreateGroups w fid gs sc rc created =
        ({ w with shapes :=
             w.shapes.filter (fun s => !((spShapeIds gs).contains s.shapeId)) ++
             gs.map (spGroupShape fid) },
         sc + gs.length,
         rc + (gs.map (fun g => g.menuItems.length)).sum,
         created ++ gs.map spPair)
  | [], w, sc, rc, created, _ => by
    simp [spCreateGroups, spShapeIds]
  | g :: rest, w, sc, rc, created, hnd => by
    have hcons : spShapeIds (g :: rest) =
        spGroupShapeId g.menuGroup :: spShapeIds rest := rfl
    rw [hcons, List.nodup_cons] at hnd
    obtain ⟨hnd1, hnd2⟩ := hnd
    set F := w.shapes.filter (fun s => !(s.shapeId == spGroupShapeId g.menuGroup)) with hF
    have hpre : ∀ x ∈ F, (x.shapeId == spGroupShapeId g.menuGroup) = false := by
      intro x hx
      rw [hF] at hx
      simpa using (List.mem_filter.1 hx).2
    have hcreate : shapeCreate { w with shapes := F }
        (spGroupShapeId g.menuGroup) (some g.menuGroup) none (some fid) none =
      { w with shapes := F ++ [spGroupShapeBare fid g] } := rfl
    have hitems := spCreateItemRows_closed (spGroupShapeId g.menuGroup) g.menuItems w
      F (spGroupShapeBare fid g) 0 rc hpre rfl
    have hbare : ({ spGroupShapeBare fid g with
        rows := (spGroupShapeBare fid g).rows ++ spItemRowsFrom 0 g.menuItems } :
          Shape) = spGroupShape fid g := rfl
    rw [hbare] at hitems
    have hsplit : (F ++ [spGroupShape fid g]).filter
          (fun s => !((spShapeIds rest).contains s.shapeId)) =
        w.shapes.filter
          (fun s => !((spShapeIds (g :: rest)).contains s.shapeId)) ++
          [spGroupShape fid g] := by
      rw [List.filter_append, hF, List.filter_filter]
      congr 1
      · apply List.filter_congr
        intro x hx
        rw [hcons]
        simp only [List.contains_cons, Bool.not_or, beq_eq_decide]
        rw [Bool.and_comm]
      · have hnm : (spGroupShape fid g).shapeId ∉ spShapeIds rest := hnd1
        simp [hnm]
    simp only [spCreateGroups]
    rw [deleteIf_eq, ← hF, hcreate, hitems]
    rw [spCreateGroups_closed fid rest
        { w with shapes := F ++ [spGroupShape fid g] }
        (sc + 1) (rc + g.menuItems.length)
        (created ++ [(spGroupShapeId g.menuGroup, g.menuGroup)]) hnd2]
    rw [hsplit]
    simp [List.append_assoc, Nat.add_comm, Nat.add_assoc, Nat.add_left_comm, spPair]

/-- The reserved index id decomposes as the marker plus `index`. -/
theorem startingPointIndexId_eq :
    startingPointIndexId = startingPointMark ++ str r"index" := rfl

/-- A group shape id never equals the reserved index id when the normalized
group name is not `index`. -/
theorem spGroupShapeId_ne_index {m : Str} (h : collapseWs m ≠ str r"index") :
    (spGroupShapeId m == startingPointIndexId) = false := by
  rw [beq_eq_false_iff_ne]
  intro he
  rw [spGroupShapeId, startingPointIndexId_eq] at he
  exact h (List.append_cancel_left he)

/-- Closed form of `importStartingPoints` on a single-config file: every group
shape and the index shape are rebuilt at the end of the shape list. -/
theorem importStartingPoints_closed (w : Workspace) (gs : List StartingPointMenuGroup)
    (hne : gs ≠ []) (hnd : (spShapeIds gs).Nodup)
    (hix : ∀ g ∈ gs, collapseWs g.menuGroup ≠ str r"index") :
    importStartingPoints w [mkSpConfig gs] =
      .ok ({ (getOrCreateStartingPointFolder w).1 with shapes :=
               (((getOrCreateStartingPointFolder w).1.shapes.filter
                 (fun s => !(s.shapeId == startingPointIndexId) &&
                           !((spShapeIds gs).contains s.shapeId))) ++
                spCanonShapes (getOrCreateStartingPointFolder w).2 gs) },
           { shapesCreated := gs.length + 1,
             rowsCreated := (gs.map (fun g => g.menuItems.length)).sum + gs.length,
             folderId := (getOrCreateStartingPointFolder w).2 }) := by
  have hfind : [mkSpConfig gs].find?
      (fun c => c.configType == str r"startingPoints") = some (mkSpConfig gs) := rfl
  have hne' : gs.isEmpty = false := by
    cases gs with
    | nil => exact absurd rfl hne
    | cons a t => rfl
  have hgid : ∀ g ∈ gs, (spGroupShapeId g.menuGroup == startingPointIndexId) = false :=
    fun g hg => spGroupShapeId_ne_index (hix g hg)
  have hjson : (mkSpConfig gs).json = gs := rfl
  simp only [importStartingPoints, hfind, hjson, hne', Bool.false_eq_true, if_false]
  rw [spCreateGroups_closed (getOrCreateStartingPointFolder w).2 gs
      (getOrCreateStartingPointFolder w).1 0 0 [] hnd]
  simp only [List.nil_append]
  rw [deleteIf_eq]
  rw [List.filter_append]
  have hmapf : (gs.map (spGroupShape (getOrCreateStartingPointFolder w).2)).filter
      (fun s => !(s.shapeId == startingPointIndexId)) =
      gs.map (spGroupShape (getOrCreateStartingPointFolder w).2) := by
    apply List.filter_eq_self.2
    intro a ha
    obtain ⟨g, hg, rfl⟩ := List.mem_map.1 ha
    have : ((spGroupShape (getOrCreateStartingPointFolder w).2 g).shapeId ==
        startingPointIndexId) = false := hgid g hg
    simp [this]
  rw [hmapf, List.filter_filter]
  have hcreateIx : shapeCreate
      { (getOrCreateStartingPointFolder w).1 with shapes :=
          (((getOrCreateStartingPointFolder w).1.shapes.filter
            (fun s => !(s.shapeId == startingPointIndexId) &&
                      !((spShapeIds gs).contains s.shapeId))) ++
           gs.map (spGroupShape (getOrCreateStartingPointFolder w).2)) }
      startingPointIndexId (some (str r"Starting Point Index")) none
      (some (getOrCreateStartingPointFolder w).2) none =
    { (getOrCreateStartingPointFolder w).1 with shapes :=
        ((((getOrCreateStartingPointFolder w).1.shapes.filter
            (fun s => !(s.shapeId == startingPointIndexId) &&
                      !((spShapeIds gs).contains s.shapeId))) ++
          gs.map (spGroupShape (getOrCreateStartingPointFolder w).2)) ++
         [spIndexShapeBare (getOrCreateStartingPointFolder w).2]) } := rfl
  rw [hcreateIx]
  have hpreIx : ∀ x ∈ ((getOrCreateStartingPointFolder w).1.shapes.filter
        (fun s => !(s.shapeId == startingPointIndexId) &&
                  !((spShapeIds gs).contains s.shapeId))) ++
        gs.map (spGroupShape (getOrCreateStartingPointFolder w).2),
      (x.shapeId == startingPointIndexId) = false := by
    intro x hx
    rcases List.mem_append.1 hx with hx | hx
    · have := (List.mem_filter.1 hx).2
      rcases hb : x.shapeId == startingPointIndexId with _ | _
      · rfl
      · rw [hb] at this; simp at this
    · obtain ⟨g, hg, rfl⟩ := List.mem_map.1 hx
      exact hgid g hg
  simp only [Nat.zero_add]
  rw [spCreateIndexRows_closed (gs.map spPair) (getOrCreateStartingPointFolder w).1
      (((getOrCreateStartingPointFolder w).1.shapes.filter
          (fun s => !(s.shapeId == startingPointIndexId) &&
                    !((spShapeIds gs).contains s.shapeId))) ++
        gs.map (spGroupShape (getOrCreateStartingPointFolder w).2))
      (spIndexShapeBare (getOrCreateStartingPointFolder w).2) 0
      ((gs.map (fun g => g.menuItems.length)).sum) hpreIx rfl]
  have hbareIx : ({ spIndexShapeBare (getOrCreateStartingPointFolder w).2 with
      rows := ((spIndexShapeBare (getOrCreateStartingPointFolder w).2).rows ++
        spIndexRowsFrom 0 (gs.map spPair)) } : Shape) =
      spIndexShape (getOrCreateStartingPointFolder w).2 gs := rfl
  rw [hbareIx]
  simp [spCanonShapes, List.append_assoc, Nat.add_comm]

/-- Item rows carry row orders at least the start order. -/
theorem spItemRowsFrom_ge : ∀ (items : List StartingPointMenuItem) (ro : Nat),
    ∀ r ∈ spItemRowsFrom ro items, ro ≤ r.rowOrder
  | [], _, _, hr => by cases hr
  | item :: rest, ro, r, hr => by
    rcases List.mem_cons.1 hr with h | h
    · rw [h]; exact Nat.le_refl ro
    · exact Nat.le_trans (Nat.le_succ ro) (spItemRowsFrom_ge rest (ro + 1) r h)

/-- Item rows are sorted by row order. -/
theorem spItemRowsFrom_sorted : ∀ (items : List StartingPointMenuItem) (ro : Nat),
    List.Sorted (fun a b => a.rowOrder ≤ b.rowOrder) (spItemRowsFrom ro items)
  | [], _ => List.sorted_nil
  | item :: rest, ro => by
    rw [spItemRowsFrom]
    exact List.sorted_cons.2
      ⟨fun b hb => Nat.le_trans (Nat.le_succ ro) (spItemRowsFrom_ge rest (ro + 1) b hb),
       spItemRowsFrom_sorted rest (ro + 1)⟩

/-- Index rows carry row orders at least the start order. -/
theorem spIndexRowsFrom_ge : ∀ (ps : List (Str × Str)) (ro : Nat),
    ∀ r ∈ spIndexRowsFrom ro ps, ro ≤ r.rowOrder
  | [], _, _, hr => by cases hr
  | e :: rest, ro, r, hr => by
    rcases List.mem_cons.1 hr with h | h
    · rw [h]; exact Nat.le_refl ro
    · exact Nat.le_trans (Nat.le_succ ro) (spIndexRowsFrom_ge rest (ro + 1) r h)

/-- Index rows are sorted by row order. -/
theorem spIndexRowsFrom_sorted : ∀ (ps : List (Str × Str)) (ro : Nat),
    List.Sorted (fun a b => a.rowOrder ≤ b.rowOrder) (spIndexRowsFrom ro ps)
  | [], _ => List.sorted_nil
  | e :: rest, ro => by
    rw [spIndexRowsFrom]
    exact List.sorted_cons.2
      ⟨fun b hb => Nat.le_trans (Nat.le_succ ro) (spIndexRowsFrom_ge rest (ro + 1) b hb),
       spIndexRowsFrom_sorted rest (ro + 1)⟩

/-- `rowsList` returns the stored rows unchanged when they are already sorted. -/
theorem rowsList_of_get {w : Workspace} {id : Str} {s : Shape}
    (h : shapeGet w id = some s)
    (hs : List.Sorted (fun a b => a.rowOrder ≤ b.rowOrder) s.rows) :
    rowsList w id = s.rows := by
  simp only [rowsList, h]
  exact hs.insertionSort_eq

/-- The normalized-name distinctness of the round-trip hypothesis transfers to
the created shape ids. -/
theorem spShapeIds_nodup {gs : List StartingPointMenuGroup}
    (h : (gs.map (fun g => collapseWs g.menuGroup)).Nodup) :
    (spShapeIds gs).Nodup := by
  have he : spShapeIds gs = (gs.map (fun g => collapseWs g.menuGroup)).map
      (fun x => startingPointMark ++ x) := by
    rw [List.map_map]
    rfl
  rw [he]
  exact h.map (fun a b hab => List.append_cancel_left hab)

/-- Looking up a group shape in a canonical workspace. -/
theorem shapeGet_canon_group {w : Workspace} {fid : Nat}
    {gs : List StartingPointMenuGroup} (hw : w.shapes = spCanonShapes fid gs)
    (hnd : (spShapeIds gs).Nodup)
    (hix : ∀ g ∈ gs, collapseWs g.menuGroup ≠ str r"index")
    {g : StartingPointMenuGroup} (hg : g ∈ gs) :
    shapeGet w (spGroupShapeId g.menuGroup) = some (spGroupShape fid g) := by
  rw [shapeGet, hw]
  apply find?_unique (x := spGroupShape fid g)
  · exact List.mem_append_left _ (List.mem_map_of_mem _ hg)
  · exact beq_self_eq_true _
  · intro y hy hpy
    rcases List.mem_append.1 hy with hy | hy
    · obtain ⟨g2, hg2, rfl⟩ := List.mem_map.1 hy
      have heq : spGroupShapeId g2.menuGroup = spGroupShapeId g.menuGroup :=
        eq_of_beq hpy
      rw [List.inj_on_of_nodup_map hnd hg2 hg heq]
    · rw [List.mem_singleton.1 hy] at hpy
      exact absurd (eq_of_beq hpy).symm
        (beq_eq_false_iff_ne.1 (spGroupShapeId_ne_index (hix g hg)))

/-- Looking up the index shape in a canonical workspace. -/
theorem shapeGet_canon_index {w : Workspace} {fid : Nat}
    {gs : List StartingPointMenuGroup} (hw : w.shapes = spCanonShapes fid gs)
    (hix : ∀ g ∈ gs, collapseWs g.menuGroup ≠ str r"index") :
    shapeGet w startingPointIndexId = some (spIndexShape fid gs) := by
  rw [shapeGet, hw]
  apply find?_unique (x := spIndexShape fid gs)
  · exact List.mem_append_right _ (List.mem_singleton_self _)
  · exact beq_self_eq_true _
  · intro y hy hpy
    rcases List.mem_append.1 hy with hy | hy
    · obtain ⟨g2, hg2, rfl⟩ := List.mem_map.1 hy
      exact absurd (eq_of_beq hpy)
        (beq_eq_false_iff_ne.1 (spGroupShapeId_ne_index (hix g2 hg2)))
    · rw [List.mem_singleton.1 hy]

/-- The listed rows of a group shape of a canonical workspace. -/
theorem rowsList_canon_group {w : Workspace} {fid : Nat}
    {gs : List StartingPointMenuGroup} (hw : w.shapes = spCanonShapes fid gs)
    (hnd : (spShapeIds gs).Nodup)
    (hix : ∀ g ∈ gs, collapseWs g.menuGroup ≠ str r"index")
    {g : StartingPointMenuGroup} (hg : g ∈ gs) :
    rowsList w (spGroupShapeId g.menuGroup) = spItemRowsFrom 0 g.menuItems :=
  rowsList_of_get (shapeGet_canon_group hw hnd hix hg)
    (spItemRowsFrom_sorted g.menuItems 0)

/-- The listed rows of the index shape of a canonical workspace. -/
theorem rowsList_canon_index {w : Workspace} {fid : Nat}
    {gs : List StartingPointMenuGroup} (hw : w.shapes = spCanonShapes fid gs)
    (hix : ∀ g ∈ gs, collapseWs g.menuGroup ≠ str r"index") :
    rowsList w startingPointIndexId = spIndexRowsFrom 0 (gs.map spPair) :=
  rowsList_of_get (shapeGet_canon_index hw hix)
    (spIndexRowsFrom_sorted (gs.map spPair) 0)

/-- Every created group shape id passes the starting-point shape test. -/
theorem isStartingPointShape_group (m : Str) :
    isStartingPointShape (spGroupShapeId m) = true := by
  rw [isStartingPointShape]
  have h : isPre (jsToLower startingPointMark) (jsToLower (spGroupShapeId m)) = true := by
    rw [spGroupShapeId, jsToLower, jsToLower, List.map_append]
    exact isPre_self_append _ _
  rw [h, Bool.true_or]

/-- The starting-point shapes of a canonical workspace are exactly the group
shapes. -/
theorem mem_spShapes_canon {w : Workspace} {fid : Nat}
    {gs : List StartingPointMenuGroup} (hw : w.shapes = spCanonShapes fid gs)
    (hix : ∀ g ∈ gs, collapseWs g.menuGroup ≠ str r"index") {x : Shape} :
    x ∈ spShapes w ↔ x ∈ gs.map (spGroupShape fid) := by
  rw [spShapes]
  constructor
  · intro hx
    obtain ⟨hm1, hm2⟩ := List.mem_filter.1 hx
    have hmem : x ∈ w.shapes := (List.perm_insertionSort _ w.shapes).mem_iff.1 hm1
    rw [hw] at hmem
    rcases List.mem_append.1 hmem with h | h
    · exact h
    · rw [List.mem_singleton.1 h] at hm2
      simp [spIndexShape] at hm2
  · intro hx
    apply List.mem_filter.2
    refine ⟨(List.perm_insertionSort _ w.shapes).mem_iff.2 ?_, ?_⟩
    · rw [hw]
      exact List.mem_append_left _ hx
    · obtain ⟨g, hg, rfl⟩ := List.mem_map.1 hx
      have h1 : isStartingPointShape (spGroupShape fid g).shapeId = true :=
        isStartingPointShape_group g.menuGroup
      have h2 : ((spGroupShape fid g).shapeId == startingPointIndexId) = false :=
        spGroupShapeId_ne_index (hix g hg)
      rw [h1, h2]
      rfl

/-- The ids and labels listed by the index rows. -/
theorem spIndexIds : ∀ (gs : List StartingPointMenuGroup) (ro : Nat),
    ((spIndexRowsFrom ro (gs.map spPair)).filter
      (fun r => optTruthy r.valueShape)).map (fun r => r.valueShape.getD []) =
    spShapeIds gs
  | [], _ => rfl
  | g :: rest, ro => by
    have h1 : optTruthy (spIndexRow ro (spPair g)).valueShape = true := rfl
    rw [List.map_cons, spIndexRowsFrom]
    simp only [List.filter_cons, h1, if_true]
    rw [List.map_cons, spIndexIds rest (ro + 1)]
    rfl

/-- The ordered shape ids of a canonical workspace follow the group order. -/
theorem spOrderedShapeIds_canon {w : Workspace} {fid : Nat}
    {gs : List StartingPointMenuGroup} (hw : w.shapes = spCanonShapes fid gs)
    (hix : ∀ g ∈ gs, collapseWs g.menuGroup ≠ str r"index") :
    spOrderedShapeIds w = spShapeIds gs := by
  have hfind : (shapesList w).find? (fun s => s.shapeId == startingPointIndexId) =
      some (spIndexShape fid gs) := by
    apply find?_unique (x := spIndexShape fid gs)
    · apply (List.perm_insertionSort _ w.shapes).mem_iff.2
      rw [hw]
      exact List.mem_append_right _ (List.mem_singleton_self _)
    · exact beq_self_eq_true _
    · intro y hy hpy
      have hy2 : y ∈ w.shapes := (List.perm_insertionSort _ w.shapes).mem_iff.1 hy
      rw [hw] at hy2
      rcases List.mem_append.1 hy2 with h | h
      · obtain ⟨g2, hg2, rfl⟩ := List.mem_map.1 h
        exact absurd (eq_of_beq hpy)
          (beq_eq_false_iff_ne.1 (spGroupShapeId_ne_index (hix g2 hg2)))
      · exact List.mem_singleton.1 h
  simp only [spOrderedShapeIds, hfind, rowsList_canon_index hw hix]
  exact spIndexIds gs 0

/-- The exporter shape-map lookup of a group shape id in a canonical
workspace. -/
theorem spShapeMapGet_canon {w : Workspace} {fid : Nat}
    {gs : List StartingPointMenuGroup} (hw : w.shapes = spCanonShapes fid gs)
    (hnd : (spShapeIds gs).Nodup)
    (hix : ∀ g ∈ gs, collapseWs g.menuGroup ≠ str r"index")
    {g : StartingPointMenuGroup} (hg : g ∈ gs) :
    spShapeMapGet w (spGroupShapeId g.menuGroup) = some (spGroupShape fid g) := by
  rw [spShapeMapGet]
  apply find?_unique (x := spGroupShape fid g)
  · exact List.mem_reverse.2 ((mem_spShapes_canon hw hix).2 (List.mem_map_of_mem _ hg))
  · exact beq_self_eq_true _
  · intro y hy hpy
    have hy2 := (mem_spShapes_canon hw hix).1 (List.mem_reverse.1 hy)
    obtain ⟨g2, hg2, rfl⟩ := List.mem_map.1 hy2
    have heq : spGroupShapeId g2.menuGroup = spGroupShapeId g.menuGroup :=
      eq_of_beq hpy
    rw [List.inj_on_of_nodup_map hnd hg2 hg heq]

/-- `filterMap` of an everywhere-defined function is a `map`. -/
theorem filterMap_eq_map_of_some {α β : Type} (f : α → Option β) (g : α → β) :
    ∀ (l : List α), (∀ x ∈ l, f x = some (g x)) → l.filterMap f = l.map g
  | [], _ => rfl
  | a :: t, h => by
    rw [List.filterMap_cons_some (h a (List.mem_cons_self a t)), List.map_cons,
      filterMap_eq_map_of_some f g t (fun x hx => h x (List.mem_cons_of_mem a hx))]

/-- The export order over a canonical workspace is exactly the group order. -/
theorem spOrderedShapes_canon {w : Workspace} {fid : Nat}
    {gs : List StartingPointMenuGroup} (hw : w.shapes = spCanonShapes fid gs)
    (hnd : (spShapeIds gs).Nodup)
    (hix : ∀ g ∈ gs, collapseWs g.menuGroup ≠ str r"index") :
    spOrderedShapes w = gs.map (spGroupShape fid) := by
  rw [spOrderedShapes, spOrderedShapeIds_canon hw hix]
  have hids : (spShapeIds gs).filter (fun id => (spShapeMapGet w id).isSome) =
      spShapeIds gs := by
    apply List.filter_eq_self.2
    intro a ha
    obtain ⟨g, hg, rfl⟩ := List.mem_map.1 ha
    rw [spShapeMapGet_canon hw hnd hix hg]
    rfl
  rw [hids]
  have hfm : (spShapeIds gs).filterMap (spShapeMapGet w) =
      gs.map (spGroupShape fid) := by
    rw [spShapeIds, List.filterMap_map]
    exact filterMap_eq_map_of_some _ _ gs
      (fun g hg => spShapeMapGet_canon hw hnd hix hg)
  have hrest : (spShapes w).filter
      (fun s => !((spShapeIds gs).contains s.shapeId)) = [] := by
    apply List.filter_eq_nil_iff.2
    intro a ha
    obtain ⟨g, hg, rfl⟩ := List.mem_map.1 ((mem_spShapes_canon hw hix).1 ha)
    have hm : (spGroupShape fid g).shapeId ∈ spShapeIds gs :=
      List.mem_map_of_mem _ hg
    simpa using hm
  rw [hfm, hrest, List.append_nil]

/-- `x || y` after `x || null` recovers the original string. -/
theorem jsOrStr_orNull (x : Str) (d : Str) : jsOrStr (orNull x) d = if x.isEmpty then d else x := by
  cases x with
  | nil => rfl
  | cons c cs => rfl

/-- Reducing a stored first element back to a singleton list agrees with the
canonical item reduction. -/
theorem optSingleton_orNull_headD (l : List Str) :
    (match orNull (l.headD []) with
     | some v => if v.isEmpty then [] else [v]
     | none => ([] : List Str)) =
    (match l.head? with
     | some h => if h.isEmpty then [] else [h]
     | none => ([] : List Str)) := by
  cases l with
  | nil => rfl
  | cons h t =>
    cases h with
    | nil => rfl
    | cons c cs => rfl

/-- Every item row passes the exporter property filter. -/
theorem spItemRows_filter_pid : ∀ (items : List StartingPointMenuItem) (ro : Nat),
    (spItemRowsFrom ro items).filter
      (fun r => r.propertyId == some (str r"dcterms:hasPart")) =
    spItemRowsFrom ro items
  | [], _ => rfl
  | item :: rest, ro => by
    have h1 : ((spItemRow ro item).propertyId == some (str r"dcterms:hasPart")) =
        true := rfl
    rw [spItemRowsFrom]
    simp only [List.filter_cons, h1, if_true]
    rw [spItemRows_filter_pid rest (ro + 1)]

/-- The exporter item map sends stored item rows back to canonical items. -/
theorem spItemRows_map_item : ∀ (items : List StartingPointMenuItem) (ro : Nat),
    (spItemRowsFrom ro items).map (fun r =>
      ({ label := jsOrStr r.propertyLabel [],
         type := match r.valueConstraint with
                 | some v => if v.isEmpty then [] else [v]
                 | none => [],
         useResourceTemplates := match r.valueShape with
                 | some v => if v.isEmpty then [] else [v]
                 | none => [] } : StartingPointMenuItem)) = items.map canonItem
  | [], _ => rfl
  | item :: rest, ro => by
    rw [spItemRowsFrom, List.map_cons, List.map_cons,
      spItemRows_map_item rest (ro + 1)]
    congr 1
    show ({ label := jsOrStr (orNull item.label) [],
            type := match orNull (item.type.headD []) with
                    | some v => if v.isEmpty then [] else [v]
                    | none => [],
            useResourceTemplates :=
              match orNull (item.useResourceTemplates.headD []) with
              | some v => if v.isEmpty then [] else [v]
              | none => [] } : StartingPointMenuItem) = canonItem item
    simp only [canonItem, StartingPointMenuItem.mk.injEq]
    refine ⟨?_, ?_, ?_⟩
    · cases hl : item.label with
      | nil => rfl
      | cons c cs => rfl
    · exact optSingleton_orNull_headD item.type
    · exact optSingleton_orNull_headD item.useResourceTemplates

/-- The exported group name of a canonical group shape is the original name. -/
theorem spGroup_menuGroup (g : StartingPointMenuGroup) :
    jsOrStr (orNull g.menuGroup)
      (replaceChar '_' [' '] (replaceFirstSub startingPointMark []
        (spGroupShapeId g.menuGroup))) = g.menuGroup := by
  cases hm : g.menuGroup with
  | nil => rfl
  | cons c cs => rfl

/-- Exporting a canonical group shape yields the canonical menu group. -/
theorem spExportGroup_canon (w : Workspace) (fid : Nat)
    (g : StartingPointMenuGroup)
    (hrows : rowsList w (spGroupShapeId g.menuGroup) = spItemRowsFrom 0 g.menuItems)
    (hne : g.menuItems ≠ []) :
    spExportGroup w (spGroupShape fid g) = some (canonGroup g) := by
  have hid : (spGroupShape fid g).shapeId = spGroupShapeId g.menuGroup := rfl
  rw [spExportGroup, hid, hrows, spItemRows_filter_pid, spItemRows_map_item]
  have hempty : (g.menuItems.map canonItem).isEmpty = false := by
    cases hgm : g.menuItems with
    | nil => exact absurd hgm hne
    | cons a t => rfl
  simp only [hempty, Bool.false_eq_true, if_false]
  have hlabel : (spGroupShape fid g).shapeLabel = orNull g.menuGroup := rfl
  rw [hlabel, spGroup_menuGroup]
  rfl

/-- Exporting any workspace whose shapes are canonical for well-formed groups
yields the canonical single-config file. -/
theorem exportStartingPoints_canon {w : Workspace} {fid : Nat}
    {gs : List StartingPointMenuGroup} (hw : w.shapes = spCanonShapes fid gs)
    (hwf : spWellFormed gs) :
    exportStartingPoints w = some (spCanonFile gs) := by
  obtain ⟨hne, hitems, hndn, hix⟩ := hwf
  have hnd : (spShapeIds gs).Nodup := spShapeIds_nodup hndn
  have hspne : (spShapes w).isEmpty = false := by
    rcases hgs : gs with _ | ⟨g0, grest⟩
    · exact absurd hgs hne
    · have hmem : spGroupShape fid g0 ∈ spShapes w := by
        apply (mem_spShapes_canon hw hix).2
        rw [hgs]
        exact List.mem_map_of_mem _ (List.mem_cons_self _ _)
      rcases hsp : spShapes w with _ | ⟨a, t⟩
      · rw [hsp] at hmem; cases hmem
      · rfl
  rw [exportStartingPoints]
  simp only [hspne, Bool.false_eq_true, if_false]
  rw [spOrderedShapes_canon hw hnd hix]
  have hmg : (gs.map (spGroupShape fid)).filterMap (spExportGroup w) =
      canonGroups gs := by
    rw [List.filterMap_map, canonGroups]
    exact filterMap_eq_map_of_some _ _ gs (fun g hg =>
      spExportGroup_canon w fid g (rowsList_canon_group hw hnd hix hg)
        (hitems g hg))
  rw [hmg]
  have hcne : (canonGroups gs).isEmpty = false := by
    rcases hgs : gs with _ | ⟨g0, grest⟩
    · exact absurd hgs hne
    · rfl
  simp only [hcne, Bool.false_eq_true, if_false]
  rfl

/-- Reducing a list to its first element twice is the same as once. -/
theorem headD_canon_single (l : List Str) :
    ((match l.head? with
      | some h => if h.isEmpty then [] else [h]
      | none => ([] : List Str)).headD []) = l.headD [] := by
  cases l with
  | nil => rfl
  | cons h t =>
    cases h with
    | nil => rfl
    | cons c cs => rfl

/-- Canonical items import to the same stored row as the original items. -/
theorem spItemRow_canonItem (ro : Nat) (item : StartingPointMenuItem) :
    spItemRow ro (canonItem item) = spItemRow ro item := by
  simp only [spItemRow, canonItem]
  rw [headD_canon_single, headD_canon_single]

/-- Canonical items import to the same stored rows as the original items. -/
theorem spItemRowsFrom_canon : ∀ (items : List StartingPointMenuItem) (ro : Nat),
    spItemRowsFrom ro (items.map canonItem) = spItemRowsFrom ro items
  | [], _ => rfl
  | item :: rest, ro => by
    rw [List.map_cons, spItemRowsFrom, spItemRowsFrom, spItemRow_canonItem,
      spItemRowsFrom_canon rest (ro + 1)]

/-- A canonical group imports to the same shape as the original group. -/
theorem spGroupShape_canon (fid : Nat) (g : StartingPointMenuGroup) :
    spGroupShape fid (canonGroup g) = spGroupShape fid g := by
  simp only [spGroupShape, canonGroup]
  rw [spItemRowsFrom_canon]

/-- Canonical groups create the same shape ids. -/
theorem spShapeIds_canonGroups (gs : List StartingPointMenuGroup) :
    spShapeIds (canonGroups gs) = spShapeIds gs := by
  rw [spShapeIds, spShapeIds, canonGroups, List.map_map]
  rfl

/-- Canonical groups import to the same shape list as the original groups. -/
theorem spCanonShapes_canonGroups (fid : Nat) (gs : List StartingPointMenuGroup) :
    spCanonShapes fid (canonGroups gs) = spCanonShapes fid gs := by
  have hp : (canonGroups gs).map spPair = gs.map spPair := by
    rw [canonGroups, List.map_map]
    rfl
  rw [spCanonShapes, spCanonShapes]
  congr 1
  · rw [canonGroups, List.map_map]
    apply List.map_congr_left
    intro g hg
    exact spGroupShape_canon fid g
  · rw [spIndexShape, spIndexShape, hp]

/-- **C2** (corrected): for well-formed menu groups — every group nonempty,
whitespace-normalized group names pairwise distinct and none the reserved name
`index` — importing a starting-point file into a fresh workspace, exporting
it and importing the export again is lossless: the export is the canonical
file of the groups and the second import returns the very same workspace, so
the recorded group order and the per-group items are reproduced. -/
theorem c2_sp_roundtrip (name : Str) (gs : List StartingPointMenuGroup)
    (h : spWellFormed gs) :
    ∃ W r1 r2,
      importStartingPoints (workspaceCreate name) [mkSpConfig gs] = .ok (W, r1) ∧
      exportStartingPoints W = some (spCanonFile gs) ∧
      importStartingPoints W (spCanonFile gs) = .ok (W, r2) := by
  obtain ⟨hne, hitems, hndn, hix⟩ := h
  have hnd : (spShapeIds gs).Nodup := spShapeIds_nodup hndn
  set W : Workspace :=
    ({ workspaceCreate name with
        shapes := spCanonShapes 1 gs,
        folders := [⟨1, startingPointFolderName⟩],
        nextFolderId := 2 }) with hW
  have h1 : importStartingPoints (workspaceCreate name) [mkSpConfig gs] =
      .ok (W, { shapesCreated := gs.length + 1,
                rowsCreated := (gs.map (fun g => g.menuItems.length)).sum + gs.length,
                folderId := 1 }) := by
    rw [importStartingPoints_closed (workspaceCreate name) gs hne hnd hix]
    rfl
  have hWs : W.shapes = spCanonShapes 1 gs := rfl
  have h2 : exportStartingPoints W = some (spCanonFile gs) :=
    exportStartingPoints_canon hWs ⟨hne, hitems, hndn, hix⟩
  have hne2 : canonGroups gs ≠ [] := by
    rcases hgs : gs with _ | ⟨a, t⟩
    · exact absurd hgs hne
    · intro hcg
      rw [canonGroups, List.map_cons] at hcg
      cases hcg
  have hnd2 : (spShapeIds (canonGroups gs)).Nodup := by
    rw [spShapeIds_canonGroups]
    exact hnd
  have hix2 : ∀ g ∈ canonGroups gs, collapseWs g.menuGroup ≠ str r"index" := by
    intro g hg
    obtain ⟨g0, hg0, rfl⟩ := List.mem_map.1 hg
    exact hix g0 hg0
  have hfilter : W.shapes.filter
      (fun s => !(s.shapeId == startingPointIndexId) &&
                !((spShapeIds (canonGroups gs)).contains s.shapeId)) = [] := by
    apply List.filter_eq_nil_iff.2
    intro a ha
    have ha2 : a ∈ spCanonShapes 1 gs := ha
    rcases List.mem_append.1 ha2 with hm | hm
    · obtain ⟨g, hg, rfl⟩ := List.mem_map.1 hm
      have hmem : (spGroupShape 1 g).shapeId ∈ spShapeIds (canonGroups gs) := by
        rw [spShapeIds_canonGroups]
        exact List.mem_map_of_mem _ hg
      simp
      exact fun hni => hmem
    · rw [List.mem_singleton.1 hm]
      have hb : ((spIndexShape 1 gs).shapeId == startingPointIndexId) = true :=
        beq_self_eq_true _
      simp [hb]
  have h3c : importStartingPoints W [mkSpConfig (canonGroups gs)] =
      .ok ({ W with shapes :=
               (W.shapes.filter
                 (fun s => !(s.shapeId == startingPointIndexId) &&
                           !((spShapeIds (canonGroups gs)).contains s.shapeId)) ++
                spCanonShapes 1 (canonGroups gs)) },
           { shapesCreated := (canonGroups gs).length + 1,
             rowsCreated :=
               ((canonGroups gs).map (fun g => g.menuItems.length)).sum +
                 (canonGroups gs).length,
             folderId := 1 }) := by
    rw [importStartingPoints_closed W (canonGroups gs) hne2 hnd2 hix2]
    rfl
  have hW2 : ({ W with shapes :=
      (W.shapes.filter
        (fun s => !(s.shapeId == startingPointIndexId) &&
                  !((spShapeIds (canonGroups gs)).contains s.shapeId)) ++
       spCanonShapes 1 (canonGroups gs)) } : Workspace) = W := by
    rw [hfilter, List.nil_append, spCanonShapes_canonGroups]
  rw [hW2] at h3c
  exact ⟨W, _, _, h1, h2, by rw [spCanonFile]; exact h3c⟩

/-- Witness: the starting-point round trip at a concrete one-group file. -/
theorem c2_sp_roundtrip_witness :
    spWellFormed c2WitGroups ∧
    exportStartingPoints (spImportWs (importStartingPoints
      (workspaceCreate (str r"w")) [mkSpConfig c2WitGroups])) =
      some (spCanonFile c2WitGroups) := by
  obtain ⟨W, r1, r2, h1, h2, h3⟩ :=
    c2_sp_roundtrip (str r"w") c2WitGroups (by decide)
  refine ⟨by decide, ?_⟩
  rw [h1]
  exact h2

/-- Scanner step on any non-quote character. -/
theorem parseLineAux_other (d c : Char) (rest cur : Str) (iq : Bool)
    (hq : (c == '"') = false) :
    parseLineAux d (c :: rest) iq cur =
      if c == d && !iq then jstrim cur :: parseLineAux d rest false []
      else parseLineAux d rest iq (cur ++ [c]) := by
  have hq2 : ¬ c = '"' := by simpa using hq
  rw [parseLineAux.eq_def]
  split
  · rename_i heq
    exact absurd heq (by simp)
  · rename_i heq
    rw [List.cons.injEq] at heq
    exact absurd heq.1 hq2
  · rename_i heq
    rw [List.cons.injEq] at heq
    exact absurd heq.1 hq2
  · rename_i heq
    rw [List.cons.injEq] at heq
    exact absurd heq.1 hq2
  · rename_i c2 r2 heq k1 k2 k3
    rw [List.cons.injEq] at heq
    obtain ⟨h1, h2⟩ := heq
    subst h1
    subst h2
    rfl

/-- Scanner step on an opening quote. -/
theorem parseLineAux_quote_false (d : Char) (rest cur : Str) :
    parseLineAux d ('"' :: rest) false cur = parseLineAux d rest true cur := by
  rw [parseLineAux.eq_def]
  split
  · rename_i heq
    exact absurd heq (by simp)
  · rename_i heq k
    cases k
  · rename_i heq k
    cases k
  · rename_i heqL heqB
    rw [List.cons.injEq] at heqL
    rw [heqL.2]
  · rename_i r2 rest2 heqL k1 k2 k3
    rw [List.cons.injEq] at heqL
    exact (k3 heqL.1.symm rfl).elim

/-- Scanner step on a closing quote (not doubled). -/
theorem parseLineAux_quote_true (d : Char) (rest cur : Str)
    (h : rest.head? ≠ some '"') :
    parseLineAux d ('"' :: rest) true cur = parseLineAux d rest false cur := by
  rw [parseLineAux.eq_def]
  split
  · rename_i heq
    exact absurd heq (by simp)
  · rename_i heqL heqB
    rw [List.cons.injEq] at heqL
    rw [heqL.2] at h
    simp at h
  · rename_i heqL heqB
    rw [List.cons.injEq] at heqL
    rw [heqL.2]
  · rename_i heq k
    cases k
  · rename_i r2 rest2 heqL k1 k2 k3
    rw [List.cons.injEq] at heqL
    exact (k2 heqL.1.symm rfl).elim

/-- Scanner step on a doubled quote inside quotes. -/
theorem parseLineAux_dquote (d : Char) (rest cur : Str) :
    parseLineAux d ('"' :: '"' :: rest) true cur =
      parseLineAux d rest true (cur ++ ['"']) := rfl

/-- The scanner copies a run of plain characters into the current field. -/
theorem parseLineAux_skip (d : Char) : ∀ (v cur rest : Str),
    (∀ c ∈ v, (c == '"') = false ∧ (c == d) = false) →
    parseLineAux d (v ++ rest) false cur = parseLineAux d rest false (cur ++ v)
  | [], cur, rest, _ => by rw [List.nil_append, List.append_nil]
  | c :: cs, cur, rest, h => by
    have hc := h c (List.mem_cons_self c cs)
    rw [List.cons_append, parseLineAux_other d c (cs ++ rest) cur false hc.1]
    rw [hc.2]
    simp only [Bool.false_and, Bool.not_false, if_false]
    rw [parseLineAux_skip d cs (cur ++ [c]) rest
        (fun x hx => h x (List.mem_cons_of_mem c hx))]
    rw [List.append_assoc]
    rfl

/-- The scanner undoes quote doubling inside a quoted field. -/
theorem parseLineAux_quoted (d : Char) : ∀ (v cur rest : Str),
    rest.head? ≠ some '"' →
    parseLineAux d (dupQuotes v ++ '"' :: rest) true cur =
      parseLineAux d rest false (cur ++ v)
  | [], cur, rest, h => by
    rw [show dupQuotes [] = [] from rfl, List.nil_append, List.append_nil]
    exact parseLineAux_quote_true d rest cur h
  | c :: cs, cur, rest, h => by
    rcases hq : c == '"' with _ | _
    · have hd : dupQuotes (c :: cs) = c :: dupQuotes cs := by
        rw [dupQuotes, replaceChar]
        rw [hq]
        rfl
      rw [hd, List.cons_append, parseLineAux_other d c _ cur true hq]
      simp only [Bool.not_true, Bool.and_false, if_false]
      rw [parseLineAux_quoted d cs (cur ++ [c]) rest h, List.append_assoc]
      rfl
    · have hc : c = '"' := by simpa using hq
      subst hc
      have hd : dupQuotes ('"' :: cs) = '"' :: '"' :: dupQuotes cs := by
        rw [dupQuotes, replaceChar]
        rfl
      rw [hd, List.cons_append, List.cons_append, parseLineAux_dquote]
      rw [parseLineAux_quoted d cs (cur ++ ['"']) rest h, List.append_assoc]
      rfl

/-- The scanner consumes one escaped cell into the current field. -/
theorem parseLineAux_cell (v rest : Str) (hr : rest.head? ≠ some '"') :
    parseLineAux ',' (escapeCSVValue (some v) ',' false ++ rest) false [] =
      parseLineAux ',' rest false v := by
  have hesc : escapeCSVValue (some v) ',' false =
      if v.contains ',' || v.contains '"' || v.contains '\n' then
        '"' :: dupQuotes v ++ ['"']
      else v := rfl
  rw [hesc]
  rcases hc : (v.contains ',' || v.contains '"' || v.contains '\n') with _ | _
  · simp only [hc, Bool.false_eq_true, if_false]
    have h1 : ∀ c ∈ v, (c == '"') = false ∧ (c == ',') = false := by
      intro c hcv
      rw [Bool.or_eq_false_iff, Bool.or_eq_false_iff] at hc
      constructor
      · rcases hb : c == '"' with _ | _
        · rfl
        · have heqc : c = '"' := by simpa using hb
          subst heqc
          have hc2 : List.contains v '"' = true := List.elem_iff.2 hcv
          rw [hc.1.2] at hc2
          exact hc2.symm
      · rcases hb : c == ',' with _ | _
        · rfl
        · have heqc : c = ',' := by simpa using hb
          subst heqc
          have hc2 : List.contains v ',' = true := List.elem_iff.2 hcv
          rw [hc.1.1] at hc2
          exact hc2.symm
    rw [parseLineAux_skip ',' v [] rest h1, List.nil_append]
  · simp only [hc, if_true]
    have hsh : ('"' :: dupQuotes v ++ ['"']) ++ rest =
        '"' :: (dupQuotes v ++ '"' :: rest) := by
      simp
    rw [hsh, parseLineAux_quote_false, parseLineAux_quoted ',' v [] rest hr,
      List.nil_append]

/-- The scanner splits a comma-joined list of escaped cells back into the
trimmed cell values. -/
theorem parseCSVLine_cells : ∀ (vs : List Str), vs ≠ [] →
    parseLineAux ','
      (List.intercalate [','] (vs.map (fun v => escapeCSVValue (some v) ',' false)))
      false [] = vs.map jstrim
  | [], h => absurd rfl h
  | [v], _ => by
    have hI : List.intercalate [',']
        [escapeCSVValue (some v) ',' false] = escapeCSVValue (some v) ',' false := by
      simp [List.intercalate]
    rw [List.map_cons, List.map_nil, hI]
    have hcell := parseLineAux_cell v [] (by simp)
    rw [List.append_nil] at hcell
    rw [hcell]
    rfl
  | v :: v2 :: vs, _ => by
    have hI : List.intercalate [',']
        ((v :: v2 :: vs).map (fun x => escapeCSVValue (some x) ',' false)) =
        escapeCSVValue (some v) ',' false ++
          ',' :: List.intercalate [',']
            ((v2 :: vs).map (fun x => escapeCSVValue (some x) ',' false)) := by
      rw [List.map_cons]
      simp [List.intercalate, List.intersperse]
    rw [hI, parseLineAux_cell v _ (by simp)]
    rw [parseLineAux_other ',' ',' _ v false (by decide)]
    have hcnd : ((',' : Char) == ',' && !false) = true := by decide
    rw [if_pos hcnd]
    rw [parseCSVLine_cells (v2 :: vs) (by simp)]
    rfl

/-- `splitLines` step on an ordinary character. -/
theorem splitLines_other (c : Char) (rest : Str) (hc : ¬ c = '\n')
    (hcr : ¬ (c = '\x0d' ∧ rest.head? = some '\n')) :
    splitLines (c :: rest) =
      match splitLines rest with
      | [] => [[c]]
      | s :: ss => (c :: s) :: ss := by
  rw [splitLines.eq_def]
  split
  · rename_i heq
    exact absurd heq (by simp)
  · rename_i heq
    rw [List.cons.injEq] at heq
    exact absurd ⟨heq.1, by rw [heq.2]; rfl⟩ hcr
  · rename_i heq
    rw [List.cons.injEq] at heq
    exact absurd heq.1 hc
  · rename_i c2 rest2 kcr knl heq
    rw [List.cons.injEq] at heq
    obtain ⟨h1, h2⟩ := heq
    subst h1
    subst h2
    rfl

/-- `splitLines` of a newline-free string is that single line. -/
theorem splitLines_no_nl : ∀ (l : Str), '\n' ∉ l → splitLines l = [l]
  | [], _ => rfl
  | c :: rest, h => by
    have hc : ¬ c = '\n' := fun he => h (he ▸ List.mem_cons_self c rest)
    have hrest : '\n' ∉ rest := fun hm => h (List.mem_cons_of_mem c hm)
    have hcr : ¬ (c = '\x0d' ∧ rest.head? = some '\n') := by
      rintro ⟨_, hh⟩
      cases rest with
      | nil => cases hh
      | cons a t =>
        rw [List.head?_cons, Option.some.injEq] at hh
        exact hrest (hh ▸ List.mem_cons_self a t)
    rw [splitLines_other c rest hc hcr, splitLines_no_nl rest hrest]

/-- `splitLines` undoes joining a clean line in front. -/
theorem splitLines_append : ∀ (l : Str) (rest : Str), '\n' ∉ l →
    l.getLast? ≠ some '\x0d' →
    splitLines (l ++ '\n' :: rest) = l :: splitLines rest
  | [], rest, _, _ => rfl
  | [c], rest, hl, hr => by
    have hc : ¬ c = '\n' := fun he => hl (he ▸ List.mem_cons_self c [])
    have hcr : ¬ (c = '\x0d' ∧ (([] : Str) ++ '\n' :: rest).head? = some '\n') := by
      rintro ⟨h1, _⟩
      exact hr (by rw [h1]; rfl)
    rw [List.cons_append, splitLines_other c _ hc hcr, List.nil_append]
    rfl
  | c :: c2 :: cs, rest, hl, hr => by
    have hc : ¬ c = '\n' := fun he => hl (he ▸ List.mem_cons_self c (c2 :: cs))
    have hl2 : '\n' ∉ c2 :: cs := fun hm => hl (List.mem_cons_of_mem c hm)
    have hr2 : (c2 :: cs).getLast? ≠ some '\x0d' := by
      rw [List.getLast?_cons_cons] at hr
      exact hr
    have hcr : ¬ (c = '\x0d' ∧ ((c2 :: cs) ++ '\n' :: rest).head? = some '\n') := by
      rintro ⟨_, hh⟩
      rw [List.cons_append, List.head?_cons, Option.some.injEq] at hh
      exact hl2 (hh ▸ List.mem_cons_self c2 cs)
    rw [List.cons_append, splitLines_other c _ hc hcr,
      splitLines_append (c2 :: cs) rest hl2 hr2]

/-- `splitLines` undoes the newline join of clean lines. -/
theorem splitLines_inter : ∀ (ls : List Str), ls ≠ [] →
    (∀ l ∈ ls, '\n' ∉ l ∧ l.getLast? ≠ some '\x0d') →
    splitLines (List.intercalate ['\n'] ls) = ls
  | [], h, _ => absurd rfl h
  | [l], _, h => by
    have hI : List.intercalate ['\n'] [l] = l := by simp [List.intercalate]
    rw [hI, splitLines_no_nl l (h l (List.mem_singleton_self l)).1]
  | l :: l2 :: ls, _, h => by
    have hI : List.intercalate ['\n'] (l :: l2 :: ls) =
        l ++ '\n' :: List.intercalate ['\n'] (l2 :: ls) := by
      simp [List.intercalate, List.intersperse]
    have hln := h l (List.mem_cons_self l (l2 :: ls))
    rw [hI, splitLines_append l _ hln.1 hln.2,
      splitLines_inter (l2 :: ls) (by simp)
        (fun x hx => h x (List.mem_cons_of_mem l hx))]

/-- `splitPred` of a match-free string is that single piece. -/
theorem splitPred_no_match (p : Char → Bool) : ∀ (l : Str),
    (∀ c ∈ l, p c = false) → splitPred p l = [l]
  | [], _ => rfl
  | c :: cs, h => by
    have hc := h c (List.mem_cons_self c cs)
    rw [splitPred]
    simp only [hc, Bool.false_eq_true, if_false]
    rw [splitPred_no_match p cs (fun x hx => h x (List.mem_cons_of_mem c hx))]

/-- `splitPred` splits off a match-free first piece. -/
theorem splitPred_break (p : Char → Bool) : ∀ (l rest : Str) (d : Char),
    (∀ c ∈ l, p c = false) → p d = true →
    splitPred p (l ++ d :: rest) = l :: splitPred p rest
  | [], rest, d, _, hd => by
    rw [List.nil_append, splitPred]
    simp only [hd, if_true]
  | c :: cs, rest, d, hl, hd => by
    have hc := hl c (List.mem_cons_self c cs)
    rw [List.cons_append, splitPred]
    simp only [hc, Bool.false_eq_true, if_false]
    rw [splitPred_break p cs rest d (fun x hx => hl x (List.mem_cons_of_mem c hx)) hd]

/-- A string trimming to empty is all whitespace. -/
theorem jstrim_all_ws {l : Str} (h : jstrim l = []) : ∀ c ∈ l, wsChar c = true := by
  intro c hc
  rw [jstrim, List.reverse_eq_nil_iff, List.dropWhile_eq_nil_iff] at h
  have hdrop : ∀ x ∈ l.dropWhile wsChar, wsChar x = true := by
    intro x hx
    exact h x (List.mem_reverse.2 hx)
  have hsplit : l = l.takeWhile wsChar ++ l.dropWhile wsChar :=
    (List.takeWhile_append_dropWhile wsChar l).symm
  rw [hsplit] at hc
  rcases List.mem_append.1 hc with hm | hm
  · exact List.mem_takeWhile_imp hm
  · exact hdrop c hm

/-- A string containing a non-whitespace character does not trim to blank. -/
theorem jstrim_nonblank {l : Str} {c : Char} (hc : c ∈ l) (hw : wsChar c = false) :
    (jstrim l).isEmpty = false := by
  rcases he : jstrim l with _ | _
  · rw [jstrim_all_ws he c hc] at hw
    cases hw
  · rfl

/-- A non-whitespace character is not a newline. -/
theorem ne_nl_of_not_ws {c : Char} (h : wsChar c = false) : ¬ c = '\n' := by
  intro he
  rw [he] at h
  cases h

/-- The pipe conversion keeps a nonempty string nonempty. -/
theorem nlToPipe_ne_nil : ∀ {v : Str}, v ≠ [] → nlToPipe v ≠ []
  | [], h => absurd rfl h
  | c :: cs, _ => by
    rw [nlToPipe, replaceChar]
    rcases hc : c == '\n' with _ | _
    · simp only [hc, Bool.false_eq_true, if_false]
      simp
    · simp only [hc, if_true]
      simp [str]

/-- The pipe conversion keeps a non-newline head character. -/
theorem head?_nlToPipe {v : Str} {c : Char} (h : v.head? = some c)
    (hc : ¬ c = '\n') : (nlToPipe v).head? = some c := by
  cases v with
  | nil => cases h
  | cons a t =>
    rw [List.head?_cons, Option.some.injEq] at h
    rw [← h]
    rw [nlToPipe, replaceChar]
    have hb : (a == '\n') = false := by rw [h]; simpa using hc
    simp only [hb, Bool.false_eq_true, if_false]
    rfl

/-- The pipe conversion keeps a non-newline last character. -/
theorem getLast?_nlToPipe : ∀ {v : Str} {c : Char}, v.getLast? = some c →
    ¬ c = '\n' → (nlToPipe v).getLast? = some c
  | [], c, h, _ => by cases h
  | [a], c, h, hc => by
    have ha : a = c := by simpa using h
    subst ha
    rw [nlToPipe, replaceChar]
    have hb : (a == '\n') = false := by simpa using hc
    simp only [hb, Bool.false_eq_true, if_false]
    rfl
  | a :: b :: t, c, h, hc => by
    rw [List.getLast?_cons_cons] at h
    have htail := getLast?_nlToPipe h hc
    have htne : nlToPipe (b :: t) ≠ [] := nlToPipe_ne_nil (by simp)
    rw [nlToPipe, replaceChar]
    rcases ha : a == '\n' with _ | _
    · simp only [ha, Bool.false_eq_true, if_false]
      rw [show (a :: replaceChar '\n' (str r" | ") (b :: t)) =
            [a] ++ nlToPipe (b :: t) from rfl]
      rw [List.getLast?_append_of_ne_nil [a] htne]
      exact htail
    · simp only [ha, if_true]
      rw [show str r" | " ++ replaceChar '\n' (str r" | ") (b :: t) =
            str r" | " ++ nlToPipe (b :: t) from rfl]
      rw [List.getLast?_append_of_ne_nil (str r" | ") htne]
      exact htail

/-- A list whose whitespace prefix drop is itself has a non-whitespace head. -/
theorem head_not_ws_of_dropWhile {l : Str} (h : l.dropWhile wsChar = l) :
    ∀ c, l.head? = some c → wsChar c = false := by
  intro c hc
  cases l with
  | nil => cases hc
  | cons a t =>
    rw [List.head?_cons, Option.some.injEq] at hc
    rw [← hc]
    rcases hw : wsChar a with _ | _
    · rfl
    · rw [List.dropWhile_cons_of_pos hw] at h
      have hlen := congrArg List.length h
      have hle := (List.dropWhile_sublist (l := t) wsChar).length_le
      simp at hlen
      omega

/-- A list with non-whitespace head survives the whitespace prefix drop. -/
theorem dropWhile_eq_self_of_head {l : Str}
    (h : ∀ c, l.head? = some c → wsChar c = false) : l.dropWhile wsChar = l := by
  cases l with
  | nil => rfl
  | cons a t => exact List.dropWhile_cons_of_neg (by rw [h a rfl]; simp)

/-- Trim stability decomposes into both ends. -/
theorem jstrim_parts {v : Str} (h : jstrim v = v) :
    v.dropWhile wsChar = v ∧ v.reverse.dropWhile wsChar = v.reverse := by
  have hBlen : ((v.dropWhile wsChar).reverse.dropWhile wsChar).length = v.length := by
    have hh := congrArg List.length h
    rw [jstrim] at hh
    simpa using hh
  have hAle := (List.dropWhile_sublist (l := v) wsChar).length_le
  have hBle :=
    (List.dropWhile_sublist (l := (v.dropWhile wsChar).reverse) wsChar).length_le
  rw [List.length_reverse] at hBle
  have hAlen : (v.dropWhile wsChar).length = v.length := by omega
  have h1 : v.dropWhile wsChar = v :=
    (List.dropWhile_sublist (l := v) wsChar).eq_of_length hAlen
  refine ⟨h1, ?_⟩
  rw [h1] at hBlen
  exact (List.dropWhile_sublist (l := v.reverse) wsChar).eq_of_length
    (by rw [hBlen, List.length_reverse])

/-- Recompose trim stability from both ends. -/
theorem jstrim_of_parts {v : Str} (h1 : v.dropWhile wsChar = v)
    (h2 : v.reverse.dropWhile wsChar = v.reverse) : jstrim v = v := by
  rw [jstrim, h1, h2, List.reverse_reverse]

/-- The pipe conversion preserves trim stability. -/
theorem jstrim_nlToPipe {v : Str} (h : jstrim v = v) :
    jstrim (nlToPipe v) = nlToPipe v := by
  cases hv : v with
  | nil => rfl
  | cons a t =>
    rw [← hv]
    obtain ⟨h1, h2⟩ := jstrim_parts h
    have hvne : v ≠ [] := by rw [hv]; simp
    apply jstrim_of_parts
    · apply dropWhile_eq_self_of_head
      intro c hc
      have hha : v.head? = some a := by rw [hv]; rfl
      have hwa : wsChar a = false := head_not_ws_of_dropWhile h1 a hha
      have hhead := head?_nlToPipe hha (ne_nl_of_not_ws hwa)
      rw [hhead, Option.some.injEq] at hc
      rw [← hc]
      exact hwa
    · apply dropWhile_eq_self_of_head
      intro c hc
      rw [List.head?_reverse] at hc
      have hzne : v.getLast? ≠ none := by
        rw [ne_eq, List.getLast?_eq_none_iff]
        exact hvne
      obtain ⟨z, hz⟩ := Option.ne_none_iff_exists'.1 hzne
      have hwz : wsChar z = false := by
        apply head_not_ws_of_dropWhile h2
        rw [List.head?_reverse]
        exact hz
      have hlast := getLast?_nlToPipe hz (ne_nl_of_not_ws hwz)
      rw [hlast, Option.some.injEq] at hc
      rw [← hc]
      exact hwz

/-- Absent cells escape like empty cells. -/
theorem escC_getD (o : Option Str) (d : Char) :
    escapeCSVValue o d false = escapeCSVValue (some (o.getD [])) d false := by
  cases o <;> rfl

/-- Converted cells escape as their pipe-converted value. -/
theorem escC_conv (o : Option Str) (d : Char) :
    escapeCSVValue o d true =
      escapeCSVValue (some ((o.map nlToPipe).getD [])) d false := by
  cases o <;> rfl

/-- The escaped cells of one exported row line. -/
theorem exportRowValues_eq (s : Shape) (isF : Bool) (r : StatementRow) :
    exportRowValues ',' s isF r =
      (rawVals s isF r).map (fun v => escapeCSVValue (some v) ',' false) := by
  rw [exportRowValues, rawVals]
  simp only [List.map_cons, List.map_nil, List.cons.injEq, and_true]
  refine ⟨?_, ?_, ?_, ?_, ?_, ?_, ?_, ?_, ?_, ?_, ?_, ?_, ?_, ?_, ?_, ?_, ?_⟩
  · cases isF <;> rfl
  · cases isF
    · rfl
    · exact escC_getD s.shapeLabel ','
  · cases isF
    · rfl
    · exact escC_getD s.resourceURI ','
  · exact escC_getD _ _
  · exact escC_getD _ _
  · exact escC_getD _ _
  · exact escC_getD _ _
  · exact escC_getD _ _
  · exact escC_getD _ _
  · exact escC_conv _ _
  · exact escC_conv _ _
  · exact escC_getD _ _
  · exact escC_getD _ _
  · exact escC_getD _ _
  · exact escC_getD _ _
  · exact escC_getD _ _
  · exact escC_getD _ _

/-- Parsing one exported data line recovers the trimmed raw cells. -/
theorem parse_line_export (s : Shape) (isF : Bool) (r : StatementRow) :
    parseCSVLine (lineOfRow s isF r) ',' = (rawVals s isF r).map jstrim := by
  rw [lineOfRow, exportRowValues_eq, parseCSVLine]
  exact parseCSVLine_cells (rawVals s isF r) (by rw [rawVals]; simp)

/-- The column positions of the exported header, one per key. -/
theorem csvM_lookups :
    lookupCol csvM .shapeID = some 0 ∧ lookupCol csvM .shapeLabel = some 1 ∧
    lookupCol csvM .resourceURI = some 2 ∧ lookupCol csvM .propertyId = some 3 ∧
    lookupCol csvM .propertyLabel = some 4 ∧ lookupCol csvM .mandatory = some 5 ∧
    lookupCol csvM .repeatable = some 6 ∧ lookupCol csvM .valueNodeType = some 7 ∧
    lookupCol csvM .valueDataType = some 8 ∧ lookupCol csvM .valueShape = some 9 ∧
    lookupCol csvM .valueConstraint = some 10 ∧
    lookupCol csvM .valueConstraintType = some 11 ∧ lookupCol csvM .note = some 12 ∧
    lookupCol csvM .lcDefaultLiteral = some 13 ∧
    lookupCol csvM .lcDefaultURI = some 14 ∧
    lookupCol csvM .lcDataTypeURI = some 15 ∧ lookupCol csvM .lcRemark = some 16 := by
  decide

/-- Reading back a clean single-value cell. -/
theorem orNull_jstrim_clean {o : Option Str} (h : cleanOptNoNl o) :
    orNull (jstrim (o.getD [])) = o := by
  cases o with
  | none => rfl
  | some v =>
    obtain ⟨ht, _, hne⟩ := h v rfl
    rw [Option.getD_some, ht, orNull]
    have hie : v.isEmpty = false := by
      cases hx : v
      · exact absurd hx hne
      · rfl
    simp [hie]

/-- Reading back a clean multi-value cell after pipe conversion. -/
theorem orNull_jstrim_multi {o : Option Str} (h : cleanOptMulti o) :
    orNull (jstrim ((o.map nlToPipe).getD [])) = o.map nlToPipe := by
  cases o with
  | none => rfl
  | some v =>
    obtain ⟨ht, hne⟩ := h v rfl
    show orNull (jstrim ((some (nlToPipe v)).getD [])) = some (nlToPipe v)
    rw [Option.getD_some, jstrim_nlToPipe ht, orNull]
    have hnn : nlToPipe v ≠ [] := nlToPipe_ne_nil hne
    have hie : (nlToPipe v).isEmpty = false := by
      cases hx : nlToPipe v
      · exact absurd hx hnn
      · rfl
    simp [hie]

/-- The recovered request has data exactly when the stored row has data. -/
theorem hasDataB_reqOfRow (r : StatementRow) :
    hasDataB (reqOfRow r) = rowHasDataB r := by
  rw [hasDataB, rowHasDataB, reqOfRow]
  simp [Option.isSome_map]

/-- Reading the statement columns off an exported data line. -/
theorem lineData_export (s : Shape) (isF : Bool) (r : StatementRow)
    (hr : cleanRow r) :
    lineData csvM ((rawVals s isF r).map jstrim) = reqOfRow r := by
  obtain ⟨hhas, h1, h2, h3, h4, h5, h6, h7, h8, h9, h10, h11, h12, h13, h14⟩ := hr
  obtain ⟨hk0, hk1, hk2, hk3, hk4, hk5, hk6, hk7, hk8, hk9, hk10, hk11, hk12,
    hk13, hk14, hk15, hk16⟩ := csvM_lookups
  rw [lineData, reqOfRow]
  simp only [CreateRowRequest.mk.injEq]
  refine ⟨trivial, ?_, ?_, ?_, ?_, ?_, ?_, ?_, ?_, ?_, ?_, ?_, ?_, ?_, ?_⟩
  · rw [hk3, cellOpt,
      show ((rawVals s isF r).map jstrim).getD 3 [] = jstrim (r.propertyId.getD [])
        from by rw [rawVals]; cases isF <;> rfl]
    exact orNull_jstrim_clean h1
  · rw [hk4, cellOpt,
      show ((rawVals s isF r).map jstrim).getD 4 [] = jstrim (r.propertyLabel.getD [])
        from by rw [rawVals]; cases isF <;> rfl]
    exact orNull_jstrim_clean h2
  · rw [hk5, cellOpt,
      show ((rawVals s isF r).map jstrim).getD 5 [] = jstrim (r.mandatory.getD [])
        from by rw [rawVals]; cases isF <;> rfl]
    exact orNull_jstrim_clean h3
  · rw [hk6, cellOpt,
      show ((rawVals s isF r).map jstrim).getD 6 [] = jstrim (r.repeatable.getD [])
        from by rw [rawVals]; cases isF <;> rfl]
    exact orNull_jstrim_clean h4
  · rw [hk7, cellOpt,
      show ((rawVals s isF r).map jstrim).getD 7 [] = jstrim (r.valueNodeType.getD [])
        from by rw [rawVals]; cases isF <;> rfl]
    exact orNull_jstrim_clean h5
  · rw [hk8, cellOpt,
      show ((rawVals s isF r).map jstrim).getD 8 [] = jstrim (r.valueDataType.getD [])
        from by rw [rawVals]; cases isF <;> rfl]
    exact orNull_jstrim_clean h6
  · rw [hk9, cellOpt,
      show ((rawVals s isF r).map jstrim).getD 9 [] =
          jstrim ((r.valueShape.map nlToPipe).getD [])
        from by rw [rawVals]; cases isF <;> rfl]
    exact orNull_jstrim_multi h7
  · rw [hk10, cellOpt,
      show ((rawVals s isF r).map jstrim).getD 10 [] =
          jstrim ((r.valueConstraint.map nlToPipe).getD [])
        from by rw [rawVals]; cases isF <;> rfl]
    exact orNull_jstrim_multi h8
  · rw [hk11, cellOpt,
      show ((rawVals s isF r).map jstrim).getD 11 [] =
          jstrim (r.valueConstraintType.getD [])
        from by rw [rawVals]; cases isF <;> rfl]
    exact orNull_jstrim_clean h9
  · rw [hk12, cellOpt,
      show ((rawVals s isF r).map jstrim).getD 12 [] = jstrim (r.note.getD [])
        from by rw [rawVals]; cases isF <;> rfl]
    exact orNull_jstrim_clean h10
  · rw [hk13, cellOpt,
      show ((rawVals s isF r).map jstrim).getD 13 [] =
          jstrim (r.lcDefaultLiteral.getD [])
        from by rw [rawVals]; cases isF <;> rfl]
    exact orNull_jstrim_clean h11
  · rw [hk14, cellOpt,
      show ((rawVals s isF r).map jstrim).getD 14 [] = jstrim (r.lcDefaultURI.getD [])
        from by rw [rawVals]; cases isF <;> rfl]
    exact orNull_jstrim_clean h12
  · rw [hk15, cellOpt,
      show ((rawVals s isF r).map jstrim).getD 15 [] = jstrim (r.lcDataTypeURI.getD [])
        from by rw [rawVals]; cases isF <;> rfl]
    exact orNull_jstrim_clean h13
  · rw [hk16, cellOpt,
      show ((rawVals s isF r).map jstrim).getD 16 [] = jstrim (r.lcRemark.getD [])
        from by rw [rawVals]; cases isF <;> rfl]
    exact orNull_jstrim_clean h14

/-- Processing the first line of a shape block: set the context and push the
row. -/
theorem processLine_first (st : CsvLoop) (s : Shape) (r : StatementRow) (n : Nat)
    (hs : cleanCell s.shapeId) (hr : cleanRow r) :
    processLine csvM ',' st (lineOfRow s true r) n =
      { st with curShapeID := some s.shapeId,
                curShapeLabel := shapeCtxL s,
                curResourceURI := shapeCtxU s,
                rows := st.rows ++ [parsedOfRow s r] } := by
  obtain ⟨hk0, hk1, hk2, _⟩ := csvM_lookups
  have hsid : cellOpt ((rawVals s true r).map jstrim) (lookupCol csvM .shapeID) =
      some s.shapeId := by
    rw [hk0, cellOpt,
      show ((rawVals s true r).map jstrim).getD 0 [] = jstrim s.shapeId
        from by rw [rawVals]; rfl]
    obtain ⟨ht, _, hne⟩ := hs
    rw [ht, orNull]
    have hie : s.shapeId.isEmpty = false := by
      cases hx : s.shapeId
      · exact absurd hx hne
      · rfl
    simp [hie]
  have hlab : cellOpt ((rawVals s true r).map jstrim) (lookupCol csvM .shapeLabel) =
      shapeCtxL s := by
    rw [hk1, cellOpt,
      show ((rawVals s true r).map jstrim).getD 1 [] = jstrim (s.shapeLabel.getD [])
        from by rw [rawVals]; rfl]
    rfl
  have huri : cellOpt ((rawVals s true r).map jstrim) (lookupCol csvM .resourceURI) =
      shapeCtxU s := by
    rw [hk2, cellOpt,
      show ((rawVals s true r).map jstrim).getD 2 [] = jstrim (s.resourceURI.getD [])
        from by rw [rawVals]; rfl]
    rfl
  have hdata : lineData csvM ((rawVals s true r).map jstrim) = reqOfRow r :=
    lineData_export s true r hr
  have hdb : hasDataB (reqOfRow r) = true := by
    rw [hasDataB_reqOfRow]
    exact hr.1
  simp only [processLine]
  rw [parse_line_export, hsid, hlab, huri, hdata]
  simp [hdb, parsedOfRow]

/-- Processing a continuation line of a shape block: keep the context and push
the row. -/
theorem processLine_rest (st : CsvLoop) (s : Shape) (r : StatementRow) (n : Nat)
    {sid0 : Str} (hsid0 : st.curShapeID = some sid0) (hr : cleanRow r) :
    processLine csvM ',' st (lineOfRow s false r) n =
      { st with rows := st.rows ++
          [{ shapeID := st.curShapeID, shapeLabel := st.curShapeLabel,
             resourceURI := st.curResourceURI, data := reqOfRow r }] } := by
  obtain ⟨hk0, hk1, hk2, _⟩ := csvM_lookups
  have hsid : cellOpt ((rawVals s false r).map jstrim) (lookupCol csvM .shapeID) =
      none := by
    rw [hk0]
    rfl
  have hlab : cellOpt ((rawVals s false r).map jstrim) (lookupCol csvM .shapeLabel) =
      none := by
    rw [hk1]
    rfl
  have huri : cellOpt ((rawVals s false r).map jstrim) (lookupCol csvM .resourceURI) =
      none := by
    rw [hk2]
    rfl
  have hdata : lineData csvM ((rawVals s false r).map jstrim) = reqOfRow r :=
    lineData_export s false r hr
  have hdb : hasDataB (reqOfRow r) = true := by
    rw [hasDataB_reqOfRow]
    exact hr.1
  simp only [processLine]
  rw [parse_line_export, hsid, hlab, huri, hdata]
  rcases hcl : st.curShapeLabel with _ | x <;>
    simp [hdb, hsid0, hcl]

/-- `processLines` splits over an append of line lists. -/
theorem processLines_append (m : List (ColKey × Nat)) (d : Char) :
    ∀ (A B : List Str) (i : Nat) (st : CsvLoop),
      processLines m d (A ++ B) i st =
        processLines m d B (i + A.length) (processLines m d A i st)
  | [], B, i, st => by simp [processLines]
  | l :: ls, B, i, st => by
    rw [List.cons_append, processLines, processLines,
      processLines_append m d ls B (i + 1) _]
    have hlen : i + 1 + ls.length = i + (l :: ls).length := by
      simp
      omega
    rw [hlen]

/-- Processing the continuation lines of a shape block. -/
theorem processLines_blockRest (s : Shape) :
    ∀ (rs : List StatementRow) (st : CsvLoop) (i : Nat),
      (∀ x ∈ rs, cleanRow x) → ∀ {sid0 : Str}, st.curShapeID = some sid0 →
      processLines csvM ',' (rs.map (lineOfRow s false)) i st =
        { st with rows := st.rows ++ rs.map (fun r =>
            { shapeID := st.curShapeID, shapeLabel := st.curShapeLabel,
              resourceURI := st.curResourceURI, data := reqOfRow r }) }
  | [], st, i, _, sid0, hsid => by simp [processLines]
  | r :: rs, st, i, hall, sid0, hsid => by
    rw [List.map_cons, processLines,
      processLine_rest st s r (i + 1) hsid (hall r (List.mem_cons_self r rs))]
    rw [processLines_blockRest s rs
        ({ st with rows := st.rows ++
            [{ shapeID := st.curShapeID, shapeLabel := st.curShapeLabel,
               resourceURI := st.curResourceURI, data := reqOfRow r }] }) (i + 1)
        (fun x hx => hall x (List.mem_cons_of_mem r hx)) hsid]
    simp [List.append_assoc]

/-- Processing one full shape block. -/
theorem processLines_shape (s : Shape) (hs : cleanCell s.shapeId)
    (r0 : StatementRow) (rs : List StatementRow) (st : CsvLoop) (i : Nat)
    (hall : ∀ x ∈ r0 :: rs, cleanRow x) :
    processLines csvM ',' (lineOfRow s true r0 :: rs.map (lineOfRow s false)) i st =
      { st with curShapeID := some s.shapeId, curShapeLabel := shapeCtxL s,
                curResourceURI := shapeCtxU s,
                rows := st.rows ++ (r0 :: rs).map (parsedOfRow s) } := by
  rw [processLines,
    processLine_first st s r0 (i + 1) hs (hall r0 (List.mem_cons_self r0 rs))]
  rw [processLines_blockRest s rs
      ({ st with
          curShapeID := some s.shapeId,
          curShapeLabel := shapeCtxL s,
          curResourceURI := shapeCtxU s,
          rows := st.rows ++ [parsedOfRow s r0] })
      (i + 1) (fun x hx => hall x (List.mem_cons_of_mem r0 hx)) rfl]
  simp [parsedOfRow, List.append_assoc]

/-- Continuation rows export to continuation lines. -/
theorem exportRowsLines_false (s : Shape) : ∀ (rs : List StatementRow),
    exportRowsLines ',' s false rs = rs.map (lineOfRow s false)
  | [] => rfl
  | r :: rs => by
    rw [exportRowsLines, exportRowsLines_false s rs, List.map_cons, lineOfRow]

/-- The lines of a nonempty shape block. -/
theorem exportShapeLines_cons (s : Shape) (r0 : StatementRow)
    (rs : List StatementRow) :
    exportShapeLines ',' s (r0 :: rs) =
      lineOfRow s true r0 :: rs.map (lineOfRow s false) := by
  rw [exportShapeLines, exportRowsLines, exportRowsLines_false]
  simp [lineOfRow]

/-- With distinct shape ids, `shapeGet` finds the member shape. -/
theorem shapeGet_clean {w : Workspace} (hnd : (shapeIds w).Nodup) {s : Shape}
    (hs : s ∈ w.shapes) : shapeGet w s.shapeId = some s := by
  rw [shapeGet]
  apply find?_unique (p := fun x => x.shapeId == s.shapeId) hs (beq_self_eq_true _)
  intro y hy hpy
  exact List.inj_on_of_nodup_map hnd hy hs (eq_of_beq hpy)

/-- Processing all export lines of a clean shape list. -/
theorem processLines_flat (w : Workspace) (hnd : (shapeIds w).Nodup) :
    ∀ (shapes : List Shape) (st : CsvLoop) (i : Nat),
      (∀ s ∈ shapes, s ∈ w.shapes ∧ cleanShape s) →
      ∃ c1 c2 c3,
      processLines csvM ','
        (shapes.flatMap (fun s => exportShapeLines ',' s (rowsList w s.shapeId)))
        i st =
        { curShapeID := c1, curShapeLabel := c2, curResourceURI := c3,
          rows := st.rows ++
            shapes.flatMap (fun s => (rowsList w s.shapeId).map (parsedOfRow s)),
          warnings := st.warnings, errors := st.errors }
  | [], st, i, _ => ⟨st.curShapeID, st.curShapeLabel, st.curResourceURI, by
      simp [processLines]⟩
  | s :: rest, st, i, h => by
    obtain ⟨hsw, hcs⟩ := h s (List.mem_cons_self s rest)
    obtain ⟨hrne, hcid, hlbl, huri2, hsp, hrows⟩ := hcs
    have hperm := List.perm_insertionSort (fun a b => a.rowOrder ≤ b.rowOrder) s.rows
    have hlist : rowsList w s.shapeId =
        List.insertionSort (fun a b => a.rowOrder ≤ b.rowOrder) s.rows := by
      rw [rowsList, shapeGet_clean hnd hsw]
    have hmemr : ∀ r ∈ rowsList w s.shapeId, cleanRow r := by
      intro r hr
      rw [hlist] at hr
      exact (hrows r (hperm.mem_iff.1 hr)).1
    rcases hR : rowsList w s.shapeId with _ | ⟨r0, rs⟩
    · rw [hlist] at hR
      have hlen := hperm.length_eq
      rw [hR] at hlen
      have hnil : s.rows = [] := by
        cases hsr : s.rows with
        | nil => rfl
        | cons a t => rw [hsr] at hlen; cases hlen
      exact absurd hnil hrne
    · rw [List.flatMap_cons, hR, exportShapeLines_cons,
        processLines_append csvM ',']
      have hclean0 : ∀ x ∈ r0 :: rs, cleanRow x := by
        intro x hx
        apply hmemr
        rw [hR]
        exact hx
      rw [processLines_shape s hcid r0 rs st i hclean0]
      obtain ⟨c1, c2, c3, hrec⟩ := processLines_flat w hnd rest
        ({ st with
            curShapeID := some s.shapeId,
            curShapeLabel := shapeCtxL s,
            curResourceURI := shapeCtxU s,
            rows := st.rows ++ (r0 :: rs).map (parsedOfRow s) })
        (i + (lineOfRow s true r0 :: rs.map (lineOfRow s false)).length)
        (fun x hx => h x (List.mem_cons_of_mem s hx))
      refine ⟨c1, c2, c3, ?_⟩
      rw [hrec]
      simp [hR, List.append_assoc]

/-- Quote doubling adds no new characters. -/
theorem mem_dupQuotes : ∀ {v : Str} {c : Char}, c ∈ dupQuotes v → c ∈ v
  | [], c, h => by cases h
  | d :: t, c, h => by
    rw [dupQuotes, replaceChar] at h
    rcases hd : d == '"' with _ | _
    · rw [hd] at h
      simp only [Bool.false_eq_true, if_false, List.mem_cons] at h
      rcases h with h | h
      · rw [h]; exact List.mem_cons_self d t
      · exact List.mem_cons_of_mem d (mem_dupQuotes h)
    · rw [hd] at h
      simp only [if_true] at h
      rcases List.mem_append.1 h with h | h
      · have hdq : d = '"' := by simpa using hd
        have hc : c = '"' := by
          rw [show str "\x22\x22" = ['"', '"'] from rfl] at h
          simpa using h
        rw [hc, ← hdq]
        exact List.mem_cons_self d t
      · exact List.mem_cons_of_mem d (mem_dupQuotes h)

/-- An escaped cell only contains value characters and quotes. -/
theorem mem_escC {c : Char} {v : Str}
    (h : c ∈ escapeCSVValue (some v) ',' false) : c ∈ v ∨ c = '"' := by
  have hesc : escapeCSVValue (some v) ',' false =
      if v.contains ',' || v.contains '"' || v.contains '\n' then
        '"' :: dupQuotes v ++ ['"']
      else v := rfl
  rw [hesc] at h
  rcases hcond : (v.contains ',' || v.contains '"' || v.contains '\n') with _ | _
  · rw [hcond] at h
    simp only [Bool.false_eq_true, if_false] at h
    exact Or.inl h
  · rw [hcond] at h
    rw [if_pos rfl] at h
    rcases List.mem_cons.1 h with h | h
    · exact Or.inr h
    · rcases List.mem_append.1 h with h | h
      · exact Or.inl (mem_dupQuotes h)
      · have hcq : c = '"' := by simpa using h
        exact Or.inr hcq

/-- The pipe conversion removes every newline. -/
theorem nlToPipe_no_nl : ∀ (v : Str), '\n' ∉ nlToPipe v
  | [] => by simp [nlToPipe, replaceChar]
  | c :: t => by
    rw [nlToPipe, replaceChar]
    rcases hc : c == '\n' with _ | _
    · simp only [Bool.false_eq_true, if_false, List.mem_cons]
      rintro (h | h)
      · rw [h] at hc
        simp at hc
      · exact nlToPipe_no_nl t h
    · simp only [if_true]
      intro h
      rcases List.mem_append.1 h with h | h
      · rw [show str r" | " = [' ', '|', ' '] from rfl] at h
        simp at h
      · exact nlToPipe_no_nl t h

/-- All raw cell values of a clean row line are newline-free. -/
theorem rawVals_no_nl (s : Shape) (isF : Bool) (r : StatementRow)
    (hcs : cleanShape s) (hr : cleanRow r) :
    ∀ v ∈ rawVals s isF r, '\n' ∉ v := by
  obtain ⟨_, ⟨_, hnid, _⟩, hlbl, huri, _, _⟩ := hcs
  obtain ⟨_, h1, h2, h3, h4, h5, h6, h7, h8, h9, h10, h11, h12, h13, h14⟩ := hr
  have hno : ∀ (o : Option Str), cleanOptNoNl o → '\n' ∉ o.getD [] := by
    intro o ho
    cases o with
    | none => simp
    | some v => exact (ho v rfl).2.1
  have hnn : ∀ (o : Option Str), noNlOpt o → '\n' ∉ o.getD [] := by
    intro o ho
    cases o with
    | none => simp
    | some v => exact ho v rfl
  have hmv : ∀ (o : Option Str), '\n' ∉ (o.map nlToPipe).getD [] := by
    intro o
    cases o with
    | none => simp
    | some v => exact nlToPipe_no_nl v
  intro v hv
  simp only [rawVals, List.mem_cons, List.not_mem_nil, or_false] at hv
  rcases hv with rfl | rfl | rfl | rfl | rfl | rfl | rfl | rfl | rfl | rfl | rfl |
    rfl | rfl | rfl | rfl | rfl | rfl
  · cases isF
    · simp
    · exact hnid
  · cases isF
    · simp
    · exact hnn s.shapeLabel hlbl
  · cases isF
    · simp
    · exact hnn s.resourceURI huri
  · exact hno _ h1
  · exact hno _ h2
  · exact hno _ h3
  · exact hno _ h4
  · exact hno _ h5
  · exact hno _ h6
  · exact hmv _
  · exact hmv _
  · exact hno _ h9
  · exact hno _ h10
  · exact hno _ h11
  · exact hno _ h12
  · exact hno _ h13
  · exact hno _ h14

/-- Characters of a comma join come from the pieces or are commas. -/
theorem mem_intercalate : ∀ (cells : List Str) {c : Char},
    c ∈ List.intercalate [','] cells → c = ',' ∨ ∃ v ∈ cells, c ∈ v
  | [], c, h => by simp [List.intercalate] at h
  | [v], c, h => by
    rw [show List.intercalate [','] [v] = v from by simp [List.intercalate]] at h
    exact Or.inr ⟨v, List.mem_singleton_self v, h⟩
  | v :: v2 :: vs, c, h => by
    rw [show List.intercalate [','] (v :: v2 :: vs) =
        v ++ [','] ++ List.intercalate [','] (v2 :: vs)
      from by simp [List.intercalate, List.intersperse]] at h
    rcases List.mem_append.1 h with h | h
    · rcases List.mem_append.1 h with h | h
      · exact Or.inr ⟨v, List.mem_cons_self v (v2 :: vs), h⟩
      · simp only [List.mem_singleton] at h
        exact Or.inl h
    · rcases mem_intercalate (v2 :: vs) h with h | ⟨x, hx, hcx⟩
      · exact Or.inl h
      · exact Or.inr ⟨x, List.mem_cons_of_mem v hx, hcx⟩

/-- An exported data line of a clean row contains no newline. -/
theorem lineOfRow_no_nl (s : Shape) (isF : Bool) (r : StatementRow)
    (hcs : cleanShape s) (hr : cleanRow r) : '\n' ∉ lineOfRow s isF r := by
  intro h
  rw [lineOfRow, exportRowValues_eq] at h
  rcases mem_intercalate _ h with h | ⟨x, hx, hcx⟩
  · cases h
  · obtain ⟨v, hv, rfl⟩ := List.mem_map.1 hx
    rcases mem_escC hcx with h | h
    · exact rawVals_no_nl s isF r hcs hr v hv h
    · cases h

/-- The last character of a trim-stable string is not whitespace. -/
theorem getLast_not_ws {v : Str} (h : jstrim v = v) :
    ∀ ch, v.getLast? = some ch → wsChar ch = false := by
  intro ch hch
  apply head_not_ws_of_dropWhile (jstrim_parts h).2
  rw [List.head?_reverse]
  exact hch

/-- The last character of an escaped trim-stable cell is non-whitespace or a
quote. -/
theorem escC_last {v : Str} (ht : jstrim v = v) :
    ∀ ch, (escapeCSVValue (some v) ',' false).getLast? = some ch →
      wsChar ch = false ∨ ch = '"' := by
  intro ch hch
  have hesc : escapeCSVValue (some v) ',' false =
      if v.contains ',' || v.contains '"' || v.contains '\n' then
        '"' :: dupQuotes v ++ ['"']
      else v := rfl
  rw [hesc] at hch
  rcases hcond : (v.contains ',' || v.contains '"' || v.contains '\n') with _ | _
  · rw [hcond] at hch
    simp only [Bool.false_eq_true, if_false] at hch
    exact Or.inl (getLast_not_ws ht ch hch)
  · rw [hcond, if_pos rfl] at hch
    rw [show ('"' :: dupQuotes v ++ ['"']) = ('"' :: dupQuotes v) ++ ['"'] from rfl,
      List.getLast?_append_of_ne_nil ('"' :: dupQuotes v) (by simp)] at hch
    right
    simpa using hch.symm

/-- The last character of a comma join is a comma or from the last cell. -/
theorem getLast?_intercalate : ∀ (cells : List Str) (b : Str) {ch : Char},
    (List.intercalate [','] (cells ++ [b])).getLast? = some ch →
    ch = ',' ∨ b.getLast? = some ch
  | [], b, ch, h => by
    rw [List.nil_append,
      show List.intercalate [','] [b] = b from by simp [List.intercalate]] at h
    exact Or.inr h
  | c :: cells, b, ch, h => by
    rw [List.cons_append,
      show List.intercalate [','] (c :: (cells ++ [b])) =
          c ++ [','] ++ List.intercalate [','] (cells ++ [b])
        from by
          rcases cells with _ | ⟨c2, cs⟩
          · simp [List.intercalate, List.intersperse]
          · simp [List.intercalate, List.intersperse]] at h
    rw [List.append_assoc] at h
    rcases hI : List.intercalate [','] (cells ++ [b]) with _ | ⟨a, t⟩
    · rw [hI] at h
      rw [List.getLast?_append_of_ne_nil c (by simp)] at h
      have hcomma : ch = ',' := by simpa using h.symm
      exact Or.inl hcomma
    · rw [hI] at h
      rw [List.getLast?_append_of_ne_nil c (by simp),
        List.getLast?_append_of_ne_nil [','] (by simp)] at h
      rw [← hI] at h
      exact getLast?_intercalate cells b h

/-- An exported data line of a clean row does not end in a carriage return. -/
theorem lineOfRow_last (s : Shape) (isF : Bool) (r : StatementRow)
    (hr : cleanRow r) : (lineOfRow s isF r).getLast? ≠ some '\x0d' := by
  intro h
  rw [lineOfRow, exportRowValues_eq] at h
  have hsplit : rawVals s isF r =
      [if isF then s.shapeId else [],
       if isF then s.shapeLabel.getD [] else [],
       if isF then s.resourceURI.getD [] else [],
       r.propertyId.getD [], r.propertyLabel.getD [], r.mandatory.getD [],
       r.repeatable.getD [], r.valueNodeType.getD [], r.valueDataType.getD [],
       (r.valueShape.map nlToPipe).getD [], (r.valueConstraint.map nlToPipe).getD [],
       r.valueConstraintType.getD [], r.note.getD [], r.lcDefaultLiteral.getD [],
       r.lcDefaultURI.getD [], r.lcDataTypeURI.getD []] ++ [r.lcRemark.getD []] := by
    rw [rawVals]
    rfl
  rw [hsplit, List.map_append, List.map_cons] at h
  rcases getLast?_intercalate _ _ h with hc | hc
  · cases hc
  · have htrim : jstrim (r.lcRemark.getD []) = r.lcRemark.getD [] := by
      rcases ho : r.lcRemark with _ | v
      · rfl
      · exact (hr.2.2.2.2.2.2.2.2.2.2.2.2.2.2 v ho).1
    rcases escC_last htrim _ hc with hw | hq
    · rw [show wsChar '\x0d' = true from rfl] at hw
      cases hw
    · cases hq

/-- An exported data line does not trim to blank. -/
theorem lineOfRow_nonblank (s : Shape) (isF : Bool) (r : StatementRow) :
    (jstrim (lineOfRow s isF r)).isEmpty = false := by
  apply jstrim_nonblank (c := ',')
  · rw [lineOfRow, exportRowValues_eq]
    rw [show (rawVals s isF r).map (fun v => escapeCSVValue (some v) ',' false) =
        escapeCSVValue (some (if isF then s.shapeId else [])) ',' false ::
        escapeCSVValue (some (if isF then s.shapeLabel.getD [] else [])) ',' false ::
        ((rawVals s isF r).drop 2).map (fun v => escapeCSVValue (some v) ',' false)
      from by rw [rawVals]; rfl]
    rw [show List.intercalate [',']
          (escapeCSVValue (some (if isF then s.shapeId else [])) ',' false ::
           escapeCSVValue (some (if isF then s.shapeLabel.getD [] else [])) ',' false ::
           ((rawVals s isF r).drop 2).map (fun v => escapeCSVValue (some v) ',' false)) =
        escapeCSVValue (some (if isF then s.shapeId else [])) ',' false ++ [','] ++
          List.intercalate [',']
            (escapeCSVValue (some (if isF then s.shapeLabel.getD [] else [])) ',' false ::
             ((rawVals s isF r).drop 2).map (fun v => escapeCSVValue (some v) ',' false))
      from by simp [List.intercalate, List.intersperse]]
    rw [List.append_assoc]
    exact List.mem_append_right _ (List.mem_append_left _ (List.mem_singleton_self ','))
  · rfl

/-- The export joined as header plus per-shape blocks. -/
theorem exportWorkspace_eq (w : Workspace) :
    exportWorkspace w false =
      List.intercalate ['\n']
        (List.intercalate [','] csvHeaders ::
         (shapesList w).flatMap
           (fun s => exportShapeLines ',' s (rowsList w s.shapeId))) := rfl

set_option maxRecDepth 8192 in
/-- The exported delimiter is detected back as a comma. -/
theorem detectDelimiter_export (w : Workspace) :
    detectDelimiter (exportWorkspace w false) = ',' := by
  have hH : ∀ c ∈ List.intercalate [','] csvHeaders, ((c == '\n') : Bool) = false := by
    decide
  have hfirst : (splitPred (fun c => c == '\n') (exportWorkspace w false)).headD [] =
      List.intercalate [','] csvHeaders := by
    rw [exportWorkspace_eq]
    rcases hbl : (shapesList w).flatMap
        (fun s => exportShapeLines ',' s (rowsList w s.shapeId)) with _ | ⟨l0, ls⟩
    · rw [show List.intercalate ['\n']
            [List.intercalate [','] csvHeaders] = List.intercalate [','] csvHeaders
          from by simp [List.intercalate]]
      rw [splitPred_no_match _ _ hH]
      rfl
    · rw [show List.intercalate ['\n']
            (List.intercalate [','] csvHeaders :: l0 :: ls) =
            List.intercalate [','] csvHeaders ++
              '\n' :: List.intercalate ['\n'] (l0 :: ls)
          from by simp [List.intercalate, List.intersperse]]
      rw [splitPred_break _ _ _ '\n' hH rfl]
      rfl
  simp only [detectDelimiter, hfirst]
  decide

/-- The listed rows of a clean member shape are nonempty and clean. -/
theorem rowsList_clean_shape {w : Workspace} (hnd : (shapeIds w).Nodup) {s : Shape}
    (hs : s ∈ w.shapes) (hcs : cleanShape s) :
    rowsList w s.shapeId ≠ [] ∧ ∀ x ∈ rowsList w s.shapeId, cleanRow x := by
  obtain ⟨hrne, _, _, _, _, hrows⟩ := hcs
  have hperm := List.perm_insertionSort (fun a b => a.rowOrder ≤ b.rowOrder) s.rows
  have hlist : rowsList w s.shapeId =
      List.insertionSort (fun a b => a.rowOrder ≤ b.rowOrder) s.rows := by
    rw [rowsList, shapeGet_clean hnd hs]
  constructor
  · rw [hlist]
    intro hR
    have hlen := hperm.length_eq
    rw [hR] at hlen
    have hnil : s.rows = [] := by
      cases hsr : s.rows with
      | nil => rfl
      | cons a t => rw [hsr] at hlen; cases hlen
    exact absurd hnil hrne
  · intro x hx
    rw [hlist] at hx
    exact (hrows x (hperm.mem_iff.1 hx)).1

set_option maxRecDepth 8192 in
/-- Parsing the export of a clean workspace yields exactly its rows, with no
errors and no warnings. -/
theorem parseCSV_export (w : Workspace) (hw : csvCleanWorkspace w) :
    parseCSV (exportWorkspace w false) =
      { success := true, rows := some (parsedRowsOf w), errors := [],
        warnings := [] } := by
  obtain ⟨hnd, hcs⟩ := hw
  have hblock : ∀ l ∈ (shapesList w).flatMap
      (fun s => exportShapeLines ',' s (rowsList w s.shapeId)),
      ∃ s isF r, s ∈ w.shapes ∧ cleanShape s ∧ cleanRow r ∧
        l = lineOfRow s isF r := by
    intro l hl
    obtain ⟨s, hs, hls⟩ := List.mem_flatMap.1 hl
    have hsw : s ∈ w.shapes := (List.perm_insertionSort _ w.shapes).mem_iff.1 hs
    have hclean := hcs s hsw
    obtain ⟨hRne, hRclean⟩ := rowsList_clean_shape hnd hsw hclean
    rcases hR : rowsList w s.shapeId with _ | ⟨r0, rs⟩
    · exact absurd hR hRne
    · rw [hR, exportShapeLines_cons] at hls
      rcases List.mem_cons.1 hls with rfl | hls
      · exact ⟨s, true, r0, hsw, hclean,
          hRclean r0 (by rw [hR]; exact List.mem_cons_self r0 rs), rfl⟩
      · obtain ⟨r, hr, rfl⟩ := List.mem_map.1 hls
        exact ⟨s, false, r, hsw, hclean,
          hRclean r (by rw [hR]; exact List.mem_cons_of_mem r0 hr), rfl⟩
  have hlines : splitLines (exportWorkspace w false) =
      List.intercalate [','] csvHeaders ::
        (shapesList w).flatMap
          (fun s => exportShapeLines ',' s (rowsList w s.shapeId)) := by
    rw [exportWorkspace_eq]
    apply splitLines_inter
    · simp
    · intro l hl
      rcases List.mem_cons.1 hl with rfl | hl
      · exact ⟨by decide, by decide⟩
      · obtain ⟨s, isF, r, _, hcls, hclr, rfl⟩ := hblock l hl
        exact ⟨lineOfRow_no_nl s isF r hcls hclr, lineOfRow_last s isF r hclr⟩
  have hfilter : (List.intercalate [','] csvHeaders ::
      (shapesList w).flatMap
        (fun s => exportShapeLines ',' s (rowsList w s.shapeId))).filter
      (fun l => !(jstrim l).isEmpty) =
      List.intercalate [','] csvHeaders ::
        (shapesList w).flatMap
          (fun s => exportShapeLines ',' s (rowsList w s.shapeId)) := by
    apply List.filter_eq_self.2
    intro l hl
    rcases List.mem_cons.1 hl with rfl | hl
    · decide
    · obtain ⟨s, isF, r, _, _, _, rfl⟩ := hblock l hl
      rw [lineOfRow_nonblank]
      rfl
  have hflat := processLines_flat w hnd (shapesList w) {} 1
    (fun s hs => ⟨(List.perm_insertionSort _ w.shapes).mem_iff.1 hs,
      hcs s ((List.perm_insertionSort _ w.shapes).mem_iff.1 hs)⟩)
  obtain ⟨c1, c2, c3, hloop⟩ := hflat
  have hmiss : ((lookupCol csvM .propertyId).isNone &&
      (lookupCol csvM .shapeID).isNone) = false := by decide
  simp only [parseCSV, detectDelimiter_export, hlines, hfilter]
  rw [show colIdxMap (parseCSVLine (List.intercalate [','] csvHeaders) ',') = csvM
    from rfl]
  simp only [hmiss, Bool.false_eq_true, if_false]
  rw [hloop]
  rw [parsedRowsOf]
  rfl

/-- JS `a || b` keeps a nonempty present string. -/
theorem jsOrStr_some_ne {v : Str} (h : v ≠ []) (d : Str) : jsOrStr (some v) d = v := by
  rw [jsOrStr]
  have hie : v.isEmpty = false := by
    cases hx : v
    · exact absurd hx h
    · rfl
  simp [hie]

/-- Inserting a row under a fresh key appends a new group. -/
theorem groupInsert_new (gs : List (Str × CsvGroup)) (row : ParsedRow) {sid : Str}
    (hsid : jsOrStr row.shapeID (str r"default") = sid)
    (hnot : ∀ e ∈ gs, (e.1 == sid) = false) :
    groupInsert gs row =
      gs ++ [(sid, groupUpdate { label := row.shapeLabel,
                                 resourceURI := row.resourceURI } row)] := by
  rw [groupInsert]
  simp only [hsid]
  have hany : gs.any (fun e => e.1 == sid) = false := by
    rw [List.any_eq_false]
    intro e he
    rw [hnot e he]
    simp
  rw [hany]
  simp only [Bool.false_eq_true, if_false]
  rw [List.map_append]
  congr 1
  · conv_rhs => rw [← List.map_id gs]
    apply List.map_congr_left
    intro e he
    simp [hnot e he]
  · simp

/-- Inserting a row under the key of the last group updates that group. -/
theorem groupInsert_exist (pre : List (Str × CsvGroup)) (sid : Str) (g : CsvGroup)
    (row : ParsedRow)
    (hsid : jsOrStr row.shapeID (str r"default") = sid)
    (hpre : ∀ e ∈ pre, (e.1 == sid) = false) :
    groupInsert (pre ++ [(sid, g)]) row = pre ++ [(sid, groupUpdate g row)] := by
  rw [groupInsert]
  simp only [hsid]
  have hany : (pre ++ [(sid, g)]).any (fun e => e.1 == sid) = true := by
    rw [List.any_append]
    simp
  rw [hany]
  simp only [if_true]
  rw [List.map_append]
  congr 1
  · conv_rhs => rw [← List.map_id pre]
    apply List.map_congr_left
    intro e he
    simp [hpre e he]
  · simp

/-- The rows accumulated into a group. -/
theorem groupAddAll_rows : ∀ (rows : List ParsedRow) (g : CsvGroup),
    (groupAddAll g rows).rows = g.rows ++ rows.map (fun r => r.data)
  | [], g => by simp [groupAddAll]
  | row :: rows, g => by
    rw [groupAddAll, List.foldl_cons]
    rw [show List.foldl groupUpdate (groupUpdate g row) rows =
        groupAddAll (groupUpdate g row) rows from rfl]
    rw [groupAddAll_rows rows _]
    simp [groupUpdate, List.append_assoc]

/-- Folding one same-key block of rows into the grouping map. -/
theorem groupRows_block : ∀ (rows : List ParsedRow) (pre : List (Str × CsvGroup))
      (sid : Str) (g : CsvGroup),
    (∀ row ∈ rows, jsOrStr row.shapeID (str r"default") = sid) →
    (∀ e ∈ pre, (e.1 == sid) = false) →
    rows.foldl groupInsert (pre ++ [(sid, g)]) =
      pre ++ [(sid, groupAddAll g rows)]
  | [], pre, sid, g, _, _ => by simp [groupAddAll]
  | row :: rows, pre, sid, g, hall, hpre => by
    rw [List.foldl_cons, groupInsert_exist pre sid g row
        (hall row (List.mem_cons_self row rows)) hpre,
      groupRows_block rows pre sid (groupUpdate g row)
        (fun x hx => hall x (List.mem_cons_of_mem row hx)) hpre]
    rfl

/-- Grouping the parsed export rows: one group per shape, in listing order,
holding that shape's row requests in order. -/
theorem groupRows_flat (w : Workspace) (hnd : (shapeIds w).Nodup) :
    ∀ (shapes : List Shape) (pre : List (Str × CsvGroup)),
      (∀ s ∈ shapes, s ∈ w.shapes ∧ cleanShape s) →
      (shapes.map (fun s => s.shapeId)).Nodup →
      (∀ s ∈ shapes, ∀ e ∈ pre, (e.1 == s.shapeId) = false) →
      ∃ G : Shape → CsvGroup,
        (shapes.flatMap (fun s => (rowsList w s.shapeId).map (parsedOfRow s))).foldl
          groupInsert pre =
          pre ++ shapes.map (fun s => (s.shapeId, G s)) ∧
        ∀ s ∈ shapes, (G s).rows = (rowsList w s.shapeId).map reqOfRow
  | [], pre, _, _, _ => ⟨fun _ => {}, by simp, by simp⟩
  | s :: rest, pre, h, hndS, hpre => by
    obtain ⟨hsw, hclean⟩ := h s (List.mem_cons_self s rest)
    obtain ⟨hRne, hRclean⟩ := rowsList_clean_shape hnd hsw hclean
    have hcons : (s.shapeId :: rest.map (fun x => x.shapeId)).Nodup := hndS
    rw [List.nodup_cons] at hcons
    obtain ⟨hnots, hndR⟩ := hcons
    have hkey : ∀ row ∈ (rowsList w s.shapeId).map (parsedOfRow s),
        jsOrStr row.shapeID (str r"default") = s.shapeId := by
      intro row hrow
      obtain ⟨r, _, rfl⟩ := List.mem_map.1 hrow
      exact jsOrStr_some_ne hclean.2.1.2.2 _
    rcases hR : rowsList w s.shapeId with _ | ⟨r0, rs⟩
    · exact absurd hR hRne
    · set GH : CsvGroup := groupAddAll
        (groupUpdate { label := (parsedOfRow s r0).shapeLabel,
                       resourceURI := (parsedOfRow s r0).resourceURI }
          (parsedOfRow s r0)) (rs.map (parsedOfRow s)) with hGH
      obtain ⟨G2, hG2, hG2rows⟩ := groupRows_flat w hnd rest
        (pre ++ [(s.shapeId, GH)])
        (fun x hx => h x (List.mem_cons_of_mem s hx)) hndR
        (by
          intro x hx e he
          rcases List.mem_append.1 he with he | he
          · exact hpre x (List.mem_cons_of_mem s hx) e he
          · rw [List.mem_singleton.1 he]
            rw [beq_eq_false_iff_ne]
            intro hes
            have hes2 : s.shapeId = x.shapeId := hes
            apply hnots
            rw [hes2]
            exact List.mem_map_of_mem (fun y => y.shapeId) hx)
      refine ⟨fun x => if x = s then GH else G2 x, ?_, ?_⟩
      · rw [List.flatMap_cons, List.foldl_append, hR, List.map_cons,
          List.foldl_cons]
        rw [groupInsert_new pre (parsedOfRow s r0)
            (hkey (parsedOfRow s r0) (by rw [hR]; simp [List.map_cons]))
            (fun e he => hpre s (List.mem_cons_self s rest) e he)]
        rw [groupRows_block (rs.map (parsedOfRow s)) pre s.shapeId _
            (fun row hrow => hkey row
              (by rw [hR, List.map_cons]; exact List.mem_cons_of_mem _ hrow))
            (fun e he => hpre s (List.mem_cons_self s rest) e he)]
        rw [← hGH, hG2]
        have hmap : rest.map (fun x => (x.shapeId,
            if x = s then GH else G2 x)) = rest.map (fun x => (x.shapeId, G2 x)) := by
          apply List.map_congr_left
          intro x hx
          have hxns : ¬ x = s := by
            intro hxs
            apply hnots
            rw [← hxs]
            exact List.mem_map_of_mem (fun y => y.shapeId) hx
          rw [if_neg hxns]
        rw [List.map_cons]
        beta_reduce
        rw [if_pos rfl, hmap]
        simp [List.append_assoc]
      · intro x hx
        rcases List.mem_cons.1 hx with rfl | hx
        · beta_reduce
          rw [if_pos rfl, hGH, groupAddAll_rows, hR]
          simp [groupUpdate, List.map_map, Function.comp, parsedOfRow]
        · have hxns : ¬ x = s := by
            intro hxs
            apply hnots
            rw [← hxs]
            exact List.mem_map_of_mem (fun y => y.shapeId) hx
          beta_reduce
          rw [if_neg hxns]
          exact hG2rows x hx

/-- Closed form of `csvImportShapeRows` when exactly the last shape has the
target id (workspace component). -/
theorem csvImportShapeRows_ws (known : List Str) (sid : Str) :
    ∀ (rows : List CreateRowRequest) (w0 : Workspace) (pre : List Shape) (s : Shape)
      (i : Nat) (u : List Str) (ws : List ValidationMsg) (t : Nat),
      (∀ x ∈ pre, (x.shapeId == sid) = false) → s.shapeId = sid →
      (csvImportShapeRows known sid { w0 with shapes := pre ++ [s] } rows i u ws t).1 =
        { w0 with shapes := pre ++ [{ s with rows := s.rows ++ csvRowsFrom i rows }] }
  | [], w0, pre, s, i, u, ws, t, hpre, hs => by
    simp [csvImportShapeRows, csvRowsFrom]
  | d :: ds, w0, pre, s, i, u, ws, t, hpre, hs => by
    simp only [csvImportShapeRows]
    rw [rowCreate_last w0 pre s sid _ hpre hs]
    rw [show mkRow s.rows { d with rowOrder := some i } =
        mkRow [] { d with rowOrder := some i } from rfl]
    rw [csvImportShapeRows_ws known sid ds w0 pre
        ({ s with rows := s.rows ++ [mkRow [] { d with rowOrder := some i }] })
        (i + 1) (csvScanPfx known sid i d u ws).1 (csvScanPfx known sid i d u ws).2
        (t + 1) hpre hs]
    simp [csvRowsFrom, List.append_assoc]

/-- Closed form of `csvImportGroups` (workspace component): all group shapes
appended in order. -/
theorem csvImportGroups_ws (known : List Str) :
    ∀ (groups : List (Str × CsvGroup)) (w : Workspace) (u : List Str)
      (ws : List ValidationMsg) (t : Nat),
      (∀ e ∈ groups, ∀ x ∈ w.shapes, (x.shapeId == e.1) = false) →
      (groups.map Prod.fst).Nodup →
      (csvImportGroups known w groups u ws t).1 =
        { w with shapes := w.shapes ++ groups.map csvGroupShape }
  | [], w, u, ws, t, _, _ => by simp [csvImportGroups]
  | e :: rest, w, u, ws, t, hcl, hnd => by
    have hcons : (e.1 :: rest.map Prod.fst).Nodup := hnd
    rw [List.nodup_cons] at hcons
    obtain ⟨hnote, hndR⟩ := hcons
    simp only [csvImportGroups]
    have hcreate : shapeCreate w e.1 (normField e.2.label)
        (normField e.2.resourceURI) none none =
        { w with shapes := w.shapes ++ [csvGroupShapeBare e] } := rfl
    rw [hcreate]
    rw [csvImportShapeRows_ws known e.1 e.2.rows w w.shapes (csvGroupShapeBare e)
        0 u ws t (fun x hx => hcl e (List.mem_cons_self e rest) x hx) rfl]
    have hbare : ({ csvGroupShapeBare e with
        rows := (csvGroupShapeBare e).rows ++ csvRowsFrom 0 e.2.rows } : Shape) =
        csvGroupShape e := rfl
    rw [hbare]
    rw [csvImportGroups_ws known rest
        { w with shapes := w.shapes ++ [csvGroupShape e] } _ _ _
        (by
          intro x hx y hy
          rcases List.mem_append.1 hy with hy | hy
          · exact hcl x (List.mem_cons_of_mem e hx) y hy
          · rw [List.mem_singleton.1 hy]
            rw [show (csvGroupShape e).shapeId = e.1 from rfl, beq_eq_false_iff_ne]
            intro hex
            exact hnote (hex ▸ List.mem_map_of_mem Prod.fst hx))
        hndR]
    simp [List.append_assoc]

/-- Placeholder namespaces do not change the shapes. -/
theorem csvCreatePlaceholders_shapes : ∀ (u : List Str) (w : Workspace)
      (ws : List ValidationMsg),
    (csvCreatePlaceholders w u ws).1.shapes = w.shapes
  | [], w, ws => rfl
  | p :: ps, w, ws => by
    simp only [csvCreatePlaceholders]
    rw [csvCreatePlaceholders_shapes ps _ _]
    rfl

/-- Imported rows carry row orders at least the start order. -/
theorem csvRowsFrom_ge : ∀ (ds : List CreateRowRequest) (i : Nat),
    ∀ r ∈ csvRowsFrom i ds, i ≤ r.rowOrder
  | [], _, _, hr => by cases hr
  | d :: ds, i, r, hr => by
    rcases List.mem_cons.1 hr with h | h
    · rw [h]; exact Nat.le_refl i
    · exact Nat.le_trans (Nat.le_succ i) (csvRowsFrom_ge ds (i + 1) r h)

/-- Imported rows are sorted by row order. -/
theorem csvRowsFrom_sorted : ∀ (ds : List CreateRowRequest) (i : Nat),
    List.Sorted (fun a b => a.rowOrder ≤ b.rowOrder) (csvRowsFrom i ds)
  | [], _ => List.sorted_nil
  | d :: ds, i => by
    rw [csvRowsFrom]
    exact List.sorted_cons.2
      ⟨fun b hb => Nat.le_trans (Nat.le_succ i) (csvRowsFrom_ge ds (i + 1) b hb),
       csvRowsFrom_sorted ds (i + 1)⟩

/-- The statement tuples of the imported rows. -/
theorem csvRowsFrom_tuples : ∀ (ds : List CreateRowRequest) (i : Nat),
    (csvRowsFrom i ds).map rowTuple = ds.map reqTuple
  | [], _ => rfl
  | d :: ds, i => by
    rw [csvRowsFrom, List.map_cons, List.map_cons, csvRowsFrom_tuples ds (i + 1)]
    rfl

/-- A clean single-value field is unchanged by the null coercion. -/
theorem normField_clean {o : Option Str} (h : cleanOptNoNl o) : normField o = o := by
  cases o with
  | none => rfl
  | some v =>
    obtain ⟨_, _, hne⟩ := h v rfl
    rw [normField, Option.some_bind, orNull]
    have hie : v.isEmpty = false := by
      cases hx : v
      · exact absurd hx hne
      · rfl
    simp [hie]

/-- A pipe-converted clean multi-value field is unchanged by the null
coercion. -/
theorem normField_multi {o : Option Str} (h : cleanOptMulti o) :
    normField (o.map nlToPipe) = o.map nlToPipe := by
  cases o with
  | none => rfl
  | some v =>
    obtain ⟨_, hne⟩ := h v rfl
    show normField (some (nlToPipe v)) = some (nlToPipe v)
    rw [normField, Option.some_bind, orNull]
    have hnn : nlToPipe v ≠ [] := nlToPipe_ne_nil hne
    have hie : (nlToPipe v).isEmpty = false := by
      cases hx : nlToPipe v
      · exact absurd hx hnn
      · rfl
    simp [hie]

/-- The round-trip action on one clean row's statement tuple. -/
theorem reqTuple_reqOfRow (r : StatementRow) (hr : cleanRow r) :
    reqTuple (reqOfRow r) = pipeTuple (rowTuple r) := by
  obtain ⟨_, h1, h2, h3, h4, h5, h6, h7, h8, h9, h10, h11, h12, h13, h14⟩ := hr
  rw [reqTuple, reqOfRow, pipeTuple, rowTuple]
  simp only [RowTuple.mk.injEq]
  exact ⟨normField_clean h1, normField_clean h2, normField_clean h3,
    normField_clean h4, normField_clean h5, normField_clean h6,
    normField_multi h7, normField_multi h8, normField_clean h9,
    normField_clean h10, normField_clean h11, normField_clean h12,
    normField_clean h13, normField_clean h14⟩

/-- Unfolding `importToWorkspace` on a successful, warning-free parse. -/
theorem importToWorkspace_ok (store : List Workspace) (content name : Str)
    (rows : List ParsedRow)
    (hp : parseCSV content =
      { success := true, rows := some rows, errors := [], warnings := [] }) :
    importToWorkspace store content name =
      (store ++ [(csvCreatePlaceholders
          (csvImportGroups csvKnown (workspaceCreate name) (groupRows rows) [] [] 0).1
          (csvImportGroups csvKnown (workspaceCreate name) (groupRows rows) [] [] 0).2.1
          (csvImportGroups csvKnown (workspaceCreate name)
            (groupRows rows) [] [] 0).2.2.1).1],
       { success := true, shapesCreated := (groupRows rows).length,
         rowsImported := (csvImportGroups csvKnown (workspaceCreate name)
           (groupRows rows) [] [] 0).2.2.2,
         warnings := (csvCreatePlaceholders
           (csvImportGroups csvKnown (workspaceCreate name) (groupRows rows) [] [] 0).1
           (csvImportGroups csvKnown (workspaceCreate name) (groupRows rows) [] [] 0).2.1
           (csvImportGroups csvKnown (workspaceCreate name)
             (groupRows rows) [] [] 0).2.2.1).2,
         unknownNamespaces := (csvImportGroups csvKnown (workspaceCreate name)
           (groupRows rows) [] [] 0).2.1 }) := by
  unfold importToWorkspace
  rw [hp]
  rfl

/-- The imported workspace has the same shape-id membership as the source. -/
theorem shapeIds_imported (w : Workspace) (G : Shape → CsvGroup) (w2 : Workspace)
    (hsh : w2.shapes = (csvGroupsOf w G).map csvGroupShape) :
    ∀ id, id ∈ shapeIds w2 ↔ id ∈ shapeIds w := by
  intro id
  simp only [shapeIds, hsh, csvGroupsOf, List.map_map]
  show id ∈ (shapesList w).map (fun s => s.shapeId) ↔
    id ∈ w.shapes.map (fun s => s.shapeId)
  exact (List.Perm.map (fun s => s.shapeId)
    (List.perm_insertionSort (fun a b => strLeb a.shapeId b.shapeId = true)
      w.shapes)).mem_iff

/-- The imported workspace reproduces the per-shape statement tuples up to
newline-to-pipe conversion. -/
theorem tuples_imported (w : Workspace) (hnd : (shapeIds w).Nodup)
    (G : Shape → CsvGroup) (w2 : Workspace)
    (hsh : w2.shapes = (csvGroupsOf w G).map csvGroupShape)
    {s : Shape} (hs : s ∈ w.shapes)
    (hcr : ∀ r ∈ rowsList w s.shapeId, cleanRow r)
    (hGr : (G s).rows = (rowsList w s.shapeId).map reqOfRow) :
    shapeRowTuples w2 s.shapeId = (shapeRowTuples w s.shapeId).map pipeTuple := by
  have hnd' : (w.shapes.map (fun x : Shape => x.shapeId)).Nodup := hnd
  have hndS : ((shapesList w).map (fun x : Shape => x.shapeId)).Nodup :=
    (List.Perm.nodup_iff (List.Perm.map (fun x : Shape => x.shapeId)
      (List.perm_insertionSort (fun a b : Shape => strLeb a.shapeId b.shapeId = true)
        w.shapes))).2 hnd'
  have hsL : s ∈ shapesList w :=
    (List.perm_insertionSort (fun a b : Shape => strLeb a.shapeId b.shapeId = true)
      w.shapes).mem_iff.2 hs
  have hget : shapeGet w2 s.shapeId = some (csvGroupShape (s.shapeId, G s)) := by
    simp only [shapeGet, hsh]
    apply find?_unique (p := fun x : Shape => x.shapeId == s.shapeId)
    · exact List.mem_map_of_mem csvGroupShape
        (List.mem_map_of_mem (fun x => (x.shapeId, G x)) hsL)
    · exact beq_self_eq_true s.shapeId
    · intro y hy hpy
      simp only [csvGroupsOf, List.map_map] at hy
      obtain ⟨t, ht, hty⟩ := List.mem_map.1 hy
      rw [← hty] at hpy ⊢
      have hts : t = s := List.inj_on_of_nodup_map hndS ht hsL (eq_of_beq hpy)
      rw [hts]
      rfl
  have hrows2 : rowsList w2 s.shapeId = csvRowsFrom 0 (G s).rows := by
    simp only [rowsList, hget]
    exact List.Sorted.insertionSort_eq (csvRowsFrom_sorted (G s).rows 0)
  simp only [shapeRowTuples]
  rw [hrows2, csvRowsFrom_tuples, hGr, List.map_map, List.map_map]
  apply List.map_congr_left
  intro r hr
  show reqTuple (reqOfRow r) = pipeTuple (rowTuple r)
  exact reqTuple_reqOfRow r (hcr r hr)

/-- **C1** (corrected): for a workspace of plain shapes — every shape nonempty
with a clean id, newline-free labels, and all rows bearing data with clean
single-value cells and trim-stable nonempty multi-value cells — importing the
output of `exportWorkspace` via `importToWorkspace` succeeds, reproduces the
same set of shape ids, and per shape the same ordered statement-row tuples up
to the newline-to-pipe conversion on `valueShape` and `valueConstraint`. -/
theorem c1_csv_roundtrip (w : Workspace) (store : List Workspace) (name : Str)
    (hw : csvCleanWorkspace w) :
    ∃ (w2 : Workspace) (res : ImportResultC),
      importToWorkspace store (exportWorkspace w false) name =
        (store ++ [w2], res) ∧
      res.success = true ∧
      (∀ id, id ∈ shapeIds w2 ↔ id ∈ shapeIds w) ∧
      ∀ s ∈ w.shapes, shapeRowTuples w2 s.shapeId =
        (shapeRowTuples w s.shapeId).map pipeTuple := by
  obtain ⟨hnd, hcs⟩ := hw
  have hperm := List.perm_insertionSort
    (fun a b : Shape => strLeb a.shapeId b.shapeId = true) w.shapes
  have hnd' : (w.shapes.map (fun x : Shape => x.shapeId)).Nodup := hnd
  have hndS : ((shapesList w).map (fun x : Shape => x.shapeId)).Nodup :=
    (List.Perm.nodup_iff (List.Perm.map (fun x : Shape => x.shapeId) hperm)).2 hnd'
  obtain ⟨G, hG, hGrows⟩ := groupRows_flat w hnd (shapesList w) []
    (fun s hs => ⟨hperm.mem_iff.1 hs, hcs s (hperm.mem_iff.1 hs)⟩) hndS
    (fun s _ e he => absurd he (List.not_mem_nil e))
  have hGR : groupRows (parsedRowsOf w) = csvGroupsOf w G := by
    simp only [groupRows, parsedRowsOf, csvGroupsOf]
    rw [hG, List.nil_append]
  have hITW := importToWorkspace_ok store (exportWorkspace w false) name
    (parsedRowsOf w) (parseCSV_export w ⟨hnd, hcs⟩)
  rw [hGR] at hITW
  have hkeys : ((csvGroupsOf w G).map Prod.fst).Nodup := by
    simp only [csvGroupsOf, List.map_map]
    exact hndS
  have himp := csvImportGroups_ws csvKnown (csvGroupsOf w G) (workspaceCreate name)
    [] [] 0 (fun e _ x hx => absurd hx (List.not_mem_nil x)) hkeys
  have hsh : (csvCreatePlaceholders
      (csvImportGroups csvKnown (workspaceCreate name) (csvGroupsOf w G) [] [] 0).1
      (csvImportGroups csvKnown (workspaceCreate name) (csvGroupsOf w G) [] [] 0).2.1
      (csvImportGroups csvKnown (workspaceCreate name)
        (csvGroupsOf w G) [] [] 0).2.2.1).1.shapes =
      (csvGroupsOf w G).map csvGroupShape := by
    rw [csvCreatePlaceholders_shapes, himp]
    rfl
  refine ⟨_, _, hITW, rfl, shapeIds_imported w G _ hsh, ?_⟩
  intro s hs
  exact tuples_imported w hnd G _ hsh hs
    ((rowsList_clean_shape hnd hs (hcs s hs)).2)
    (hGrows s (hperm.mem_iff.2 hs))

set_option maxRecDepth 16384 in
/-- **C1 witness**: the round trip on a concrete clean one-shape workspace
with a fully populated row (comma, quotes and an embedded newline included). -/
theorem c1_csv_roundtrip_witness :
    csvCleanWorkspace c1WitWorkspace ∧
    c1ImpOut.2.success = true ∧
    shapeRowTuples c1ImpWs (str r"S1") =
      (shapeRowTuples c1WitWorkspace (str r"S1")).map pipeTuple := by
  obtain ⟨w2, res, heq, hsucc, hids, htup⟩ :=
    c1_csv_roundtrip c1WitWorkspace [] (str r"w") (by decide)
  have hout : c1ImpOut = ([w2], res) := by
    show importToWorkspace [] (exportWorkspace c1WitWorkspace false) (str r"w") = _
    rw [heq]
    rfl
  have hws : c1ImpWs = w2 := by
    show c1ImpOut.1.headD (workspaceCreate []) = w2
    rw [hout]
    rfl
  refine ⟨by decide, ?_, ?_⟩
  · show c1ImpOut.2.success = true
    rw [hout]
    exact hsucc
  · rw [hws]
    exact htup c1WitShape (List.mem_singleton_self c1WitShape)
